import Mathlib

/-!
# Tetris_with_OpenGL: board, piece and controller core

A shallow embedding of the game core of `src/src/main.cpp` and
`src/src/Helpers.cpp` (class `TetrisShape`), followed by theorems about it.

Conventions of the embedding

* C++ `int` coordinates are `Int`; the game keeps them within a few units of
  `[0,19]`, so no 32-bit wrap-around is modelled.
* `board_grid` is a function `Int → Int → Bool`; only the entries with both
  indices in `[0,19]` are the 20x20 array of the program.
* A read `board_grid[r][c]` whose indices leave `[0,19]` is outside the array.
  Its value is supplied by an arbitrary oracle `oob`, and every theorem below
  is stated for all oracles.
* `coordinate.x` is the row and `coordinate.y` the column, as in the source.
-/

set_option autoImplicit false

namespace Tetris

/-! ## Data model (`Helpers.h`) -/

/-- The enum `SHAPE_TYPE` of `Helpers.h`. -/
inductive SHAPE_TYPE where
  | TETRIS_LSHAPE
  | TETRIS_GAMMASHAPE
  | TETRIS_STRIPSHAPE
  | TETRIS_TSHAPE
  | TETRIS_SQUARESHAPE
  | TETRIS_LEFTNSHAPE
  | TETRIS_RIGHTNSHAPE
  | TETRIS_TOTALSHAPE
  deriving DecidableEq, Repr

/-- The enum `SHAPE_SUBTYPE` of `Helpers.h`. -/
inductive SHAPE_SUBTYPE where
  | LSHAPE_DOWN
  | LSHAPE_LEFT
  | LSHAPE_UP
  | LSHAPE_RIGHT
  | GAMMASHAPE_DOWN
  | GAMMASHAPE_RIGHT
  | GAMMASHAPE_UP
  | GAMMASHAPE_LEFT
  | STRIPSHAPE_LANDSCAPE
  | STRIPSHAPE_PORTRAIT
  | TSHAPE_DOWN
  | TSHAPE_LEFT
  | TSHAPE_UP
  | TSHAPE_RIGHT
  | LEFTNSHAPE_VERTICAL
  | LEFTNSHAPE_HORIZONTAL
  | RIGHTNSHAPE_VERTICAL
  | RIGHTNSHAPE_HORIZONTAL
  deriving DecidableEq, Repr

/-- The struct `coordinate` of `Helpers.h`: `x` is the row, `y` the column. -/
structure coordinate where
  x : Int
  y : Int
  deriving DecidableEq, Repr

namespace coordinate

/-- The method `coordinate::move_down`: `++x`. -/
def move_down (c : coordinate) : coordinate := { c with x := c.x + 1 }

/-- The method `coordinate::move_left`: `--y`. -/
def move_left (c : coordinate) : coordinate := { c with y := c.y - 1 }

/-- The method `coordinate::move_right`: `++y`. -/
def move_right (c : coordinate) : coordinate := { c with y := c.y + 1 }

end coordinate

/-- The class `TetrisShape`: `cdnt[0..3]` are the fields `c0 .. c3`. -/
structure TetrisShape where
  stype : SHAPE_TYPE
  shsubtype : SHAPE_SUBTYPE
  c0 : coordinate
  c1 : coordinate
  c2 : coordinate
  c3 : coordinate
  deriving DecidableEq, Repr

/-- The global `bool board_grid[20][20]`, seen as a function of row and column. -/
abbrev Board := Int → Int → Bool

/-- Both indices lie in `[0,19]`. -/
def inRange (r c : Int) : Bool :=
  decide (0 ≤ r) && decide (r ≤ 19) && decide (0 ≤ c) && decide (c ≤ 19)

/-- The read `board_grid[r][c]`: the array entry when the indices are in range,
the oracle's answer otherwise. -/
def board_at (oob : Int → Int → Bool) (b : Board) (r c : Int) : Bool :=
  if inRange r c then b r c else oob r c

/-- The write `board_grid[r][c] = v`. -/
def board_set (b : Board) (r c : Int) (v : Bool) : Board :=
  fun r2 c2 => if r2 = r ∧ c2 = c then v else b r2 c2

namespace TetrisShape

/-- The array `cdnt` as a list, in index order. -/
def cells (t : TetrisShape) : List coordinate := [t.c0, t.c1, t.c2, t.c3]

/-- The constructor `TetrisShape::TetrisShape(SHAPE_TYPE t)`.  The member
`shsubtype` is left uninitialised for the square (and in the `default` branch);
`uninit` is the value it then happens to hold. -/
def mk_shape (t : SHAPE_TYPE) (uninit : SHAPE_SUBTYPE) : TetrisShape :=
  match t with
  | .TETRIS_LSHAPE =>
      { stype := t, shsubtype := .LSHAPE_DOWN,
        c0 := ⟨0, 10⟩, c1 := ⟨0, 11⟩, c2 := ⟨0, 12⟩, c3 := ⟨1, 12⟩ }
  | .TETRIS_GAMMASHAPE =>
      { stype := t, shsubtype := .GAMMASHAPE_DOWN,
        c0 := ⟨0, 10⟩, c1 := ⟨0, 9⟩, c2 := ⟨0, 8⟩, c3 := ⟨1, 8⟩ }
  | .TETRIS_STRIPSHAPE =>
      { stype := t, shsubtype := .STRIPSHAPE_LANDSCAPE,
        c0 := ⟨0, 10⟩, c1 := ⟨0, 11⟩, c2 := ⟨0, 12⟩, c3 := ⟨0, 13⟩ }
  | .TETRIS_TSHAPE =>
      { stype := t, shsubtype := .TSHAPE_DOWN,
        c0 := ⟨0, 10⟩, c1 := ⟨0, 11⟩, c2 := ⟨0, 12⟩, c3 := ⟨1, 11⟩ }
  | .TETRIS_SQUARESHAPE =>
      { stype := t, shsubtype := uninit,
        c0 := ⟨0, 10⟩, c1 := ⟨0, 11⟩, c2 := ⟨1, 10⟩, c3 := ⟨1, 11⟩ }
  | .TETRIS_LEFTNSHAPE =>
      { stype := t, shsubtype := .LEFTNSHAPE_VERTICAL,
        c0 := ⟨0, 10⟩, c1 := ⟨1, 10⟩, c2 := ⟨1, 11⟩, c3 := ⟨2, 11⟩ }
  | .TETRIS_RIGHTNSHAPE =>
      { stype := t, shsubtype := .RIGHTNSHAPE_VERTICAL,
        c0 := ⟨0, 10⟩, c1 := ⟨1, 10⟩, c2 := ⟨1, 9⟩, c3 := ⟨2, 9⟩ }
  | .TETRIS_TOTALSHAPE =>
      { stype := t, shsubtype := uninit,
        c0 := ⟨0, 10⟩, c1 := ⟨0, 0⟩, c2 := ⟨0, 0⟩, c3 := ⟨0, 0⟩ }

/-- The method `TetrisShape::leftmost`. -/
def leftmost (t : TetrisShape) : Int :=
  min (min (min t.c0.y t.c1.y) t.c2.y) t.c3.y

/-- The method `TetrisShape::rightmost`. -/
def rightmost (t : TetrisShape) : Int :=
  max (max (max t.c0.y t.c1.y) t.c2.y) t.c3.y

/-- The method `TetrisShape::upmost`. -/
def upmost (t : TetrisShape) : Int :=
  min (min (min t.c0.x t.c1.x) t.c2.x) t.c3.x

/-- The method `TetrisShape::downmost`. -/
def downmost (t : TetrisShape) : Int :=
  max (max (max t.c0.x t.c1.x) t.c2.x) t.c3.x

/-- The method `TetrisShape::move_left`. -/
def move_left (t : TetrisShape) : TetrisShape :=
  { t with c0 := t.c0.move_left, c1 := t.c1.move_left,
           c2 := t.c2.move_left, c3 := t.c3.move_left }

/-- The method `TetrisShape::move_right`. -/
def move_right (t : TetrisShape) : TetrisShape :=
  { t with c0 := t.c0.move_right, c1 := t.c1.move_right,
           c2 := t.c2.move_right, c3 := t.c3.move_right }

/-- The method `TetrisShape::move_down`. -/
def move_down (t : TetrisShape) : TetrisShape :=
  { t with c0 := t.c0.move_down, c1 := t.c1.move_down,
           c2 := t.c2.move_down, c3 := t.c3.move_down }

/-- The method `TetrisShape::can_move_left`: the loop returns `false` at the first cell
whose left neighbour reads as occupied; otherwise `leftmost() > 0`. -/
def can_move_left (oob : Int → Int → Bool) (b : Board) (t : TetrisShape) : Bool :=
  if t.cells.any (fun c => board_at oob b c.x (c.y - 1)) then false
  else decide (t.leftmost > 0)

/-- The method `TetrisShape::can_move_right`. -/
def can_move_right (oob : Int → Int → Bool) (b : Board) (t : TetrisShape) : Bool :=
  if t.cells.any (fun c => board_at oob b c.x (c.y + 1)) then false
  else decide (t.rightmost < 19)

/-- The method `TetrisShape::can_move_down`. -/
def can_move_down (oob : Int → Int → Bool) (b : Board) (t : TetrisShape) : Bool :=
  if t.cells.any (fun c => board_at oob b (c.x + 1) c.y) then false
  else decide (t.downmost < 19)

/-- The method `TetrisShape::is_display`. -/
def is_display (t : TetrisShape) (x y : Int) : Bool :=
  t.cells.any (fun c => decide (x = c.x) && decide (y = c.y))

/-- The method `TetrisShape::persist`: four writes `board_grid[cdnt[i].x][cdnt[i].y] = true`. -/
def persist (b : Board) (t : TetrisShape) : Board :=
  t.cells.foldl (fun bg c => board_set bg c.x c.y true) b

/-! ### Rotation predicates (`can_morph_*`) -/

/-- The method `TetrisShape::can_morph_stripe`.  The loops read the board before any
bound is tested; the bound is the final `return`. -/
def can_morph_stripe (oob : Int → Int → Bool) (b : Board) (t : TetrisShape) : Bool :=
  match t.shsubtype with
  | .STRIPSHAPE_LANDSCAPE =>
      if [0, 1, 2, 3].any (fun i : Int => board_at oob b (t.c0.x + i) t.c0.y) then false
      else decide (t.c0.x + 3 < 20)
  | .STRIPSHAPE_PORTRAIT =>
      if [0, 1, 2, 3].any (fun i : Int => board_at oob b t.c0.x (t.c0.y + i)) then false
      else decide (t.c0.y + 3 < 20)
  | _ => false

/-- The method `TetrisShape::can_lshape_down_to_left`. -/
def can_lshape_down_to_left (oob : Int → Int → Bool) (b : Board) (t : TetrisShape) : Bool :=
  if [0, 1, 2].any (fun i : Int =>
      decide (t.c2.x + i > 19) || board_at oob b (t.c2.x + i) (t.c2.y)) then false
  else if decide (t.c1.x + 2 > 19) || board_at oob b (t.c1.x + 2) (t.c2.y) then false
  else decide (t.downmost < 19)

/-- The method `TetrisShape::can_lshape_left_to_up`. -/
def can_lshape_left_to_up (oob : Int → Int → Bool) (b : Board) (t : TetrisShape) : Bool :=
  if [0, 1, 2].any (fun i : Int =>
      decide (t.c2.y - i < 0) || board_at oob b (t.c2.x) (t.c2.y - i)) then false
  else if decide (t.c1.y - 2 < 0) || board_at oob b (t.c1.x) (t.c1.y - 2) then false
  else decide (t.leftmost > 1)

/-- The method `TetrisShape::can_lshape_up_to_right`. -/
def can_lshape_up_to_right (oob : Int → Int → Bool) (b : Board) (t : TetrisShape) : Bool :=
  if [0, 1, 2].any (fun i : Int =>
      decide (t.c2.x - i < 0) || board_at oob b (t.c2.x - i) (t.c2.y)) then false
  else if decide (t.c1.x - 2 < 0) || board_at oob b (t.c1.x - 2) (t.c1.y) then false
  else decide (t.upmost > 1)

/-- The method `TetrisShape::can_lshape_right_to_down`. -/
def can_lshape_right_to_down (oob : Int → Int → Bool) (b : Board) (t : TetrisShape) : Bool :=
  if [0, 1, 2].any (fun i : Int =>
      decide (t.c2.y + i > 19) || board_at oob b (t.c2.x) (t.c2.y + i)) then false
  else if decide (t.c1.y + 2 > 19) || board_at oob b (t.c1.x) (t.c1.y + 2) then false
  else decide (t.rightmost < 19)

/-- The method `TetrisShape::can_morph_lshape`. -/
def can_morph_lshape (oob : Int → Int → Bool) (b : Board) (t : TetrisShape) : Bool :=
  match t.shsubtype with
  | .LSHAPE_DOWN => can_lshape_down_to_left oob b t
  | .LSHAPE_LEFT => can_lshape_left_to_up oob b t
  | .LSHAPE_UP => can_lshape_up_to_right oob b t
  | .LSHAPE_RIGHT => can_lshape_right_to_down oob b t
  | _ => false

/-- The method `TetrisShape::can_gammashape_down_to_right`. -/
def can_gammashape_down_to_right (oob : Int → Int → Bool) (b : Board) (t : TetrisShape) : Bool :=
  if [0, 1, 2].any (fun i : Int =>
      decide (t.c2.x + i > 19) || board_at oob b (t.c2.x + i) (t.c2.y)) then false
  else if decide (t.c1.x + 2 > 19) || board_at oob b (t.c1.x + 2) (t.c2.y) then false
  else decide (t.downmost < 19)

/-- The method `TetrisShape::can_gammashape_right_to_up`. -/
def can_gammashape_right_to_up (oob : Int → Int → Bool) (b : Board) (t : TetrisShape) : Bool :=
  if [0, 1, 2].any (fun i : Int =>
      decide (t.c2.y + i > 19) || board_at oob b (t.c2.x) (t.c2.y + i)) then false
  else if decide (t.c2.y + 2 > 19) || board_at oob b (t.c1.x) (t.c2.y + 2) then false
  else decide (t.rightmost < 19)

/-- The method `TetrisShape::can_gammashape_up_to_left`. -/
def can_gammashape_up_to_left (oob : Int → Int → Bool) (b : Board) (t : TetrisShape) : Bool :=
  if [0, 1, 2].any (fun i : Int =>
      decide (t.c2.x - i < 0) || board_at oob b (t.c2.x - i) (t.c2.y)) then false
  else if decide (t.c1.x - 2 < 0) || board_at oob b (t.c1.x - 2) (t.c1.y) then false
  else decide (t.upmost > 1)

/-- The method `TetrisShape::can_gammashape_left_to_down`. -/
def can_gammashape_left_to_down (oob : Int → Int → Bool) (b : Board) (t : TetrisShape) : Bool :=
  if [0, 1, 2].any (fun i : Int =>
      decide (t.c2.y - i < 0) || board_at oob b (t.c2.x) (t.c2.y - i)) then false
  else if decide (t.c1.y - 2 < 0) || board_at oob b (t.c1.x) (t.c1.y - 2) then false
  else decide (t.leftmost > 1)

/-- The method `TetrisShape::can_morph_gammashape`. -/
def can_morph_gammashape (oob : Int → Int → Bool) (b : Board) (t : TetrisShape) : Bool :=
  match t.shsubtype with
  | .GAMMASHAPE_DOWN => can_gammashape_down_to_right oob b t
  | .GAMMASHAPE_RIGHT => can_gammashape_right_to_up oob b t
  | .GAMMASHAPE_UP => can_gammashape_up_to_left oob b t
  | .GAMMASHAPE_LEFT => can_gammashape_left_to_down oob b t
  | _ => false

/-- The method `TetrisShape::can_morph_tshape`. -/
def can_morph_tshape (oob : Int → Int → Bool) (b : Board) (t : TetrisShape) : Bool :=
  match t.shsubtype with
  | .TSHAPE_DOWN =>
      if decide (t.c1.x - 1 < 0) || board_at oob b (t.c1.x - 1) t.c1.y then false
      else decide (t.upmost > 0)
  | .TSHAPE_LEFT =>
      if decide (t.c1.y + 1 > 19) || board_at oob b t.c1.x (t.c1.y + 1) then false
      else decide (t.rightmost < 19)
  | .TSHAPE_UP =>
      if decide (t.c1.x + 1 > 19) || board_at oob b (t.c1.x + 1) t.c1.y then false
      else decide (t.downmost < 19)
  | .TSHAPE_RIGHT =>
      if decide (t.c1.y - 1 < 0) || board_at oob b t.c1.x (t.c1.y - 1) then false
      else decide (t.leftmost > 0)
  | _ => false

/-- The method `TetrisShape::can_morph_leftnshape`. -/
def can_morph_leftnshape (oob : Int → Int → Bool) (b : Board) (t : TetrisShape) : Bool :=
  match t.shsubtype with
  | .LEFTNSHAPE_VERTICAL =>
      if decide (t.c2.y + 1 > 19)
          || board_at oob b (t.c2.x + 1) (t.c2.y - 1)
          || board_at oob b t.c2.x (t.c2.y + 1) then false
      else true
  | .LEFTNSHAPE_HORIZONTAL =>
      if decide (t.c2.x - 1 < 0) || decide (t.c2.y - 1 < 0)
          || board_at oob b (t.c2.x - 1) (t.c2.y - 1)
          || board_at oob b (t.c2.x + 1) t.c2.y then false
      else true
  | _ => false

/-- The method `TetrisShape::can_morph_rightnshape`. -/
def can_morph_rightnshape (oob : Int → Int → Bool) (b : Board) (t : TetrisShape) : Bool :=
  match t.shsubtype with
  | .RIGHTNSHAPE_VERTICAL =>
      if decide (t.c1.y + 1 > 19)
          || board_at oob b (t.c1.x + 1) t.c1.y
          || board_at oob b (t.c1.x + 1) (t.c1.y + 1) then false
      else true
  | .RIGHTNSHAPE_HORIZONTAL =>
      if decide (t.c1.x - 1 < 0)
          || board_at oob b (t.c1.x - 1) t.c1.y
          || board_at oob b (t.c1.x + 1) (t.c1.y - 1) then false
      else true
  | _ => false

/-- The method `TetrisShape::can_morph`. -/
def can_morph (oob : Int → Int → Bool) (b : Board) (t : TetrisShape) : Bool :=
  match t.stype with
  | .TETRIS_STRIPSHAPE => can_morph_stripe oob b t
  | .TETRIS_LSHAPE => can_morph_lshape oob b t
  | .TETRIS_GAMMASHAPE => can_morph_gammashape oob b t
  | .TETRIS_SQUARESHAPE => true
  | .TETRIS_TSHAPE => can_morph_tshape oob b t
  | .TETRIS_LEFTNSHAPE => can_morph_leftnshape oob b t
  | .TETRIS_RIGHTNSHAPE => can_morph_rightnshape oob b t
  | .TETRIS_TOTALSHAPE => false

/-! ### Rotation transforms (`morph_*`) -/

/-- The method `TetrisShape::morph_stripshape`: the assignments of each `case`, in source order
(a later assignment reads the cells as already overwritten). -/
def morph_stripshape (t : TetrisShape) : TetrisShape :=
  match t.shsubtype with
  | .STRIPSHAPE_LANDSCAPE =>
      let t := { t with c1 := { t.c1 with x := t.c0.x + 1 } }
      let t := { t with c1 := { t.c1 with y := t.c0.y } }
      let t := { t with c2 := { t.c2 with x := t.c0.x + 2 } }
      let t := { t with c2 := { t.c2 with y := t.c0.y } }
      let t := { t with c3 := { t.c3 with x := t.c0.x + 3 } }
      let t := { t with c3 := { t.c3 with y := t.c0.y } }
      { t with shsubtype := .STRIPSHAPE_PORTRAIT }
  | .STRIPSHAPE_PORTRAIT =>
      let t := { t with c1 := { t.c1 with x := t.c0.x } }
      let t := { t with c1 := { t.c1 with y := t.c0.y + 1 } }
      let t := { t with c2 := { t.c2 with x := t.c0.x } }
      let t := { t with c2 := { t.c2 with y := t.c0.y + 2 } }
      let t := { t with c3 := { t.c3 with x := t.c0.x } }
      let t := { t with c3 := { t.c3 with y := t.c0.y + 3 } }
      { t with shsubtype := .STRIPSHAPE_LANDSCAPE }
  | _ => t

/-- The method `TetrisShape::morph_lshape`: the assignments of each `case`, in source order
(a later assignment reads the cells as already overwritten). -/
def morph_lshape (t : TetrisShape) : TetrisShape :=
  match t.shsubtype with
  | .LSHAPE_DOWN =>
      let t := { t with c0 := { t.c0 with x := t.c2.x } }
      let t := { t with c0 := { t.c0 with y := t.c2.y } }
      let t := { t with c1 := { t.c1 with x := t.c3.x } }
      let t := { t with c1 := { t.c1 with y := t.c3.y } }
      let t := { t with c2 := { t.c2 with x := t.c3.x + 1 } }
      let t := { t with c3 := { t.c3 with x := t.c2.x } }
      let t := { t with c3 := { t.c3 with y := t.c2.y - 1 } }
      { t with shsubtype := .LSHAPE_LEFT }
  | .LSHAPE_LEFT =>
      let t := { t with c0 := { t.c0 with x := t.c2.x } }
      let t := { t with c0 := { t.c0 with y := t.c2.y } }
      let t := { t with c1 := { t.c1 with x := t.c3.x } }
      let t := { t with c1 := { t.c1 with y := t.c3.y } }
      let t := { t with c2 := { t.c2 with y := t.c3.y - 1 } }
      let t := { t with c3 := { t.c3 with x := t.c3.x - 1 } }
      let t := { t with c3 := { t.c3 with y := t.c2.y } }
      { t with shsubtype := .LSHAPE_UP }
  | .LSHAPE_UP =>
      let t := { t with c0 := { t.c0 with x := t.c2.x } }
      let t := { t with c0 := { t.c0 with y := t.c2.y } }
      let t := { t with c1 := { t.c1 with x := t.c3.x } }
      let t := { t with c1 := { t.c1 with y := t.c3.y } }
      let t := { t with c2 := { t.c2 with x := t.c3.x - 1 } }
      let t := { t with c3 := { t.c3 with x := t.c2.x } }
      let t := { t with c3 := { t.c3 with y := t.c2.y + 1 } }
      { t with shsubtype := .LSHAPE_RIGHT }
  | .LSHAPE_RIGHT =>
      let t := { t with c0 := { t.c0 with x := t.c2.x } }
      let t := { t with c0 := { t.c0 with y := t.c2.y } }
      let t := { t with c1 := { t.c1 with x := t.c3.x } }
      let t := { t with c1 := { t.c1 with y := t.c3.y } }
      let t := { t with c2 := { t.c2 with y := t.c3.y + 1 } }
      let t := { t with c3 := { t.c3 with x := t.c2.x + 1 } }
      let t := { t with c3 := { t.c3 with y := t.c2.y } }
      { t with shsubtype := .LSHAPE_DOWN }
  | _ => t

/-- The method `TetrisShape::morph_gammashape`: the assignments of each `case`, in source order
(a later assignment reads the cells as already overwritten). -/
def morph_gammashape (t : TetrisShape) : TetrisShape :=
  match t.shsubtype with
  | .GAMMASHAPE_DOWN =>
      let t := { t with c0 := { t.c0 with x := t.c2.x } }
      let t := { t with c0 := { t.c0 with y := t.c2.y } }
      let t := { t with c1 := { t.c1 with x := t.c3.x } }
      let t := { t with c1 := { t.c1 with y := t.c3.y } }
      let t := { t with c2 := { t.c2 with x := t.c3.x + 1 } }
      let t := { t with c3 := { t.c3 with x := t.c2.x } }
      let t := { t with c3 := { t.c3 with y := t.c2.y + 1 } }
      { t with shsubtype := .GAMMASHAPE_RIGHT }
  | .GAMMASHAPE_RIGHT =>
      let t := { t with c0 := { t.c0 with x := t.c2.x } }
      let t := { t with c0 := { t.c0 with y := t.c2.y } }
      let t := { t with c1 := { t.c1 with x := t.c3.x } }
      let t := { t with c1 := { t.c1 with y := t.c3.y } }
      let t := { t with c2 := { t.c2 with y := t.c3.y + 1 } }
      let t := { t with c3 := { t.c3 with x := t.c3.x - 1 } }
      let t := { t with c3 := { t.c3 with y := t.c2.y } }
      { t with shsubtype := .GAMMASHAPE_UP }
  | .GAMMASHAPE_UP =>
      let t := { t with c0 := { t.c0 with x := t.c2.x } }
      let t := { t with c0 := { t.c0 with y := t.c2.y } }
      let t := { t with c1 := { t.c1 with x := t.c3.x } }
      let t := { t with c1 := { t.c1 with y := t.c3.y } }
      let t := { t with c2 := { t.c2 with x := t.c3.x - 1 } }
      let t := { t with c3 := { t.c3 with x := t.c2.x } }
      let t := { t with c3 := { t.c3 with y := t.c2.y - 1 } }
      { t with shsubtype := .GAMMASHAPE_LEFT }
  | .GAMMASHAPE_LEFT =>
      let t := { t with c0 := { t.c0 with x := t.c2.x } }
      let t := { t with c0 := { t.c0 with y := t.c2.y } }
      let t := { t with c1 := { t.c1 with x := t.c3.x } }
      let t := { t with c1 := { t.c1 with y := t.c3.y } }
      let t := { t with c2 := { t.c2 with y := t.c3.y - 1 } }
      let t := { t with c3 := { t.c3 with x := t.c2.x + 1 } }
      let t := { t with c3 := { t.c3 with y := t.c2.y } }
      { t with shsubtype := .GAMMASHAPE_DOWN }
  | _ => t

/-- The method `TetrisShape::morph_tshape`: the assignments of each `case`, in source order
(a later assignment reads the cells as already overwritten). -/
def morph_tshape (t : TetrisShape) : TetrisShape :=
  match t.shsubtype with
  | .TSHAPE_DOWN =>
      let t := { t with c0 := { t.c0 with x := t.c1.x - 1 } }
      let t := { t with c0 := { t.c0 with y := t.c1.y } }
      let t := { t with c2 := { t.c2 with x := t.c1.x + 1 } }
      let t := { t with c2 := { t.c2 with y := t.c1.y } }
      let t := { t with c3 := { t.c3 with x := t.c1.x } }
      let t := { t with c3 := { t.c3 with y := t.c1.y - 1 } }
      { t with shsubtype := .TSHAPE_LEFT }
  | .TSHAPE_LEFT =>
      let t := { t with c0 := { t.c0 with x := t.c1.x } }
      let t := { t with c0 := { t.c0 with y := t.c1.y - 1 } }
      let t := { t with c2 := { t.c2 with x := t.c1.x } }
      let t := { t with c2 := { t.c2 with y := t.c1.y + 1 } }
      let t := { t with c3 := { t.c3 with x := t.c1.x - 1 } }
      let t := { t with c3 := { t.c3 with y := t.c1.y } }
      { t with shsubtype := .TSHAPE_UP }
  | .TSHAPE_UP =>
      let t := { t with c0 := { t.c0 with x := t.c1.x + 1 } }
      let t := { t with c0 := { t.c0 with y := t.c1.y } }
      let t := { t with c2 := { t.c2 with x := t.c1.x - 1 } }
      let t := { t with c2 := { t.c2 with y := t.c1.y } }
      let t := { t with c3 := { t.c3 with x := t.c1.x } }
      let t := { t with c3 := { t.c3 with y := t.c1.y + 1 } }
      { t with shsubtype := .TSHAPE_RIGHT }
  | .TSHAPE_RIGHT =>
      let t := { t with c0 := { t.c0 with x := t.c1.x } }
      let t := { t with c0 := { t.c0 with y := t.c1.y - 1 } }
      let t := { t with c2 := { t.c2 with x := t.c1.x } }
      let t := { t with c2 := { t.c2 with y := t.c1.y + 1 } }
      let t := { t with c3 := { t.c3 with x := t.c1.x + 1 } }
      let t := { t with c3 := { t.c3 with y := t.c1.y } }
      { t with shsubtype := .TSHAPE_DOWN }
  | _ => t

/-- The method `TetrisShape::morph_leftnshape`: the assignments of each `case`, in source order
(a later assignment reads the cells as already overwritten). -/
def morph_leftnshape (t : TetrisShape) : TetrisShape :=
  match t.shsubtype with
  | .LEFTNSHAPE_VERTICAL =>
      let t := { t with c0 := { t.c0 with x := t.c2.x + 1 } }
      let t := { t with c0 := { t.c0 with y := t.c2.y - 1 } }
      let t := { t with c1 := { t.c1 with x := t.c2.x + 1 } }
      let t := { t with c1 := { t.c1 with y := t.c2.y } }
      let t := { t with c3 := { t.c3 with x := t.c2.x } }
      let t := { t with c3 := { t.c3 with y := t.c2.y + 1 } }
      { t with shsubtype := .LEFTNSHAPE_HORIZONTAL }
  | .LEFTNSHAPE_HORIZONTAL =>
      let t := { t with c0 := { t.c0 with x := t.c2.x - 1 } }
      let t := { t with c0 := { t.c0 with y := t.c2.y - 1 } }
      let t := { t with c1 := { t.c1 with x := t.c2.x } }
      let t := { t with c1 := { t.c1 with y := t.c2.y - 1 } }
      let t := { t with c3 := { t.c3 with x := t.c2.x + 1 } }
      let t := { t with c3 := { t.c3 with y := t.c2.y } }
      { t with shsubtype := .LEFTNSHAPE_VERTICAL }
  | _ => t

/-- The method `TetrisShape::morph_rightnshape`: the assignments of each `case`, in source order
(a later assignment reads the cells as already overwritten). -/
def morph_rightnshape (t : TetrisShape) : TetrisShape :=
  match t.shsubtype with
  | .RIGHTNSHAPE_VERTICAL =>
      let t := { t with c0 := { t.c0 with x := t.c1.x } }
      let t := { t with c0 := { t.c0 with y := t.c1.y - 1 } }
      let t := { t with c2 := { t.c2 with x := t.c1.x + 1 } }
      let t := { t with c2 := { t.c2 with y := t.c1.y } }
      let t := { t with c3 := { t.c3 with x := t.c1.x + 1 } }
      let t := { t with c3 := { t.c3 with y := t.c1.y + 1 } }
      { t with shsubtype := .RIGHTNSHAPE_HORIZONTAL }
  | .RIGHTNSHAPE_HORIZONTAL =>
      let t := { t with c0 := { t.c0 with x := t.c1.x - 1 } }
      let t := { t with c0 := { t.c0 with y := t.c1.y } }
      let t := { t with c2 := { t.c2 with x := t.c1.x } }
      let t := { t with c2 := { t.c2 with y := t.c1.y - 1 } }
      let t := { t with c3 := { t.c3 with x := t.c1.x + 1 } }
      let t := { t with c3 := { t.c3 with y := t.c1.y - 1 } }
      { t with shsubtype := .RIGHTNSHAPE_VERTICAL }
  | _ => t

/-- The method `TetrisShape::morph`. -/
def morph (t : TetrisShape) : TetrisShape :=
  match t.stype with
  | .TETRIS_STRIPSHAPE => morph_stripshape t
  | .TETRIS_LSHAPE => morph_lshape t
  | .TETRIS_GAMMASHAPE => morph_gammashape t
  | .TETRIS_TSHAPE => morph_tshape t
  | .TETRIS_SQUARESHAPE => t
  | .TETRIS_LEFTNSHAPE => morph_leftnshape t
  | .TETRIS_RIGHTNSHAPE => morph_rightnshape t
  | .TETRIS_TOTALSHAPE => t

/-- The method `TetrisShape::move_to_bottom`, the loop `while (can_move_down()) move_down();`
unrolled at most `n` times. -/
def move_to_bottom_loop (oob : Int → Int → Bool) (b : Board) : Nat → TetrisShape → TetrisShape
  | 0, t => t
  | n + 1, t =>
      if can_move_down oob b t then move_to_bottom_loop oob b n (move_down t) else t

/-- The method `TetrisShape::move_to_bottom`.  The loop is run with `19 - downmost()`
iterations available; `can_move_down` requires `downmost() < 19` and each
iteration raises `downmost()` by one, so the loop always leaves through its
condition (theorem `can_move_down_move_to_bottom`). -/
def move_to_bottom (oob : Int → Int → Bool) (b : Board) (t : TetrisShape) : TetrisShape :=
  move_to_bottom_loop oob b (19 - downmost t).toNat t

/-! ### Layout predicates used to state the properties -/

/-- All four cells lie within `[0,19] x [0,19]`. -/
def inBounds (t : TetrisShape) : Bool :=
  t.cells.all (fun c => inRange c.x c.y)

/-- None of the four cells is occupied on the board. -/
def unoccupied (b : Board) (t : TetrisShape) : Bool :=
  t.cells.all (fun c => !(b c.x c.y))

/-- Cells 1, 2 and 3 sit at the given (row, column) offsets from cell 0. -/
def layout (t : TetrisShape) (d1 d2 d3 : Int × Int) : Bool :=
  decide (t.c1 = ⟨t.c0.x + d1.1, t.c0.y + d1.2⟩)
    && decide (t.c2 = ⟨t.c0.x + d2.1, t.c0.y + d2.2⟩)
    && decide (t.c3 = ⟨t.c0.x + d3.1, t.c0.y + d3.2⟩)

/-- The canonical layout of a kind in a rotation state, at any position.
For the initial state of each kind it is the constructor's layout; for the
other states it is what `morph` computes from the previous state
(theorems `canonical_mk_shape` and `canonical_morph`). -/
def canonical (t : TetrisShape) : Bool :=
  match t.stype, t.shsubtype with
  | .TETRIS_LSHAPE, .LSHAPE_DOWN => layout t (0, 1) (0, 2) (1, 2)
  | .TETRIS_LSHAPE, .LSHAPE_LEFT => layout t (1, 0) (2, 0) (2, -1)
  | .TETRIS_LSHAPE, .LSHAPE_UP => layout t (0, -1) (0, -2) (-1, -2)
  | .TETRIS_LSHAPE, .LSHAPE_RIGHT => layout t (-1, 0) (-2, 0) (-2, 1)
  | .TETRIS_GAMMASHAPE, .GAMMASHAPE_DOWN => layout t (0, -1) (0, -2) (1, -2)
  | .TETRIS_GAMMASHAPE, .GAMMASHAPE_RIGHT => layout t (1, 0) (2, 0) (2, 1)
  | .TETRIS_GAMMASHAPE, .GAMMASHAPE_UP => layout t (0, 1) (0, 2) (-1, 2)
  | .TETRIS_GAMMASHAPE, .GAMMASHAPE_LEFT => layout t (-1, 0) (-2, 0) (-2, -1)
  | .TETRIS_STRIPSHAPE, .STRIPSHAPE_LANDSCAPE => layout t (0, 1) (0, 2) (0, 3)
  | .TETRIS_STRIPSHAPE, .STRIPSHAPE_PORTRAIT => layout t (1, 0) (2, 0) (3, 0)
  | .TETRIS_TSHAPE, .TSHAPE_DOWN => layout t (0, 1) (0, 2) (1, 1)
  | .TETRIS_TSHAPE, .TSHAPE_LEFT => layout t (1, 0) (2, 0) (1, -1)
  | .TETRIS_TSHAPE, .TSHAPE_UP => layout t (0, 1) (0, 2) (-1, 1)
  | .TETRIS_TSHAPE, .TSHAPE_RIGHT => layout t (-1, 0) (-2, 0) (-1, 1)
  | .TETRIS_SQUARESHAPE, _ => layout t (0, 1) (1, 0) (1, 1)
  | .TETRIS_LEFTNSHAPE, .LEFTNSHAPE_VERTICAL => layout t (1, 0) (1, 1) (2, 1)
  | .TETRIS_LEFTNSHAPE, .LEFTNSHAPE_HORIZONTAL => layout t (0, 1) (-1, 1) (-1, 2)
  | .TETRIS_RIGHTNSHAPE, .RIGHTNSHAPE_VERTICAL => layout t (1, 0) (1, -1) (2, -1)
  | .TETRIS_RIGHTNSHAPE, .RIGHTNSHAPE_HORIZONTAL => layout t (0, 1) (1, 1) (1, 2)
  | _, _ => false

/-- The rotation state that follows `s` in the cycle of its kind. -/
def next_state (s : SHAPE_SUBTYPE) : SHAPE_SUBTYPE :=
  match s with
  | .LSHAPE_DOWN => .LSHAPE_LEFT
  | .LSHAPE_LEFT => .LSHAPE_UP
  | .LSHAPE_UP => .LSHAPE_RIGHT
  | .LSHAPE_RIGHT => .LSHAPE_DOWN
  | .GAMMASHAPE_DOWN => .GAMMASHAPE_RIGHT
  | .GAMMASHAPE_RIGHT => .GAMMASHAPE_UP
  | .GAMMASHAPE_UP => .GAMMASHAPE_LEFT
  | .GAMMASHAPE_LEFT => .GAMMASHAPE_DOWN
  | .STRIPSHAPE_LANDSCAPE => .STRIPSHAPE_PORTRAIT
  | .STRIPSHAPE_PORTRAIT => .STRIPSHAPE_LANDSCAPE
  | .TSHAPE_DOWN => .TSHAPE_LEFT
  | .TSHAPE_LEFT => .TSHAPE_UP
  | .TSHAPE_UP => .TSHAPE_RIGHT
  | .TSHAPE_RIGHT => .TSHAPE_DOWN
  | .LEFTNSHAPE_VERTICAL => .LEFTNSHAPE_HORIZONTAL
  | .LEFTNSHAPE_HORIZONTAL => .LEFTNSHAPE_VERTICAL
  | .RIGHTNSHAPE_VERTICAL => .RIGHTNSHAPE_HORIZONTAL
  | .RIGHTNSHAPE_HORIZONTAL => .RIGHTNSHAPE_VERTICAL

end TetrisShape

/-! ## Plane motions used to compare cell sets -/

/-- A quarter turn about the origin, one way: `(row, col) ↦ (col, -row)`. -/
def turn_a (c : coordinate) : coordinate := ⟨c.y, -c.x⟩

/-- A quarter turn about the origin, the other way: `(row, col) ↦ (-col, row)`. -/
def turn_b (c : coordinate) : coordinate := ⟨-c.y, c.x⟩

/-- Translation by `d`. -/
def shift_by (d c : coordinate) : coordinate := ⟨c.x + d.x, c.y + d.y⟩

/-! ## Board and controller (`main.cpp`) -/

/-- The indices `0, 1, ..., 19` of a `for (int i = 0; i < 20; ++i)` loop. -/
def indices : List Int := (List.range 20).map Int.ofNat

/-- The inner loop `for col: dst[dst_row][col] = src[src_row][col]`. -/
def copy_row (dst src : Board) (dst_row src_row : Int) : Board :=
  indices.foldl (fun d col => board_set d dst_row col (src src_row col)) dst

/-- The inner loop `for col: board_grid[row][col] = false`. -/
def clear_row (bg : Board) (row : Int) : Board :=
  indices.foldl (fun d col => board_set d row col false) bg

/-- The first loop nest of `check_grid`: `board_grid_backup = board_grid`, cell by cell. -/
def backup_grid (bg bk : Board) : Board :=
  indices.foldl (fun k row => copy_row k bg row row) bk

/-- The counter `sq_set_num` of one row after the inner counting loop. -/
def sq_set_num (bg : Board) (row : Int) : Int :=
  indices.foldl (fun n col => if bg row col then n + 1 else n) 0

/-- The second loop nest of `check_grid`: the pair `(total_smashed, ind_vec)`
after scanning all rows in ascending order. -/
def scan_rows (bg : Board) (total_smashed : Int) : Int × List Int :=
  indices.foldl
    (fun s row => if sq_set_num bg row = 20 then (s.1 + 1, s.2 ++ [row]) else s)
    (total_smashed, [])

/-- The third loop of `check_grid`, `for (row = 19; row >= 0; --row)`, with
`n = row + 1` rows still to visit.  The state is `(board_grid, ind_vec, real_row)`. -/
def shift_rows (bk : Board) : Nat → Board × List Int × Int → Board × List Int × Int
  | 0, s => s
  | n + 1, (bg, ind_vec, real_row) =>
      let row : Int := Int.ofNat n
      let cursize := ind_vec.length
      if decide (cursize > 0) && decide (ind_vec.getD (cursize - 1) 0 = row) then
        shift_rows bk n (bg, ind_vec.dropLast, real_row)
      else
        shift_rows bk n (copy_row bg bk real_row row, ind_vec, real_row - 1)

/-- The last loop of `check_grid`, `for (row = real_row; row >= 0; --row)`,
with `n = row + 1` rows still to clear. -/
def clear_rows : Nat → Board → Board
  | 0, bg => bg
  | n + 1, bg => clear_rows n (clear_row bg (Int.ofNat n))

/-- The state the controller works on: the globals of `main.cpp`. -/
structure Game where
  board_grid : Board
  board_grid_backup : Board
  pTshape : Option TetrisShape
  is_ending : Bool
  total_smashed : Int

/-- The function `check_grid` of `main.cpp`. -/
def check_grid (g : Game) : Game :=
  let bk := backup_grid g.board_grid g.board_grid_backup
  let s := scan_rows g.board_grid g.total_smashed
  let r := shift_rows bk 20 (g.board_grid, s.2, 19)
  { g with
    board_grid := clear_rows (r.2.2 + 1).toNat r.1
    board_grid_backup := bk
    total_smashed := s.1 }

/-- The function `check_game_ending` of `main.cpp`. -/
def check_game_ending (oob : Int → Int → Bool) (g : Game) : Game :=
  match g.pTshape with
  | some t =>
      t.cells.foldl
        (fun s c => if board_at oob g.board_grid c.x c.y then { s with is_ending := true } else s) g
  | none => g

/-- The cast `static_cast<SHAPE_TYPE>(n)` for `n` in `0..7`. -/
def SHAPE_TYPE.static_cast (n : Nat) : SHAPE_TYPE :=
  match n with
  | 0 => .TETRIS_LSHAPE
  | 1 => .TETRIS_GAMMASHAPE
  | 2 => .TETRIS_STRIPSHAPE
  | 3 => .TETRIS_TSHAPE
  | 4 => .TETRIS_SQUARESHAPE
  | 5 => .TETRIS_LEFTNSHAPE
  | 6 => .TETRIS_RIGHTNSHAPE
  | _ => .TETRIS_TOTALSHAPE

/-- The function `run_game` of `main.cpp`.  `rnd` is the value returned by
`rand()` and `uninit` the content of the uninitialised member `shsubtype`
of a new shape. -/
def run_game (oob : Int → Int → Bool) (rnd : Nat) (uninit : SHAPE_SUBTYPE) (g : Game) : Game :=
  let g1 : Game :=
    match g.pTshape with
    | some t =>
        if t.can_move_down oob g.board_grid then { g with pTshape := some t.move_down }
        else { g with board_grid := t.persist g.board_grid, pTshape := none }
    | none =>
        { g with pTshape := some (TetrisShape.mk_shape (SHAPE_TYPE.static_cast (rnd % 7)) uninit) }
  check_grid (check_game_ending oob g1)

/-- The keys `key_callback` distinguishes (the GLFW key codes themselves are
not part of the repository). -/
inductive Key where
  | LEFT
  | RIGHT
  | DOWN
  | UP
  | SPACE
  | OTHER
  deriving DecidableEq, Repr

/-- The function `key_callback` of `main.cpp`; `press` says whether
`action == GLFW_PRESS`. -/
def key_callback (oob : Int → Int → Bool) (key : Key) (press : Bool) (g : Game) : Game :=
  if press then
    match key, g.pTshape with
    | .LEFT, some t =>
        if t.can_move_left oob g.board_grid then { g with pTshape := some t.move_left } else g
    | .RIGHT, some t =>
        if t.can_move_right oob g.board_grid then { g with pTshape := some t.move_right } else g
    | .DOWN, some t =>
        if t.can_move_down oob g.board_grid then { g with pTshape := some t.move_down } else g
    | .UP, some t =>
        if t.can_morph oob g.board_grid then { g with pTshape := some t.morph } else g
    | .SPACE, some t => { g with pTshape := some (t.move_to_bottom oob g.board_grid) }
    | _, _ => g
  else g

/-- The board `task_4` sets up before the loop: all `false`, then columns
`0..9` and `14..19` of row 18 set. -/
def initial_board : Board :=
  fun r c => decide (r = 18) && (decide (0 ≤ c ∧ c < 10) || decide (14 ≤ c ∧ c < 20))

/-- The globals at the start of a session (`task_4` before its loop). -/
def session_start : Game :=
  { board_grid := initial_board
    board_grid_backup := fun _ _ => false
    pTshape := none
    is_ending := false
    total_smashed := 1 }

/-- What the loop of `task_4` does to the globals: a gravity tick (`run_game`),
a key event (`key_callback`), each with its own out-of-array oracle, and the
counter reset of the speed step. -/
inductive Event where
  | tick (oob : Int → Int → Bool) (rnd : Nat) (uninit : SHAPE_SUBTYPE)
  | key (oob : Int → Int → Bool) (k : Key) (press : Bool)
  | counter_reset

/-- One event applied to the globals.  The speed step of `task_4` runs
`total_smashed = 1` when `total_smashed % 12 == 0 && drop_speed < 10.0`;
`drop_speed` is a local of `task_4`, so here the reset is allowed whenever the
first test holds. -/
def step (g : Game) (e : Event) : Game :=
  match e with
  | .tick oob rnd uninit => run_game oob rnd uninit g
  | .key oob k press => key_callback oob k press g
  | .counter_reset => if g.total_smashed % 12 = 0 then { g with total_smashed := 1 } else g

/-- The globals after a sequence of events, starting from `g`. -/
def run (g : Game) (es : List Event) : Game := es.foldl step g

/-- A sample board: rows 5, 10 and 15 are full, every other row has a single
occupied cell, on the diagonal. -/
def sample_board : Board :=
  fun r c => decide (r = 5 ∨ r = 10 ∨ r = 15) || decide (c = r)

/-- The globals at the start of a session, with `sample_board` as the board. -/
def sample_game : Game := { session_start with board_grid := sample_board }

/-- The indices `0, 1, ..., n - 1`, in ascending order. -/
def indices_below (n : Nat) : List Int := (List.range n).map Int.ofNat

/-- Number of rows `q` with `r < q < n` that satisfy `p`. -/
def count_between (p : Int → Bool) (r : Int) (n : Nat) : Nat :=
  ((indices_below n).filter (fun q => decide (r < q) && p q)).length

/-- Row `r` of the board has all 20 columns occupied. -/
def is_full (b : Board) (r : Int) : Bool := indices.all (fun c => b r c)

/-- Number of full rows with index strictly between `r` and 20. -/
def full_below (b : Board) (r : Int) : Int :=
  ((indices.filter (fun q => decide (r < q) && is_full b q)).length : Int)

/-- Number of full rows of the board. -/
def full_count (b : Board) : Int :=
  ((indices.filter (fun q => is_full b q)).length : Int)

/-- The piece translated straight down by `k` rows: every cell keeps its
column, its row grows by `k`; kind and rotation state are kept. -/
def TetrisShape.shift_down (t : TetrisShape) (k : Int) : TetrisShape :=
  { t with
    c0 := ⟨t.c0.x + k, t.c0.y⟩
    c1 := ⟨t.c1.x + k, t.c1.y⟩
    c2 := ⟨t.c2.x + k, t.c2.y⟩
    c3 := ⟨t.c3.x + k, t.c3.y⟩ }

/-- Number of occupied cells in row `r` of the 20x20 board. -/
def row_count (b : Board) (r : Int) : Nat := indices.countP (fun c => b r c)

/-- Number of occupied cells in rows `0 .. n-1` of the board. -/
def count_below (b : Board) (n : Nat) : Nat := ((indices_below n).map (row_count b)).sum

/-- Number of occupied cells of the 20x20 board. -/
def occupied_count (b : Board) : Nat := (indices.map (row_count b)).sum


/-- Two cells share an edge. -/
def adjacent (a b : coordinate) : Bool :=
  decide ((a.x - b.x).natAbs + (a.y - b.y).natAbs = 1)

/-- One round of flooding inside `l`: the cells of `l` that are in `s` or share
an edge with a cell of `s`. -/
def flood (l s : List coordinate) : List coordinate :=
  l.filter (fun c => s.contains c || s.any (fun d => adjacent c d))

/-- The cells of `l` form one edge-connected block: flooding from the first
cell, once per cell, reaches all of them. -/
def edge_connected (l : List coordinate) : Bool :=
  match l with
  | [] => true
  | a :: _ => l.all (fun c => (Nat.iterate (flood l) l.length [a]).contains c)

/-- The rotation state the constructor sets for each kind; `none` where it
leaves `shsubtype` uninitialised. -/
def initial_state (k : SHAPE_TYPE) : Option SHAPE_SUBTYPE :=
  match k with
  | .TETRIS_LSHAPE => some .LSHAPE_DOWN
  | .TETRIS_GAMMASHAPE => some .GAMMASHAPE_DOWN
  | .TETRIS_STRIPSHAPE => some .STRIPSHAPE_LANDSCAPE
  | .TETRIS_TSHAPE => some .TSHAPE_DOWN
  | .TETRIS_SQUARESHAPE => none
  | .TETRIS_LEFTNSHAPE => some .LEFTNSHAPE_VERTICAL
  | .TETRIS_RIGHTNSHAPE => some .RIGHTNSHAPE_VERTICAL
  | .TETRIS_TOTALSHAPE => none


/-! ## The speed step of `task_4` -/

/-! ### The `double` arithmetic of `drop_speed`

`drop_speed` is a C++ `double` (IEEE 754 binary64, round to nearest, ties to
even).  A positive `double` `x` is represented by the natural number
`x * 2^60`; every `double` from `2^-8` up to `2^1023` is such a number, and the
operations below are exact on results in that range (the speeds and intervals
of the program lie between 0.09 and 10.1). -/

/-- The number of low bits of `f` that do not fit a 53-bit significand:
`f` is halved until it is below `2^53`.  The fuel is never exhausted for an
`f` below `2^(53 + fuel)`. -/
def double_shift (f : Nat) : Nat → Nat
  | 0 => 0
  | i + 1 => if f < 2 ^ 53 then 0 else double_shift (f / 2) i + 1

/-- The `double` nearest to the quotient `p / q` (both in units of `2^-60`,
`q > 0`): `p / q` is rounded to a multiple of `2^s`, where `s` leaves 53
significant bits, to the nearest such multiple and to the even one on a tie. -/
def round_double (p q : Nat) : Nat :=
  let s := double_shift (p / q) 1100
  let m := q * 2 ^ s
  let k := p / m
  let r := p % m
  (if 2 * r < m then k else if m < 2 * r then k + 1 else if k % 2 = 0 then k else k + 1) * 2 ^ s

/-- The `double` a decimal literal `num / den` denotes: `1.6` is
`double_lit 16 10`, `0.1` is `double_lit 1 10`, `10.0` is `double_lit 10 1`. -/
def double_lit (num den : Nat) : Nat := round_double (num * 2 ^ 60) den

/-- The sum `a + b` of two `double`s. -/
def double_add (a b : Nat) : Nat := round_double (a + b) 1

/-- The quotient `a / b` of two `double`s. -/
def double_div (a b : Nat) : Nat := round_double (a * 2 ^ 60) b

/-- The drop interval `1.0 / drop_speed` the loop of `task_4` waits between two
ticks. -/
def drop_interval (drop_speed : Nat) : Nat := double_div (double_lit 1 1) drop_speed

/-- The speed step of the loop of `task_4`, on the global `total_smashed` and
the local `double drop_speed`:
`if (total_smashed % 12 == 0 && drop_speed < 10.0) { total_smashed = 1; drop_speed += 0.1; }`.
The result is the pair `(total_smashed, drop_speed)`. -/
def speed_step (total_smashed : Int) (drop_speed : Nat) : Int × Nat :=
  if total_smashed % 12 = 0 ∧ drop_speed < double_lit 10 1 then
    (1, double_add drop_speed (double_lit 1 10))
  else (total_smashed, drop_speed)

/-- The state of the loop of `task_4` that the game logic uses: the globals and
the local `double drop_speed`. -/
structure Session where
  game : Game
  drop_speed : Nat

/-- The state when the loop of `task_4` is entered: `double drop_speed = 1.6`. -/
def new_session : Session := { game := session_start, drop_speed := double_lit 16 10 }

/-- One gravity tick of the loop of `task_4`: `run_game()` followed by the
speed step. -/
def game_tick (oob : Int → Int → Bool) (rnd : Nat) (uninit : SHAPE_SUBTYPE) (s : Session) :
    Session :=
  let g := run_game oob rnd uninit s.game
  let c := speed_step g.total_smashed s.drop_speed
  { game := { g with total_smashed := c.1 }, drop_speed := c.2 }

/-- What drives the loop of `task_4`: a gravity tick or a key event. -/
inductive Input where
  | tick (oob : Int → Int → Bool) (rnd : Nat) (uninit : SHAPE_SUBTYPE)
  | key (oob : Int → Int → Bool) (k : Key) (press : Bool)

/-- One input applied to the loop state. -/
def session_step (s : Session) (i : Input) : Session :=
  match i with
  | .tick oob rnd uninit => game_tick oob rnd uninit s
  | .key oob k press => { s with game := key_callback oob k press s.game }

/-- The loop state after a sequence of inputs. -/
def session_run (s : Session) (is : List Input) : Session := is.foldl session_step s

/-- The number of full rows of the board that `run_game` hands to
`check_grid`: the rows cleared in that tick. -/
def rows_cleared (oob : Int → Int → Bool) (g : Game) : Int :=
  match g.pTshape with
  | some t =>
      if t.can_move_down oob g.board_grid then full_count g.board_grid
      else full_count (t.persist g.board_grid)
  | none => full_count g.board_grid

/-- The pair `(total_smashed, drop_speed)` after a tick in which `k` rows are
cleared: `check_grid` adds `k` to the counter, then the speed step runs. -/
def tick_counters (c : Int × Nat) (k : Int) : Int × Nat := speed_step (c.1 + k) c.2

/-- The pair `(total_smashed, drop_speed)` after a sequence of ticks clearing
`ks` rows. -/
def run_counters (c : Int × Nat) (ks : List Int) : Int × Nat := ks.foldl tick_counters c

/-- A board whose only occupied cells are the 20 cells of row 19. -/
def bottom_row_board : Board := fun r _ => decide (r = 19)

/-- A board whose only occupied cells are those of row 19 outside columns 10 to
13: a Strip lying in the gap completes the row. -/
def gap_row_board : Board := fun r c => decide (r = 19 ∧ (c < 10 ∨ 13 < c))

/-- The values `drop_speed` takes: 1.6 and the results of 1 to 85 additions
of 0.1. -/
def drop_speeds : List Nat :=
  List.iterate (fun v => double_add v (double_lit 1 10)) (double_lit 16 10) 86


/-! ## The board reads of the predicates, in evaluation order -/

/-- A predicate of `TetrisShape` runs a sequence of tests
`guard || board_grid[r][c]`, each given as `(guard, r, c)`, and returns `false`
at the first test that holds; the board is read only when `guard` is false.
The result says whether a test held and lists the indices read, in order. -/
def run_checks (oob : Int → Int → Bool) (b : Board) :
    List (Bool × Int × Int) → Bool × List (Int × Int)
  | [] => (false, [])
  | (guard, r, c) :: rest =>
      if guard then (true, [])
      else if board_at oob b r c then (true, [(r, c)])
      else ((run_checks oob b rest).1, (r, c) :: (run_checks oob b rest).2)

namespace TetrisShape

/-- The tests of the loop of `can_move_left`. -/
def can_move_left_checks (t : TetrisShape) : List (Bool × Int × Int) :=
  t.cells.map (fun c => (false, c.x, c.y - 1))

/-- The tests of the loop of `can_move_right`. -/
def can_move_right_checks (t : TetrisShape) : List (Bool × Int × Int) :=
  t.cells.map (fun c => (false, c.x, c.y + 1))

/-- The tests of the loop of `can_move_down`. -/
def can_move_down_checks (t : TetrisShape) : List (Bool × Int × Int) :=
  t.cells.map (fun c => (false, c.x + 1, c.y))

/-- The tests of `can_morph_stripe`: four reads, no guard. -/
def can_morph_stripe_checks (t : TetrisShape) : List (Bool × Int × Int) :=
  match t.shsubtype with
  | .STRIPSHAPE_LANDSCAPE => [0, 1, 2, 3].map (fun i : Int => (false, t.c0.x + i, t.c0.y))
  | .STRIPSHAPE_PORTRAIT => [0, 1, 2, 3].map (fun i : Int => (false, t.c0.x, t.c0.y + i))
  | _ => []

/-- The tests of `can_lshape_down_to_left`: the loop, then the fourth test. -/
def can_lshape_down_to_left_checks (t : TetrisShape) : List (Bool × Int × Int) :=
  [0, 1, 2].map (fun i : Int => (decide (t.c2.x + i > 19), t.c2.x + i, t.c2.y))
    ++ [(decide (t.c1.x + 2 > 19), t.c1.x + 2, t.c2.y)]

/-- The tests of `can_lshape_left_to_up`: the loop, then the fourth test. -/
def can_lshape_left_to_up_checks (t : TetrisShape) : List (Bool × Int × Int) :=
  [0, 1, 2].map (fun i : Int => (decide (t.c2.y - i < 0), t.c2.x, t.c2.y - i))
    ++ [(decide (t.c1.y - 2 < 0), t.c1.x, t.c1.y - 2)]

/-- The tests of `can_lshape_up_to_right`: the loop, then the fourth test. -/
def can_lshape_up_to_right_checks (t : TetrisShape) : List (Bool × Int × Int) :=
  [0, 1, 2].map (fun i : Int => (decide (t.c2.x - i < 0), t.c2.x - i, t.c2.y))
    ++ [(decide (t.c1.x - 2 < 0), t.c1.x - 2, t.c1.y)]

/-- The tests of `can_lshape_right_to_down`: the loop, then the fourth test. -/
def can_lshape_right_to_down_checks (t : TetrisShape) : List (Bool × Int × Int) :=
  [0, 1, 2].map (fun i : Int => (decide (t.c2.y + i > 19), t.c2.x, t.c2.y + i))
    ++ [(decide (t.c1.y + 2 > 19), t.c1.x, t.c1.y + 2)]

/-- The tests of `can_gammashape_down_to_right`: the loop, then the fourth test. -/
def can_gammashape_down_to_right_checks (t : TetrisShape) : List (Bool × Int × Int) :=
  [0, 1, 2].map (fun i : Int => (decide (t.c2.x + i > 19), t.c2.x + i, t.c2.y))
    ++ [(decide (t.c1.x + 2 > 19), t.c1.x + 2, t.c2.y)]

/-- The tests of `can_gammashape_right_to_up`: the loop, then the fourth test. -/
def can_gammashape_right_to_up_checks (t : TetrisShape) : List (Bool × Int × Int) :=
  [0, 1, 2].map (fun i : Int => (decide (t.c2.y + i > 19), t.c2.x, t.c2.y + i))
    ++ [(decide (t.c2.y + 2 > 19), t.c1.x, t.c2.y + 2)]

/-- The tests of `can_gammashape_up_to_left`: the loop, then the fourth test. -/
def can_gammashape_up_to_left_checks (t : TetrisShape) : List (Bool × Int × Int) :=
  [0, 1, 2].map (fun i : Int => (decide (t.c2.x - i < 0), t.c2.x - i, t.c2.y))
    ++ [(decide (t.c1.x - 2 < 0), t.c1.x - 2, t.c1.y)]

/-- The tests of `can_gammashape_left_to_down`: the loop, then the fourth test. -/
def can_gammashape_left_to_down_checks (t : TetrisShape) : List (Bool × Int × Int) :=
  [0, 1, 2].map (fun i : Int => (decide (t.c2.y - i < 0), t.c2.x, t.c2.y - i))
    ++ [(decide (t.c1.y - 2 < 0), t.c1.x, t.c1.y - 2)]

/-- The tests of `can_morph_lshape`. -/
def can_morph_lshape_checks (t : TetrisShape) : List (Bool × Int × Int) :=
  match t.shsubtype with
  | .LSHAPE_DOWN => can_lshape_down_to_left_checks t
  | .LSHAPE_LEFT => can_lshape_left_to_up_checks t
  | .LSHAPE_UP => can_lshape_up_to_right_checks t
  | .LSHAPE_RIGHT => can_lshape_right_to_down_checks t
  | _ => []

/-- The tests of `can_morph_gammashape`. -/
def can_morph_gammashape_checks (t : TetrisShape) : List (Bool × Int × Int) :=
  match t.shsubtype with
  | .GAMMASHAPE_DOWN => can_gammashape_down_to_right_checks t
  | .GAMMASHAPE_RIGHT => can_gammashape_right_to_up_checks t
  | .GAMMASHAPE_UP => can_gammashape_up_to_left_checks t
  | .GAMMASHAPE_LEFT => can_gammashape_left_to_down_checks t
  | _ => []

/-- The tests of `can_morph_tshape`. -/
def can_morph_tshape_checks (t : TetrisShape) : List (Bool × Int × Int) :=
  match t.shsubtype with
  | .TSHAPE_DOWN => [(decide (t.c1.x - 1 < 0), t.c1.x - 1, t.c1.y)]
  | .TSHAPE_LEFT => [(decide (t.c1.y + 1 > 19), t.c1.x, t.c1.y + 1)]
  | .TSHAPE_UP => [(decide (t.c1.x + 1 > 19), t.c1.x + 1, t.c1.y)]
  | .TSHAPE_RIGHT => [(decide (t.c1.y - 1 < 0), t.c1.x, t.c1.y - 1)]
  | _ => []

/-- The tests of `can_morph_leftnshape`: one condition, whose guards come
before its two reads. -/
def can_morph_leftnshape_checks (t : TetrisShape) : List (Bool × Int × Int) :=
  match t.shsubtype with
  | .LEFTNSHAPE_VERTICAL =>
      [(decide (t.c2.y + 1 > 19), t.c2.x + 1, t.c2.y - 1), (false, t.c2.x, t.c2.y + 1)]
  | .LEFTNSHAPE_HORIZONTAL =>
      [(decide (t.c2.x - 1 < 0) || decide (t.c2.y - 1 < 0), t.c2.x - 1, t.c2.y - 1),
        (false, t.c2.x + 1, t.c2.y)]
  | _ => []

/-- The tests of `can_morph_rightnshape`. -/
def can_morph_rightnshape_checks (t : TetrisShape) : List (Bool × Int × Int) :=
  match t.shsubtype with
  | .RIGHTNSHAPE_VERTICAL =>
      [(decide (t.c1.y + 1 > 19), t.c1.x + 1, t.c1.y), (false, t.c1.x + 1, t.c1.y + 1)]
  | .RIGHTNSHAPE_HORIZONTAL =>
      [(decide (t.c1.x - 1 < 0), t.c1.x - 1, t.c1.y), (false, t.c1.x + 1, t.c1.y - 1)]
  | _ => []

/-- The tests run by one evaluation of the predicate `can_morph` dispatches to. -/
def can_morph_checks (t : TetrisShape) : List (Bool × Int × Int) :=
  match t.stype with
  | .TETRIS_STRIPSHAPE => can_morph_stripe_checks t
  | .TETRIS_LSHAPE => can_morph_lshape_checks t
  | .TETRIS_GAMMASHAPE => can_morph_gammashape_checks t
  | .TETRIS_SQUARESHAPE => []
  | .TETRIS_TSHAPE => can_morph_tshape_checks t
  | .TETRIS_LEFTNSHAPE => can_morph_leftnshape_checks t
  | .TETRIS_RIGHTNSHAPE => can_morph_rightnshape_checks t
  | .TETRIS_TOTALSHAPE => []

/-- The value a predicate returns when none of its tests holds. -/
def can_morph_last (t : TetrisShape) : Bool :=
  match t.stype, t.shsubtype with
  | .TETRIS_STRIPSHAPE, .STRIPSHAPE_LANDSCAPE => decide (t.c0.x + 3 < 20)
  | .TETRIS_STRIPSHAPE, .STRIPSHAPE_PORTRAIT => decide (t.c0.y + 3 < 20)
  | .TETRIS_LSHAPE, .LSHAPE_DOWN => decide (t.downmost < 19)
  | .TETRIS_LSHAPE, .LSHAPE_LEFT => decide (t.leftmost > 1)
  | .TETRIS_LSHAPE, .LSHAPE_UP => decide (t.upmost > 1)
  | .TETRIS_LSHAPE, .LSHAPE_RIGHT => decide (t.rightmost < 19)
  | .TETRIS_GAMMASHAPE, .GAMMASHAPE_DOWN => decide (t.downmost < 19)
  | .TETRIS_GAMMASHAPE, .GAMMASHAPE_RIGHT => decide (t.rightmost < 19)
  | .TETRIS_GAMMASHAPE, .GAMMASHAPE_UP => decide (t.upmost > 1)
  | .TETRIS_GAMMASHAPE, .GAMMASHAPE_LEFT => decide (t.leftmost > 1)
  | .TETRIS_SQUARESHAPE, _ => true
  | .TETRIS_TSHAPE, .TSHAPE_DOWN => decide (t.upmost > 0)
  | .TETRIS_TSHAPE, .TSHAPE_LEFT => decide (t.rightmost < 19)
  | .TETRIS_TSHAPE, .TSHAPE_UP => decide (t.downmost < 19)
  | .TETRIS_TSHAPE, .TSHAPE_RIGHT => decide (t.leftmost > 0)
  | .TETRIS_LEFTNSHAPE, .LEFTNSHAPE_VERTICAL => true
  | .TETRIS_LEFTNSHAPE, .LEFTNSHAPE_HORIZONTAL => true
  | .TETRIS_RIGHTNSHAPE, .RIGHTNSHAPE_VERTICAL => true
  | .TETRIS_RIGHTNSHAPE, .RIGHTNSHAPE_HORIZONTAL => true
  | _, _ => false

/-- The indices `can_move_left` reads from the board, in order. -/
def can_move_left_lookups (oob : Int → Int → Bool) (b : Board) (t : TetrisShape) :
    List (Int × Int) :=
  (run_checks oob b (can_move_left_checks t)).2

/-- The indices `can_move_right` reads from the board, in order. -/
def can_move_right_lookups (oob : Int → Int → Bool) (b : Board) (t : TetrisShape) :
    List (Int × Int) :=
  (run_checks oob b (can_move_right_checks t)).2

/-- The indices `can_move_down` reads from the board, in order. -/
def can_move_down_lookups (oob : Int → Int → Bool) (b : Board) (t : TetrisShape) :
    List (Int × Int) :=
  (run_checks oob b (can_move_down_checks t)).2

/-- The indices `can_morph` reads from the board, in order.  For the L kind
`can_morph` evaluates `can_morph_lshape()` twice (once for its output line), so
the reads occur twice. -/
def can_morph_lookups (oob : Int → Int → Bool) (b : Board) (t : TetrisShape) :
    List (Int × Int) :=
  match t.stype with
  | .TETRIS_LSHAPE =>
      (run_checks oob b (can_morph_checks t)).2 ++ (run_checks oob b (can_morph_checks t)).2
  | _ => (run_checks oob b (can_morph_checks t)).2

end TetrisShape


/-! # Theorems -/

/-! ## Reading the board -/

theorem inRange_iff (r c : Int) : inRange r c = true ↔ 0 ≤ r ∧ r ≤ 19 ∧ 0 ≤ c ∧ c ≤ 19 := by
  simp [inRange, and_assoc]

theorem board_at_of_inRange (oob : Int → Int → Bool) (b : Board) (r c : Int)
    (h0 : 0 ≤ r) (h1 : r ≤ 19) (h2 : 0 ≤ c) (h3 : c ≤ 19) : board_at oob b r c = b r c := by
  have : inRange r c = true := (inRange_iff r c).2 ⟨h0, h1, h2, h3⟩
  simp [board_at, this]

namespace TetrisShape

theorem inBounds_iff (t : TetrisShape) :
    t.inBounds = true ↔
      (0 ≤ t.c0.x ∧ t.c0.x ≤ 19 ∧ 0 ≤ t.c0.y ∧ t.c0.y ≤ 19) ∧
      (0 ≤ t.c1.x ∧ t.c1.x ≤ 19 ∧ 0 ≤ t.c1.y ∧ t.c1.y ≤ 19) ∧
      (0 ≤ t.c2.x ∧ t.c2.x ≤ 19 ∧ 0 ≤ t.c2.y ∧ t.c2.y ≤ 19) ∧
      (0 ≤ t.c3.x ∧ t.c3.x ≤ 19 ∧ 0 ≤ t.c3.y ∧ t.c3.y ≤ 19) := by
  simp [inBounds, cells, inRange_iff]

theorem unoccupied_iff (b : Board) (t : TetrisShape) :
    t.unoccupied b = true ↔
      b t.c0.x t.c0.y = false ∧ b t.c1.x t.c1.y = false ∧
      b t.c2.x t.c2.y = false ∧ b t.c3.x t.c3.y = false := by
  simp [unoccupied, cells]

/-! ## Movement predicates -/

theorem can_move_down_eq_true_iff (oob : Int → Int → Bool) (b : Board) (t : TetrisShape)
    (h : t.inBounds = true) :
    t.can_move_down oob b = true ↔ ∀ c ∈ t.cells, c.x < 19 ∧ b (c.x + 1) c.y = false := by
  obtain ⟨⟨a0, a1, a2, a3⟩, ⟨b0, b1, b2, b3⟩, ⟨c0, c1, c2, c3⟩, ⟨d0, d1, d2, d3⟩⟩ :=
    (inBounds_iff t).1 h
  constructor
  · intro hc
    simp only [can_move_down, cells, List.any_cons, List.any_nil, Bool.or_false, downmost] at hc
    split at hc
    · exact absurd hc (by simp)
    · rename_i hany
      simp only [Bool.or_eq_true, not_or, Bool.not_eq_true] at hany
      have hd := of_decide_eq_true hc
      simp only [max_lt_iff] at hd
      obtain ⟨⟨⟨e0, e1⟩, e2⟩, e3⟩ := hd
      obtain ⟨f0, f1, f2, f3⟩ := hany
      rw [board_at_of_inRange _ _ _ _ (by omega) (by omega) (by omega) (by omega)] at f0 f1 f2 f3
      simp [cells, *]
  · intro hall
    simp only [cells, List.mem_cons, List.mem_singleton, List.not_mem_nil, or_false,
      forall_eq_or_imp, forall_eq] at hall
    obtain ⟨⟨e0, f0⟩, ⟨e1, f1⟩, ⟨e2, f2⟩, ⟨e3, f3⟩⟩ := hall
    simp only [can_move_down, cells, List.any_cons, List.any_nil, Bool.or_false, downmost]
    rw [board_at_of_inRange _ _ _ _ (by omega) (by omega) (by omega) (by omega),
      board_at_of_inRange _ _ _ _ (by omega) (by omega) (by omega) (by omega),
      board_at_of_inRange _ _ _ _ (by omega) (by omega) (by omega) (by omega),
      board_at_of_inRange _ _ _ _ (by omega) (by omega) (by omega) (by omega)]
    simp [f0, f1, f2, f3, max_lt_iff, e0, e1, e2, e3]

theorem can_move_left_eq_true_iff (oob : Int → Int → Bool) (b : Board) (t : TetrisShape)
    (h : t.inBounds = true) :
    t.can_move_left oob b = true ↔ ∀ c ∈ t.cells, 0 < c.y ∧ b c.x (c.y - 1) = false := by
  obtain ⟨⟨a0, a1, a2, a3⟩, ⟨b0, b1, b2, b3⟩, ⟨c0, c1, c2, c3⟩, ⟨d0, d1, d2, d3⟩⟩ :=
    (inBounds_iff t).1 h
  constructor
  · intro hc
    simp only [can_move_left, cells, List.any_cons, List.any_nil, Bool.or_false, leftmost] at hc
    split at hc
    · exact absurd hc (by simp)
    · rename_i hany
      simp only [Bool.or_eq_true, not_or, Bool.not_eq_true] at hany
      have hd := of_decide_eq_true hc
      simp only [gt_iff_lt, lt_min_iff] at hd
      obtain ⟨⟨⟨e0, e1⟩, e2⟩, e3⟩ := hd
      obtain ⟨f0, f1, f2, f3⟩ := hany
      rw [board_at_of_inRange _ _ _ _ (by omega) (by omega) (by omega) (by omega)] at f0 f1 f2 f3
      simp [cells, *]
  · intro hall
    simp only [cells, List.mem_cons, List.mem_singleton, List.not_mem_nil, or_false,
      forall_eq_or_imp, forall_eq] at hall
    obtain ⟨⟨e0, f0⟩, ⟨e1, f1⟩, ⟨e2, f2⟩, ⟨e3, f3⟩⟩ := hall
    simp only [can_move_left, cells, List.any_cons, List.any_nil, Bool.or_false, leftmost]
    rw [board_at_of_inRange _ _ _ _ (by omega) (by omega) (by omega) (by omega),
      board_at_of_inRange _ _ _ _ (by omega) (by omega) (by omega) (by omega),
      board_at_of_inRange _ _ _ _ (by omega) (by omega) (by omega) (by omega),
      board_at_of_inRange _ _ _ _ (by omega) (by omega) (by omega) (by omega)]
    simp [f0, f1, f2, f3, lt_min_iff, e0, e1, e2, e3]

theorem can_move_right_eq_true_iff (oob : Int → Int → Bool) (b : Board) (t : TetrisShape)
    (h : t.inBounds = true) :
    t.can_move_right oob b = true ↔ ∀ c ∈ t.cells, c.y < 19 ∧ b c.x (c.y + 1) = false := by
  obtain ⟨⟨a0, a1, a2, a3⟩, ⟨b0, b1, b2, b3⟩, ⟨c0, c1, c2, c3⟩, ⟨d0, d1, d2, d3⟩⟩ :=
    (inBounds_iff t).1 h
  constructor
  · intro hc
    simp only [can_move_right, cells, List.any_cons, List.any_nil, Bool.or_false, rightmost] at hc
    split at hc
    · exact absurd hc (by simp)
    · rename_i hany
      simp only [Bool.or_eq_true, not_or, Bool.not_eq_true] at hany
      have hd := of_decide_eq_true hc
      simp only [max_lt_iff] at hd
      obtain ⟨⟨⟨e0, e1⟩, e2⟩, e3⟩ := hd
      obtain ⟨f0, f1, f2, f3⟩ := hany
      rw [board_at_of_inRange _ _ _ _ (by omega) (by omega) (by omega) (by omega)] at f0 f1 f2 f3
      simp [cells, *]
  · intro hall
    simp only [cells, List.mem_cons, List.mem_singleton, List.not_mem_nil, or_false,
      forall_eq_or_imp, forall_eq] at hall
    obtain ⟨⟨e0, f0⟩, ⟨e1, f1⟩, ⟨e2, f2⟩, ⟨e3, f3⟩⟩ := hall
    simp only [can_move_right, cells, List.any_cons, List.any_nil, Bool.or_false, rightmost]
    rw [board_at_of_inRange _ _ _ _ (by omega) (by omega) (by omega) (by omega),
      board_at_of_inRange _ _ _ _ (by omega) (by omega) (by omega) (by omega),
      board_at_of_inRange _ _ _ _ (by omega) (by omega) (by omega) (by omega),
      board_at_of_inRange _ _ _ _ (by omega) (by omega) (by omega) (by omega)]
    simp [f0, f1, f2, f3, max_lt_iff, e0, e1, e2, e3]

/-- Claim C4. For a piece whose four cells are within the grid, `can_move_down`
returns `false` exactly when some cell is on row 19 or has an occupied board cell
directly below it, and its result is the same whatever a read outside the
array (row 20) returns. -/
theorem can_move_down_false_iff (oob oob2 : Int → Int → Bool) (b : Board) (t : TetrisShape)
    (h : t.inBounds = true) :
    (t.can_move_down oob b = false ↔
        ∃ c ∈ t.cells, c.x = 19 ∨ (c.x < 19 ∧ b (c.x + 1) c.y = true))
      ∧ t.can_move_down oob b = t.can_move_down oob2 b := by
  have key : ∀ o : Int → Int → Bool, (t.can_move_down o b = false ↔
        ∃ c ∈ t.cells, c.x = 19 ∨ (c.x < 19 ∧ b (c.x + 1) c.y = true)) := by
    intro o
    have hb := (inBounds_iff t).1 h
    rw [← Bool.not_eq_true, can_move_down_eq_true_iff o b t h]
    simp only [cells, List.mem_cons, List.mem_singleton, List.not_mem_nil, or_false,
      forall_eq_or_imp, forall_eq, exists_eq_or_imp, exists_eq_left]
    obtain ⟨⟨a0, a1, a2, a3⟩, ⟨b0, b1, b2, b3⟩, ⟨c0, c1, c2, c3⟩, ⟨d0, d1, d2, d3⟩⟩ := hb
    cases h0 : b (t.c0.x + 1) t.c0.y <;> cases h1 : b (t.c1.x + 1) t.c1.y <;>
      cases h2 : b (t.c2.x + 1) t.c2.y <;> cases h3 : b (t.c3.x + 1) t.c3.y <;>
      simp <;> omega
  refine ⟨key oob, ?_⟩
  have k1 := key oob
  have k2 := key oob2
  cases e1 : t.can_move_down oob b <;> cases e2 : t.can_move_down oob2 b <;> simp_all

theorem can_move_down_false_iff_witness :
    (mk_shape .TETRIS_LSHAPE .LSHAPE_DOWN).inBounds = true ∧
    ((mk_shape .TETRIS_LSHAPE .LSHAPE_DOWN).can_move_down (fun _ _ => true) initial_board = false ↔
        ∃ c ∈ (mk_shape .TETRIS_LSHAPE .LSHAPE_DOWN).cells,
          c.x = 19 ∨ (c.x < 19 ∧ initial_board (c.x + 1) c.y = true)) :=
  ⟨by decide,
    (can_move_down_false_iff (fun _ _ => true) (fun _ _ => false) initial_board
      (mk_shape .TETRIS_LSHAPE .LSHAPE_DOWN) (by decide)).1⟩

/-- Claim C5. For a piece whose four cells are within the grid, `can_move_left`
returns `true` exactly when every cell has column `> 0` and the board cell
immediately to its left is unoccupied, and `can_move_right` returns `true`
exactly when every cell has column `< 19` and the board cell immediately to its
right is unoccupied. -/
theorem can_move_left_right_iff (oob : Int → Int → Bool) (b : Board) (t : TetrisShape)
    (h : t.inBounds = true) :
    (t.can_move_left oob b = true ↔ ∀ c ∈ t.cells, c.y > 0 ∧ b c.x (c.y - 1) = false)
      ∧ (t.can_move_right oob b = true ↔ ∀ c ∈ t.cells, c.y < 19 ∧ b c.x (c.y + 1) = false) :=
  ⟨can_move_left_eq_true_iff oob b t h, can_move_right_eq_true_iff oob b t h⟩

theorem can_move_left_right_iff_witness :
    (mk_shape .TETRIS_TSHAPE .TSHAPE_DOWN).inBounds = true ∧
    ((mk_shape .TETRIS_TSHAPE .TSHAPE_DOWN).can_move_left (fun _ _ => true) initial_board = true ↔
      ∀ c ∈ (mk_shape .TETRIS_TSHAPE .TSHAPE_DOWN).cells,
        c.y > 0 ∧ initial_board c.x (c.y - 1) = false) :=
  ⟨by decide,
    (can_move_left_right_iff (fun _ _ => true) initial_board
      (mk_shape .TETRIS_TSHAPE .TSHAPE_DOWN) (by decide)).1⟩

theorem moves_stay_valid (oob : Int → Int → Bool) (b : Board) (t : TetrisShape)
    (h : t.inBounds = true) :
    (t.can_move_left oob b = true →
        t.move_left.inBounds = true ∧ t.move_left.unoccupied b = true)
      ∧ (t.can_move_right oob b = true →
        t.move_right.inBounds = true ∧ t.move_right.unoccupied b = true)
      ∧ (t.can_move_down oob b = true →
        t.move_down.inBounds = true ∧ t.move_down.unoccupied b = true) := by
  obtain ⟨⟨a0, a1, a2, a3⟩, ⟨b0, b1, b2, b3⟩, ⟨c0, c1, c2, c3⟩, ⟨d0, d1, d2, d3⟩⟩ :=
    (inBounds_iff t).1 h
  refine ⟨fun hc => ?_, fun hc => ?_, fun hc => ?_⟩
  · have hall := (can_move_left_eq_true_iff oob b t h).1 hc
    simp only [cells, List.mem_cons, List.mem_singleton, List.not_mem_nil, or_false,
      forall_eq_or_imp, forall_eq] at hall
    obtain ⟨⟨e0, f0⟩, ⟨e1, f1⟩, ⟨e2, f2⟩, ⟨e3, f3⟩⟩ := hall
    rw [inBounds_iff, unoccupied_iff]
    simp only [move_left, coordinate.move_left]
    refine ⟨⟨⟨?_, ?_, ?_, ?_⟩, ⟨?_, ?_, ?_, ?_⟩, ⟨?_, ?_, ?_, ?_⟩, ⟨?_, ?_, ?_, ?_⟩⟩,
      f0, f1, f2, f3⟩ <;> omega
  · have hall := (can_move_right_eq_true_iff oob b t h).1 hc
    simp only [cells, List.mem_cons, List.mem_singleton, List.not_mem_nil, or_false,
      forall_eq_or_imp, forall_eq] at hall
    obtain ⟨⟨e0, f0⟩, ⟨e1, f1⟩, ⟨e2, f2⟩, ⟨e3, f3⟩⟩ := hall
    rw [inBounds_iff, unoccupied_iff]
    simp only [move_right, coordinate.move_right]
    refine ⟨⟨⟨?_, ?_, ?_, ?_⟩, ⟨?_, ?_, ?_, ?_⟩, ⟨?_, ?_, ?_, ?_⟩, ⟨?_, ?_, ?_, ?_⟩⟩,
      f0, f1, f2, f3⟩ <;> omega
  · have hall := (can_move_down_eq_true_iff oob b t h).1 hc
    simp only [cells, List.mem_cons, List.mem_singleton, List.not_mem_nil, or_false,
      forall_eq_or_imp, forall_eq] at hall
    obtain ⟨⟨e0, f0⟩, ⟨e1, f1⟩, ⟨e2, f2⟩, ⟨e3, f3⟩⟩ := hall
    rw [inBounds_iff, unoccupied_iff]
    simp only [move_down, coordinate.move_down]
    refine ⟨⟨⟨?_, ?_, ?_, ?_⟩, ⟨?_, ?_, ?_, ?_⟩, ⟨?_, ?_, ?_, ?_⟩, ⟨?_, ?_, ?_, ?_⟩⟩,
      f0, f1, f2, f3⟩ <;> omega

/-- Claim C6. For a piece whose four cells are in-bounds and unoccupied: if
`can_move_left` (resp. `can_move_right`, `can_move_down`) returns `true`, then
after `move_left` (resp. `move_right`, `move_down`) all four cells are still
in-bounds and none of them is on an occupied board cell. -/
theorem gated_move_stays_valid (oob : Int → Int → Bool) (b : Board) (t : TetrisShape)
    (h : t.inBounds = true) (_hu : t.unoccupied b = true) :
    (t.can_move_left oob b = true →
        t.move_left.inBounds = true ∧ t.move_left.unoccupied b = true)
      ∧ (t.can_move_right oob b = true →
        t.move_right.inBounds = true ∧ t.move_right.unoccupied b = true)
      ∧ (t.can_move_down oob b = true →
        t.move_down.inBounds = true ∧ t.move_down.unoccupied b = true) :=
  moves_stay_valid oob b t h

theorem gated_move_stays_valid_witness :
    (mk_shape .TETRIS_STRIPSHAPE .LSHAPE_DOWN).inBounds = true ∧
    (mk_shape .TETRIS_STRIPSHAPE .LSHAPE_DOWN).unoccupied initial_board = true ∧
    (mk_shape .TETRIS_STRIPSHAPE .LSHAPE_DOWN).can_move_down (fun _ _ => true) initial_board = true ∧
    (mk_shape .TETRIS_STRIPSHAPE .LSHAPE_DOWN).move_down.inBounds = true ∧
    (mk_shape .TETRIS_STRIPSHAPE .LSHAPE_DOWN).move_down.unoccupied initial_board = true :=
  ⟨by decide, by decide, by decide,
    (gated_move_stays_valid (fun _ _ => true) initial_board
      (mk_shape .TETRIS_STRIPSHAPE .LSHAPE_DOWN) (by decide) (by decide)).2.2 (by decide)⟩

/-! ## Rotation: layouts and cycles -/

theorem canonical_mk_shape (k : SHAPE_TYPE) (u : SHAPE_SUBTYPE)
    (hk : k ≠ .TETRIS_TOTALSHAPE) : (mk_shape k u).canonical = true := by
  cases k <;> first | exact absurd rfl hk | (cases u <;> decide)

theorem canonical_morph (t : TetrisShape) (hc : t.canonical = true) :
    t.morph.canonical = true := by
  obtain ⟨st, ss, ⟨x0, y0⟩, ⟨x1, y1⟩, ⟨x2, y2⟩, ⟨x3, y3⟩⟩ := t
  cases st <;> cases ss <;>
    simp only [canonical, layout, Bool.false_eq_true] at hc <;>
    simp only [Bool.and_eq_true, decide_eq_true_eq, coordinate.mk.injEq] at hc <;>
    obtain ⟨⟨⟨h1, h2⟩, h3, h4⟩, h5, h6⟩ := hc <;>
    subst h1 h2 h3 h4 h5 h6 <;>
    simp [morph, morph_lshape, morph_gammashape, morph_tshape, morph_stripshape,
      morph_leftnshape, morph_rightnshape, canonical, layout] <;>
    omega

theorem morph_stype (t : TetrisShape) : t.morph.stype = t.stype := by
  obtain ⟨st, ss, c0, c1, c2, c3⟩ := t
  cases st <;> cases ss <;> rfl

theorem morph_shsubtype (t : TetrisShape) (hk : t.stype ≠ .TETRIS_SQUARESHAPE)
    (hc : t.canonical = true) : t.morph.shsubtype = next_state t.shsubtype := by
  obtain ⟨st, ss, c0, c1, c2, c3⟩ := t
  cases st <;> cases ss <;>
    first | rfl | exact absurd rfl hk | exact absurd hc (by simp [canonical])

theorem nodup_cells_of_canonical (t : TetrisShape) (hc : t.canonical = true) :
    t.cells.Nodup := by
  obtain ⟨st, ss, ⟨x0, y0⟩, ⟨x1, y1⟩, ⟨x2, y2⟩, ⟨x3, y3⟩⟩ := t
  cases st <;> cases ss <;>
    simp only [canonical, layout, Bool.false_eq_true] at hc <;>
    simp only [Bool.and_eq_true, decide_eq_true_eq, coordinate.mk.injEq] at hc <;>
    obtain ⟨⟨⟨h1, h2⟩, h3, h4⟩, h5, h6⟩ := hc <;>
    subst h1 h2 h3 h4 h5 h6 <;>
    simp [cells]

theorem perm_swap_first_third {α : Type} (a b c d : α) : [a, b, c, d].Perm [c, b, a, d] :=
  ((List.Perm.swap b a [c, d]).trans ((List.Perm.swap c a [d]).cons b)).trans
    (List.Perm.swap c b [a, d])

theorem morph_quarter_turn (t : TetrisShape) (hc : t.canonical = true)
    (hk : t.stype ≠ .TETRIS_SQUARESHAPE) :
    t.morph.cells.Perm (t.cells.map (fun p =>
        shift_by ⟨t.morph.c1.x - (turn_a t.c1).x, t.morph.c1.y - (turn_a t.c1).y⟩ (turn_a p)))
    ∨ t.morph.cells.Perm (t.cells.map (fun p =>
        shift_by ⟨t.morph.c1.x - (turn_b t.c1).x, t.morph.c1.y - (turn_b t.c1).y⟩ (turn_b p))) := by
  obtain ⟨st, ss, ⟨x0, y0⟩, ⟨x1, y1⟩, ⟨x2, y2⟩, ⟨x3, y3⟩⟩ := t
  cases st <;> cases ss <;>
    simp only [canonical, layout, Bool.false_eq_true] at hc <;>
    simp only [Bool.and_eq_true, decide_eq_true_eq, coordinate.mk.injEq] at hc <;>
    first
    | exact absurd rfl hk
    | (obtain ⟨⟨⟨h1, h2⟩, h3, h4⟩, h5, h6⟩ := hc
       subst h1 h2 h3 h4 h5 h6
       first
       | (left
          refine List.Perm.of_eq ?_
          simp only [morph, morph_lshape, morph_gammashape, morph_tshape, morph_stripshape,
            morph_leftnshape, morph_rightnshape, cells, List.map_cons, List.map_nil,
            shift_by, turn_a, coordinate.mk.injEq, List.cons.injEq, and_true]
          omega)
       | (right
          refine List.Perm.of_eq ?_
          simp only [morph, morph_lshape, morph_gammashape, morph_tshape, morph_stripshape,
            morph_leftnshape, morph_rightnshape, cells, List.map_cons, List.map_nil,
            shift_by, turn_b, coordinate.mk.injEq, List.cons.injEq, and_true]
          omega)
       | (left
          refine (perm_swap_first_third _ _ _ _).trans (List.Perm.of_eq ?_)
          simp only [morph, morph_lshape, morph_gammashape, morph_tshape, morph_stripshape,
            morph_leftnshape, morph_rightnshape, cells, List.map_cons, List.map_nil,
            shift_by, turn_a, coordinate.mk.injEq, List.cons.injEq, and_true]
          omega))

theorem inBounds_morph (oob : Int → Int → Bool) (b : Board) (t : TetrisShape)
    (hc : t.canonical = true) (hb : t.inBounds = true) (hm : t.can_morph oob b = true) :
    t.morph.inBounds = true := by
  rw [inBounds_iff] at hb ⊢
  obtain ⟨st, ss, ⟨x0, y0⟩, ⟨x1, y1⟩, ⟨x2, y2⟩, ⟨x3, y3⟩⟩ := t
  cases st <;> cases ss <;>
    simp only [canonical, layout, Bool.false_eq_true] at hc <;>
    simp only [Bool.and_eq_true, decide_eq_true_eq, coordinate.mk.injEq] at hc <;>
    obtain ⟨⟨⟨h1, h2⟩, h3, h4⟩, h5, h6⟩ := hc <;>
    subst h1 h2 h3 h4 h5 h6 <;>
    simp only [can_morph, can_morph_stripe, can_morph_lshape, can_morph_gammashape,
      can_morph_tshape, can_morph_leftnshape, can_morph_rightnshape,
      can_lshape_down_to_left, can_lshape_left_to_up, can_lshape_up_to_right,
      can_lshape_right_to_down, can_gammashape_down_to_right, can_gammashape_right_to_up,
      can_gammashape_up_to_left, can_gammashape_left_to_down,
      downmost, upmost, leftmost, rightmost, List.any_cons, List.any_nil,
      Bool.or_false, Bool.or_eq_true, decide_eq_true_eq, Bool.if_false_left,
      Bool.and_eq_true, Bool.not_eq_true', Bool.or_eq_false_iff, decide_eq_false_iff_not,
      Bool.if_true_right, Bool.if_false_right, Bool.not_or, Bool.and_true, Bool.not_eq_eq_eq_not,
      Bool.not_true, Bool.decide_eq_false] at hm <;>
    simp only [morph, morph_lshape, morph_gammashape, morph_tshape, morph_stripshape,
      morph_leftnshape, morph_rightnshape] at hb ⊢ <;>
    omega

/-- Claim C2 (where the code departs from it). In the session's initial board, an L piece
in state Down at cells (16,8),(16,9),(16,10),(17,10) is in canonical layout,
in-bounds and on free cells, and `can_morph` returns `true`; yet cell 3 of the
piece after `morph` is (18,9), which is occupied on the board.  The predicate
`can_lshape_down_to_left` reads `board_grid[cdnt[1].x + 2][cdnt[2].y]`, i.e.
(18,10) a second time, where the new cell is (18,9). -/
theorem can_morph_lshape_misses_new_cell :
    (⟨.TETRIS_LSHAPE, .LSHAPE_DOWN, ⟨16, 8⟩, ⟨16, 9⟩, ⟨16, 10⟩, ⟨17, 10⟩⟩ : TetrisShape).canonical
        = true
      ∧ (⟨.TETRIS_LSHAPE, .LSHAPE_DOWN, ⟨16, 8⟩, ⟨16, 9⟩, ⟨16, 10⟩, ⟨17, 10⟩⟩ :
          TetrisShape).inBounds = true
      ∧ (⟨.TETRIS_LSHAPE, .LSHAPE_DOWN, ⟨16, 8⟩, ⟨16, 9⟩, ⟨16, 10⟩, ⟨17, 10⟩⟩ :
          TetrisShape).unoccupied initial_board = true
      ∧ (⟨.TETRIS_LSHAPE, .LSHAPE_DOWN, ⟨16, 8⟩, ⟨16, 9⟩, ⟨16, 10⟩, ⟨17, 10⟩⟩ :
          TetrisShape).can_morph (fun _ _ => false) initial_board = true
      ∧ (⟨.TETRIS_LSHAPE, .LSHAPE_DOWN, ⟨16, 8⟩, ⟨16, 9⟩, ⟨16, 10⟩, ⟨17, 10⟩⟩ :
          TetrisShape).morph.c3 = ⟨18, 9⟩
      ∧ initial_board 18 9 = true
      ∧ (⟨.TETRIS_LSHAPE, .LSHAPE_DOWN, ⟨16, 8⟩, ⟨16, 9⟩, ⟨16, 10⟩, ⟨17, 10⟩⟩ :
          TetrisShape).morph.unoccupied initial_board = false := by
  decide

/-- Claim C3. For every board, every kind and rotation state, and every piece in
the canonical layout of its state whose four cells are within `[0,19] x [0,19]`:
if `can_morph` returns `true`, then all four cells after `morph` are within
`[0,19] x [0,19]`. -/
theorem can_morph_keeps_in_bounds (oob : Int → Int → Bool) (b : Board) (t : TetrisShape)
    (hc : t.canonical = true) (hb : t.inBounds = true) (hm : t.can_morph oob b = true) :
    ∀ c ∈ t.morph.cells, 0 ≤ c.x ∧ c.x ≤ 19 ∧ 0 ≤ c.y ∧ c.y ≤ 19 := by
  have h := (inBounds_iff t.morph).1 (inBounds_morph oob b t hc hb hm)
  simpa [cells] using h

theorem can_morph_keeps_in_bounds_witness :
    (mk_shape .TETRIS_GAMMASHAPE .LSHAPE_DOWN).canonical = true
      ∧ (mk_shape .TETRIS_GAMMASHAPE .LSHAPE_DOWN).inBounds = true
      ∧ (mk_shape .TETRIS_GAMMASHAPE .LSHAPE_DOWN).can_morph (fun _ _ => true) initial_board = true
      ∧ ∀ c ∈ (mk_shape .TETRIS_GAMMASHAPE .LSHAPE_DOWN).morph.cells,
          0 ≤ c.x ∧ c.x ≤ 19 ∧ 0 ≤ c.y ∧ c.y ≤ 19 :=
  ⟨by decide, by decide, by decide,
    can_morph_keeps_in_bounds (fun _ _ => true) initial_board
      (mk_shape .TETRIS_GAMMASHAPE .LSHAPE_DOWN) (by decide) (by decide) (by decide)⟩

/-- Claim C8. For every T, L or Gamma piece in the canonical layout of its
rotation state, at any position, four successive `morph`s give back exactly
the original piece (the same cell at each index, the same rotation state), and
the states visited are the four distinct states of the kind's cycle in order:
Down, Left, Up, Right for L and T, and Down, Right, Up, Left for Gamma
(`next_state`). -/
theorem morph_four_times (t : TetrisShape)
    (hk : t.stype = .TETRIS_LSHAPE ∨ t.stype = .TETRIS_GAMMASHAPE ∨ t.stype = .TETRIS_TSHAPE)
    (hc : t.canonical = true) :
    t.morph.morph.morph.morph = t
      ∧ t.morph.shsubtype = next_state t.shsubtype
      ∧ t.morph.morph.shsubtype = next_state (next_state t.shsubtype)
      ∧ t.morph.morph.morph.shsubtype = next_state (next_state (next_state t.shsubtype))
      ∧ [t.shsubtype, t.morph.shsubtype, t.morph.morph.shsubtype,
          t.morph.morph.morph.shsubtype].Nodup := by
  obtain ⟨st, ss, ⟨x0, y0⟩, ⟨x1, y1⟩, ⟨x2, y2⟩, ⟨x3, y3⟩⟩ := t
  rcases hk with hk | hk | hk <;> simp only at hk <;> subst hk <;> cases ss <;>
    simp only [canonical, layout, Bool.false_eq_true] at hc <;>
    simp only [Bool.and_eq_true, decide_eq_true_eq, coordinate.mk.injEq] at hc <;>
    obtain ⟨⟨⟨h1, h2⟩, h3, h4⟩, h5, h6⟩ := hc <;>
    subst h1 h2 h3 h4 h5 h6 <;>
    simp [morph, morph_lshape, morph_gammashape, morph_tshape, next_state] <;>
    omega

theorem morph_four_times_witness :
    (mk_shape .TETRIS_TSHAPE .LSHAPE_DOWN).canonical = true
      ∧ (mk_shape .TETRIS_TSHAPE .LSHAPE_DOWN).morph.morph.morph.morph
          = mk_shape .TETRIS_TSHAPE .LSHAPE_DOWN :=
  ⟨by decide,
    (morph_four_times (mk_shape .TETRIS_TSHAPE .LSHAPE_DOWN) (Or.inr (Or.inr rfl))
      (by decide)).1⟩

/-- Claim C9. For every Strip, LeftN or RightN piece in the canonical layout of
its rotation state, at any position, two successive `morph`s give back exactly
the original four cells and the original rotation state; the state in between
is the other state of the kind (Landscape/Portrait, Vertical/Horizontal). -/
theorem morph_twice (t : TetrisShape)
    (hk : t.stype = .TETRIS_STRIPSHAPE ∨ t.stype = .TETRIS_LEFTNSHAPE
      ∨ t.stype = .TETRIS_RIGHTNSHAPE)
    (hc : t.canonical = true) :
    t.morph.morph = t
      ∧ t.morph.shsubtype = next_state t.shsubtype
      ∧ next_state (next_state t.shsubtype) = t.shsubtype
      ∧ t.morph.shsubtype ≠ t.shsubtype := by
  obtain ⟨st, ss, ⟨x0, y0⟩, ⟨x1, y1⟩, ⟨x2, y2⟩, ⟨x3, y3⟩⟩ := t
  rcases hk with hk | hk | hk <;> simp only at hk <;> subst hk <;> cases ss <;>
    simp only [canonical, layout, Bool.false_eq_true] at hc <;>
    simp only [Bool.and_eq_true, decide_eq_true_eq, coordinate.mk.injEq] at hc <;>
    obtain ⟨⟨⟨h1, h2⟩, h3, h4⟩, h5, h6⟩ := hc <;>
    subst h1 h2 h3 h4 h5 h6 <;>
    simp [morph, morph_stripshape, morph_leftnshape, morph_rightnshape, next_state] <;>
    omega

theorem morph_twice_witness :
    (mk_shape .TETRIS_LEFTNSHAPE .LSHAPE_DOWN).canonical = true
      ∧ (mk_shape .TETRIS_LEFTNSHAPE .LSHAPE_DOWN).morph.morph
          = mk_shape .TETRIS_LEFTNSHAPE .LSHAPE_DOWN :=
  ⟨by decide,
    (morph_twice (mk_shape .TETRIS_LEFTNSHAPE .LSHAPE_DOWN) (Or.inr (Or.inl rfl))
      (by decide)).1⟩

/-- Claim C10. For every kind other than Square and every rotation state, if the
cells are in the canonical layout of that state, then `morph` keeps the kind,
moves to the next state of the cycle, yields four pairwise distinct cells in
the canonical layout of that next state, and the new cells are, up to their
order in `cdnt`, the old cells turned by a quarter turn and translated. -/
theorem morph_keeps_tetromino (t : TetrisShape) (hk : t.stype ≠ .TETRIS_SQUARESHAPE)
    (hc : t.canonical = true) :
    t.morph.stype = t.stype
      ∧ t.morph.shsubtype = next_state t.shsubtype
      ∧ t.morph.canonical = true
      ∧ t.morph.cells.Nodup
      ∧ ∃ d : coordinate,
          t.morph.cells.Perm (t.cells.map (fun p => shift_by d (turn_a p)))
            ∨ t.morph.cells.Perm (t.cells.map (fun p => shift_by d (turn_b p))) := by
  refine ⟨morph_stype t, morph_shsubtype t hk hc, canonical_morph t hc,
    nodup_cells_of_canonical _ (canonical_morph t hc), ?_⟩
  rcases morph_quarter_turn t hc hk with h | h
  · exact ⟨_, Or.inl h⟩
  · exact ⟨_, Or.inr h⟩

theorem morph_keeps_tetromino_witness :
    (mk_shape .TETRIS_RIGHTNSHAPE .LSHAPE_DOWN).stype ≠ .TETRIS_SQUARESHAPE
      ∧ (mk_shape .TETRIS_RIGHTNSHAPE .LSHAPE_DOWN).canonical = true
      ∧ (mk_shape .TETRIS_RIGHTNSHAPE .LSHAPE_DOWN).morph.canonical = true
      ∧ (mk_shape .TETRIS_RIGHTNSHAPE .LSHAPE_DOWN).morph.cells.Nodup :=
  ⟨by decide, by decide,
    (morph_keeps_tetromino (mk_shape .TETRIS_RIGHTNSHAPE .LSHAPE_DOWN) (by decide)
      (by decide)).2.2.1,
    (morph_keeps_tetromino (mk_shape .TETRIS_RIGHTNSHAPE .LSHAPE_DOWN) (by decide)
      (by decide)).2.2.2.1⟩

/-- The Gamma transition Down to Right has the same gap as the L transition
Down to Left: the new cell (18,14) is occupied and is not read. -/
theorem can_morph_gammashape_misses_new_cell :
    (⟨.TETRIS_GAMMASHAPE, .GAMMASHAPE_DOWN, ⟨16, 15⟩, ⟨16, 14⟩, ⟨16, 13⟩, ⟨17, 13⟩⟩ :
          TetrisShape).canonical = true
      ∧ (⟨.TETRIS_GAMMASHAPE, .GAMMASHAPE_DOWN, ⟨16, 15⟩, ⟨16, 14⟩, ⟨16, 13⟩, ⟨17, 13⟩⟩ :
          TetrisShape).unoccupied initial_board = true
      ∧ (⟨.TETRIS_GAMMASHAPE, .GAMMASHAPE_DOWN, ⟨16, 15⟩, ⟨16, 14⟩, ⟨16, 13⟩, ⟨17, 13⟩⟩ :
          TetrisShape).can_morph (fun _ _ => false) initial_board = true
      ∧ (⟨.TETRIS_GAMMASHAPE, .GAMMASHAPE_DOWN, ⟨16, 15⟩, ⟨16, 14⟩, ⟨16, 13⟩, ⟨17, 13⟩⟩ :
          TetrisShape).morph.unoccupied initial_board = false := by
  decide

/-- The LeftN transition Horizontal to Vertical reads (17,9) and the piece's
own cell (19,10), and not the new cell (18,9), which is occupied. -/
theorem can_morph_leftnshape_misses_new_cell :
    (⟨.TETRIS_LEFTNSHAPE, .LEFTNSHAPE_HORIZONTAL, ⟨19, 9⟩, ⟨19, 10⟩, ⟨18, 10⟩, ⟨18, 11⟩⟩ :
          TetrisShape).canonical = true
      ∧ (⟨.TETRIS_LEFTNSHAPE, .LEFTNSHAPE_HORIZONTAL, ⟨19, 9⟩, ⟨19, 10⟩, ⟨18, 10⟩, ⟨18, 11⟩⟩ :
          TetrisShape).unoccupied initial_board = true
      ∧ (⟨.TETRIS_LEFTNSHAPE, .LEFTNSHAPE_HORIZONTAL, ⟨19, 9⟩, ⟨19, 10⟩, ⟨18, 10⟩, ⟨18, 11⟩⟩ :
          TetrisShape).can_morph (fun _ _ => false) initial_board = true
      ∧ (⟨.TETRIS_LEFTNSHAPE, .LEFTNSHAPE_HORIZONTAL, ⟨19, 9⟩, ⟨19, 10⟩, ⟨18, 10⟩, ⟨18, 11⟩⟩ :
          TetrisShape).morph.unoccupied initial_board = false := by
  decide

end TetrisShape

/-! ## The line-clear algorithm `check_grid` -/

theorem mem_indices (c : Int) : c ∈ indices ↔ 0 ≤ c ∧ c ≤ 19 := by
  simp only [indices, List.mem_map, List.mem_range]
  constructor
  · rintro ⟨n, hn, rfl⟩
    simp only [Int.ofNat_eq_coe]
    omega
  · rintro ⟨h0, h1⟩
    refine ⟨c.toNat, by omega, ?_⟩
    simp only [Int.ofNat_eq_coe]
    omega

theorem foldl_board_set (f : Int → Bool) (row : Int) (l : List Int) (d : Board) (r c : Int) :
    (l.foldl (fun d col => board_set d row col (f col)) d) r c
      = if r = row ∧ c ∈ l then f c else d r c := by
  induction l generalizing d with
  | nil => simp
  | cons a l ih =>
    rw [List.foldl_cons, ih]
    by_cases h1 : r = row ∧ c ∈ l
    · have h2 : r = row ∧ c ∈ a :: l := ⟨h1.1, List.mem_cons_of_mem _ h1.2⟩
      rw [if_pos h1, if_pos h2]
    · rw [if_neg h1]
      simp only [board_set]
      by_cases h3 : r = row ∧ c = a
      · rw [if_pos h3, if_pos ⟨h3.1, by rw [h3.2]; exact List.mem_cons_self _ _⟩, h3.2]
      · rw [if_neg h3, if_neg]
        rintro ⟨e1, e2⟩
        rcases List.mem_cons.1 e2 with e | e
        · exact h3 ⟨e1, e⟩
        · exact h1 ⟨e1, e⟩

theorem copy_row_apply (dst src : Board) (dr sr r c : Int) :
    copy_row dst src dr sr r c = if r = dr ∧ 0 ≤ c ∧ c ≤ 19 then src sr c else dst r c := by
  simp only [copy_row, foldl_board_set (fun col => src sr col), mem_indices]

theorem clear_row_apply (bg : Board) (row r c : Int) :
    clear_row bg row r c = if r = row ∧ 0 ≤ c ∧ c ≤ 19 then false else bg r c := by
  simp only [clear_row, foldl_board_set (fun _ => false), mem_indices]

theorem foldl_copy_row (bg : Board) (l : List Int) (k : Board) (r c : Int) :
    (l.foldl (fun k row => copy_row k bg row row) k) r c
      = if r ∈ l ∧ 0 ≤ c ∧ c ≤ 19 then bg r c else k r c := by
  induction l generalizing k with
  | nil => simp
  | cons a l ih =>
    rw [List.foldl_cons, ih, copy_row_apply]
    by_cases h1 : r ∈ l ∧ 0 ≤ c ∧ c ≤ 19
    · rw [if_pos h1, if_pos ⟨List.mem_cons_of_mem _ h1.1, h1.2⟩]
    · rw [if_neg h1]
      by_cases h3 : r = a ∧ 0 ≤ c ∧ c ≤ 19
      · rw [if_pos h3, if_pos ⟨by rw [h3.1]; exact List.mem_cons_self _ _, h3.2⟩, h3.1]
      · rw [if_neg h3, if_neg]
        rintro ⟨e1, e2⟩
        rcases List.mem_cons.1 e1 with e | e
        · exact h3 ⟨e, e2⟩
        · exact h1 ⟨e, e2⟩

theorem backup_grid_apply (bg bk : Board) (r c : Int) :
    backup_grid bg bk r c = if inRange r c then bg r c else bk r c := by
  simp only [backup_grid, foldl_copy_row, mem_indices]
  by_cases h : (0 ≤ r ∧ r ≤ 19) ∧ 0 ≤ c ∧ c ≤ 19
  · rw [if_pos h, if_pos ((inRange_iff r c).2 ⟨h.1.1, h.1.2, h.2.1, h.2.2⟩)]
  · rw [if_neg h, if_neg]
    intro e
    have := (inRange_iff r c).1 e
    exact h ⟨⟨this.1, this.2.1⟩, this.2.2⟩

theorem foldl_count (p : Int → Bool) (l : List Int) (n : Int) :
    l.foldl (fun n col => if p col then n + 1 else n) n = n + (l.countP p : Int) := by
  induction l generalizing n with
  | nil => simp
  | cons a l ih =>
    rw [List.foldl_cons, ih, List.countP_cons]
    cases p a
    · simp
    · simp only [↓reduceIte, Nat.cast_add, Nat.cast_one]
      omega

theorem sq_set_num_eq_iff (bg : Board) (row : Int) :
    sq_set_num bg row = 20 ↔ is_full bg row = true := by
  have hlen : indices.length = 20 := by simp [indices]
  have e : sq_set_num bg row = ((indices.countP (bg row) : Nat) : Int) := by
    simp only [sq_set_num, foldl_count (bg row), zero_add]
  have hfull : is_full bg row = true ↔ ∀ c ∈ indices, bg row c = true := by
    simp only [is_full, List.all_eq_true]
  rw [e, hfull, ← List.countP_eq_length, hlen]
  omega

theorem foldl_scan (bg : Board) (l : List Int) (s : Int × List Int) :
    l.foldl (fun s row => if sq_set_num bg row = 20 then (s.1 + 1, s.2 ++ [row]) else s) s
      = (s.1 + ((l.filter (is_full bg)).length : Int), s.2 ++ l.filter (is_full bg)) := by
  induction l generalizing s with
  | nil => simp
  | cons a l ih =>
    rw [List.foldl_cons, ih]
    by_cases h : is_full bg a = true
    · rw [if_pos ((sq_set_num_eq_iff bg a).2 h), List.filter_cons_of_pos h]
      simp only [List.length_cons, List.append_assoc, List.singleton_append, Nat.cast_add,
        Nat.cast_one, Prod.mk.injEq, and_true]
      omega
    · rw [if_neg (fun e => h ((sq_set_num_eq_iff bg a).1 e)), List.filter_cons_of_neg h]

theorem scan_rows_eq (bg : Board) (ts : Int) :
    scan_rows bg ts = (ts + full_count bg, indices.filter (is_full bg)) := by
  simp [scan_rows, foldl_scan, full_count]

theorem clear_rows_apply (n : Nat) (bg : Board) (r c : Int) :
    clear_rows n bg r c = if (0 ≤ r ∧ r < n) ∧ 0 ≤ c ∧ c ≤ 19 then false else bg r c := by
  induction n generalizing bg with
  | zero =>
    simp only [clear_rows]
    rw [if_neg]
    rintro ⟨⟨h1, h2⟩, -⟩
    simp at h2
    omega
  | succ n ih =>
    simp only [clear_rows]
    rw [ih, clear_row_apply]
    simp only [Int.ofNat_eq_coe, Nat.cast_add, Nat.cast_one]
    by_cases h1 : (0 ≤ r ∧ r < n) ∧ 0 ≤ c ∧ c ≤ 19
    · rw [if_pos h1, if_pos ⟨⟨h1.1.1, by omega⟩, h1.2⟩]
    · rw [if_neg h1]
      by_cases h2 : r = n ∧ 0 ≤ c ∧ c ≤ 19
      · rw [if_pos h2, if_pos ⟨⟨by omega, by omega⟩, h2.2⟩]
      · rw [if_neg h2, if_neg]
        rintro ⟨⟨e1, e2⟩, e3⟩
        by_cases e : r = n
        · exact h2 ⟨e, e3⟩
        · exact h1 ⟨⟨e1, by omega⟩, e3⟩

theorem rows_filter_succ (p : Int → Bool) (n : Nat) :
    (indices_below (n + 1)).filter p
      = (indices_below n).filter p ++ (if p (Int.ofNat n) then [Int.ofNat n] else []) := by
  rw [indices_below, indices_below, List.range_succ, List.map_append, List.filter_append]
  cases h : p (Int.ofNat n) <;> simp only [Int.ofNat_eq_coe] at h <;> simp [h]

theorem rows_filter_lt (p : Int → Bool) (n : Nat) (q : Int)
    (h : q ∈ (indices_below n).filter p) : q < n := by
  simp only [indices_below, List.mem_filter, List.mem_map, List.mem_range] at h
  obtain ⟨⟨m, hm, rfl⟩, -⟩ := h
  simp only [Int.ofNat_eq_coe]
  omega

theorem shift_rows_full (bk bg : Board) (n : Nat) (l : List Int) (rr : Int) :
    shift_rows bk (n + 1) (bg, l ++ [Int.ofNat n], rr) = shift_rows bk n (bg, l, rr) := by
  simp only [shift_rows, List.length_append, List.length_singleton, Nat.add_sub_cancel,
    List.dropLast_concat]
  have h1 : (l ++ [Int.ofNat n]).getD l.length 0 = Int.ofNat n := by
    simp [List.getD_eq_getElem?_getD]
  simp [h1]

theorem shift_rows_nonfull (bk bg : Board) (n : Nat) (l : List Int) (rr : Int)
    (hl : ∀ q ∈ l, q < n) :
    shift_rows bk (n + 1) (bg, l, rr)
      = shift_rows bk n (copy_row bg bk rr (Int.ofNat n), l, rr - 1) := by
  simp only [shift_rows]
  rw [if_neg]
  simp only [Bool.and_eq_true, decide_eq_true_eq, not_and]
  intro hpos he
  have hlt : l.length - 1 < l.length := by omega
  rw [List.getD_eq_getElem _ _ hlt] at he
  have := hl _ (List.getElem_mem hlt)
  rw [he] at this
  simp at this


theorem count_between_succ (p : Int → Bool) (r : Int) (n : Nat) :
    count_between p r (n + 1)
      = count_between p r n + (if r < n ∧ p n = true then 1 else 0) := by
  simp only [count_between, rows_filter_succ, List.length_append, Int.ofNat_eq_coe]
  by_cases h : r < n ∧ p n = true
  · simp [h.1, h.2]
  · rw [if_neg h]
    have : (decide (r < (n : Int)) && p n) = false := by
      rcases not_and_or.1 h with h1 | h1
      · simp [h1]
      · simp [h1]
    simp [this]

theorem count_between_self (p : Int → Bool) (n : Nat) :
    count_between p n n = 0 := by
  simp only [count_between, List.length_eq_zero, List.filter_eq_nil_iff]
  intro a ha
  have : a < n := by
    simp only [indices_below, List.mem_map, List.mem_range] at ha
    obtain ⟨m, hm, rfl⟩ := ha
    simp only [Int.ofNat_eq_coe]
    omega
  simp
  omega

theorem shift_rows_spec (bk : Board) (p : Int → Bool) (n : Nat) :
    ∀ (bg : Board) (rr : Int),
      (shift_rows bk n (bg, (indices_below n).filter p, rr)).2.2
          = rr - n + ((indices_below n).filter p).length
      ∧ (shift_rows bk n (bg, (indices_below n).filter p, rr)).2.2 ≤ rr
      ∧ (∀ r c : Int,
          (rr < r ∨ r ≤ (shift_rows bk n (bg, (indices_below n).filter p, rr)).2.2
            ∨ ¬ (0 ≤ c ∧ c ≤ 19)) →
          (shift_rows bk n (bg, (indices_below n).filter p, rr)).1 r c = bg r c)
      ∧ (∀ m : Nat, m < n → p m = false →
          (shift_rows bk n (bg, (indices_below n).filter p, rr)).2.2
              < m + (rr - (n - 1)) + count_between p m n
          ∧ m + (rr - (n - 1)) + count_between p m n ≤ rr
          ∧ ∀ c : Int, 0 ≤ c → c ≤ 19 →
              (shift_rows bk n (bg, (indices_below n).filter p, rr)).1
                (m + (rr - (n - 1)) + count_between p m n) c = bk m c) := by
  induction n with
  | zero =>
    intro bg rr
    simp [shift_rows, indices_below]
  | succ n ih =>
    intro bg rr
    by_cases hp : p n = true
    · have hf : (indices_below (n + 1)).filter p = (indices_below n).filter p ++ [Int.ofNat n] := by
        rw [rows_filter_succ]
        simp [hp]
      rw [hf, shift_rows_full]
      obtain ⟨i1, i2, i3, i4⟩ := ih bg rr
      refine ⟨?_, i2, i3, ?_⟩
      · rw [i1]
        simp only [List.length_append, List.length_singleton]
        push_cast
        omega
      · intro m hm hpm
        have hmn : m < n := by
          rcases Nat.lt_succ_iff_lt_or_eq.1 hm with h | h
          · exact h
          · subst h; rw [hp] at hpm; exact absurd hpm (by simp)
        obtain ⟨j1, j2, j3⟩ := i4 m hmn hpm
        have hc : count_between p m (n + 1) = count_between p m n + 1 := by
          rw [count_between_succ, if_pos ⟨by exact_mod_cast hmn, hp⟩]
        have he : (m : Int) + (rr - (((n + 1 : Nat) : Int) - 1)) + (count_between p m (n + 1) : Nat)
            = m + (rr - ((n : Int) - 1)) + count_between p m n := by
          rw [hc]; push_cast; omega
        rw [he]
        exact ⟨j1, j2, j3⟩
    · have hp2 : p n = false := by simpa using hp
      have hf : (indices_below (n + 1)).filter p = (indices_below n).filter p := by
        rw [rows_filter_succ]
        simp [hp2]
      rw [hf, shift_rows_nonfull bk bg n _ rr (fun q hq => rows_filter_lt p n q hq)]
      obtain ⟨i1, i2, i3, i4⟩ := ih (copy_row bg bk rr (Int.ofNat n)) (rr - 1)
      refine ⟨?_, by omega, ?_, ?_⟩
      · rw [i1]; push_cast; omega
      · intro r c hrc
        rw [i3 r c (by omega), copy_row_apply, if_neg]
        rintro ⟨e1, e2⟩
        omega
      · intro m hm hpm
        rcases Nat.lt_succ_iff_lt_or_eq.1 hm with h | h
        · obtain ⟨j1, j2, j3⟩ := i4 m h hpm
          have hc : count_between p m (n + 1) = count_between p m n := by
            rw [count_between_succ, if_neg (fun e => by rw [hp2] at e; exact absurd e.2 (by simp))]
            rfl
          have he : (m : Int) + (rr - (((n + 1 : Nat) : Int) - 1)) + (count_between p m (n + 1) : Nat)
              = m + (rr - 1 - ((n : Int) - 1)) + count_between p m n := by
            rw [hc]; push_cast; omega
          rw [he]
          exact ⟨j1, by omega, j3⟩
        · subst h
          have hc : count_between p m (m + 1) = 0 := by
            rw [count_between_succ, count_between_self, if_neg (by omega)]
          have he : (m : Int) + (rr - (((m + 1 : Nat) : Int) - 1)) + (count_between p m (m + 1) : Nat)
              = rr := by
            rw [hc]; push_cast; omega
          rw [he]
          refine ⟨by omega, le_refl _, ?_⟩
          intro c hc0 hc1
          rw [i3 rr c (Or.inl (by omega)), copy_row_apply, if_pos ⟨rfl, hc0, hc1⟩]
          rfl


theorem count_between_le (p : Int → Bool) (m n : Nat) (h : m < n) :
    count_between p m n + m + 1 ≤ n := by
  induction n with
  | zero => omega
  | succ n ih =>
    rcases Nat.lt_succ_iff_lt_or_eq.1 h with h1 | h1
    · have := ih h1
      rw [count_between_succ]
      split <;> omega
    · subst h1
      rw [count_between_succ, count_between_self, if_neg (by omega)]
      omega

theorem count_between_order (p : Int → Bool) (m1 m2 n : Nat) (h12 : m1 < m2) (h2 : m2 < n)
    (hp : p m2 = false) :
    m1 + count_between p m1 n < m2 + count_between p m2 n := by
  induction n with
  | zero => omega
  | succ n ih =>
    rcases Nat.lt_succ_iff_lt_or_eq.1 h2 with h | h
    · have := ih h
      rw [count_between_succ, count_between_succ]
      have e1 : ((m1 : Int) < n) := by exact_mod_cast (h12.trans h)
      have e2 : ((m2 : Int) < n) := by exact_mod_cast h
      by_cases hn : p n = true
      · rw [if_pos ⟨e1, hn⟩, if_pos ⟨e2, hn⟩]; omega
      · rw [if_neg (fun e => hn e.2), if_neg (fun e => hn e.2)]; omega
    · subst h
      have := count_between_le p m1 m2 h12
      rw [count_between_succ, count_between_succ, count_between_self,
        if_neg (fun e => by rw [hp] at e; exact absurd e.2 (by simp)), if_neg (by omega)]
      omega

theorem full_below_eq (b : Board) (r : Int) :
    full_below b r = (count_between (is_full b) r 20 : Nat) := rfl

theorem full_count_eq (b : Board) :
    full_count b = (((indices_below 20).filter (is_full b)).length : Nat) := rfl

theorem check_grid_board (g : Game) :
    (check_grid g).board_grid
      = clear_rows ((indices_below 20).filter (is_full g.board_grid)).length
          (shift_rows (backup_grid g.board_grid g.board_grid_backup) 20
            (g.board_grid, (indices_below 20).filter (is_full g.board_grid), 19)).1 := by
  have h := (shift_rows_spec (backup_grid g.board_grid g.board_grid_backup)
    (is_full g.board_grid) 20 g.board_grid 19).1
  have hs : (scan_rows g.board_grid g.total_smashed).2
      = (indices_below 20).filter (is_full g.board_grid) := by
    rw [scan_rows_eq]; rfl
  simp only [check_grid, hs]
  rw [h]
  have e : ∀ k : Nat, ((19 : Int) - ((20 : Nat) : Int) + (k : Int) + 1).toNat = k := by
    intro k; push_cast; omega
  rw [e]

theorem check_grid_total_smashed (g : Game) :
    (check_grid g).total_smashed = g.total_smashed + full_count g.board_grid := by
  simp only [check_grid, scan_rows_eq]

theorem check_grid_nonfull_row (g : Game) (m : Nat) (hm : m < 20)
    (hp : is_full g.board_grid m = false) :
    full_count g.board_grid ≤ m + full_below g.board_grid m
      ∧ m + full_below g.board_grid m ≤ 19
      ∧ ∀ c : Int, 0 ≤ c → c ≤ 19 →
          (check_grid g).board_grid (m + full_below g.board_grid m) c = g.board_grid m c := by
  obtain ⟨i1, -, -, i4⟩ := shift_rows_spec (backup_grid g.board_grid g.board_grid_backup)
    (is_full g.board_grid) 20 g.board_grid 19
  obtain ⟨j1, j2, j3⟩ := i4 m hm hp
  have he : (m : Int) + (19 - (((20 : Nat) : Int) - 1)) + (count_between (is_full g.board_grid) m 20 : Nat)
      = m + full_below g.board_grid m := by
    rw [full_below_eq]; push_cast; omega
  rw [he] at j1 j2 j3
  rw [i1] at j1
  have hk : full_count g.board_grid ≤ m + full_below g.board_grid m := by
    rw [full_count_eq]; push_cast at j1 ⊢; omega
  refine ⟨hk, j2, ?_⟩
  intro c hc0 hc1
  rw [check_grid_board, clear_rows_apply, if_neg, j3 c hc0 hc1, backup_grid_apply,
    if_pos ((inRange_iff _ _).2 ⟨by omega, by omega, hc0, hc1⟩)]
  rintro ⟨⟨-, e⟩, -⟩
  rw [full_count_eq] at hk
  omega

theorem shift_rows_covers (bk : Board) (p : Int → Bool) (n : Nat) :
    ∀ (bg : Board) (rr r : Int),
      (shift_rows bk n (bg, (indices_below n).filter p, rr)).2.2 < r → r ≤ rr →
      ∃ m : Nat, m < n ∧ p m = false ∧ r = m + (rr - (n - 1)) + count_between p m n := by
  induction n with
  | zero =>
    intro bg rr r h1 h2
    simp only [shift_rows] at h1
    omega
  | succ n ih =>
    intro bg rr r h1 h2
    by_cases hp : p n = true
    · have hf : (indices_below (n + 1)).filter p = (indices_below n).filter p ++ [Int.ofNat n] := by
        rw [rows_filter_succ]
        simp [hp]
      rw [hf, shift_rows_full] at h1
      obtain ⟨m, hm, hpm, e⟩ := ih bg rr r h1 h2
      refine ⟨m, Nat.lt_succ_of_lt hm, hpm, ?_⟩
      rw [count_between_succ, if_pos ⟨by exact_mod_cast hm, hp⟩, e]
      push_cast
      omega
    · have hp2 : p n = false := by simpa using hp
      have hf : (indices_below (n + 1)).filter p = (indices_below n).filter p := by
        rw [rows_filter_succ]
        simp [hp2]
      rw [hf, shift_rows_nonfull bk bg n _ rr (fun q hq => rows_filter_lt p n q hq)] at h1
      by_cases hr : r = rr
      · refine ⟨n, Nat.lt_succ_self n, hp2, ?_⟩
        rw [count_between_succ, count_between_self, if_neg (by omega), hr]
        push_cast
        omega
      · obtain ⟨m, hm, hpm, e⟩ := ih _ (rr - 1) r h1 (by omega)
        refine ⟨m, Nat.lt_succ_of_lt hm, hpm, ?_⟩
        rw [count_between_succ,
          if_neg (fun e => by rw [hp2] at e; exact absurd e.2 (by simp)), e]
        push_cast
        omega

theorem check_grid_cleared_row (g : Game) (r c : Int) (hr0 : 0 ≤ r)
    (hr : r < full_count g.board_grid) (hc0 : 0 ≤ c) (hc1 : c ≤ 19) :
    (check_grid g).board_grid r c = false := by
  rw [check_grid_board, clear_rows_apply, if_pos]
  rw [full_count_eq] at hr
  exact ⟨⟨hr0, hr⟩, hc0, hc1⟩

theorem check_grid_row_source (g : Game) (r : Int) (hr : full_count g.board_grid ≤ r)
    (hr1 : r ≤ 19) :
    ∃ m : Nat, m < 20 ∧ is_full g.board_grid m = false
      ∧ r = m + full_below g.board_grid m := by
  obtain ⟨i1, -, -, -⟩ := shift_rows_spec (backup_grid g.board_grid g.board_grid_backup)
    (is_full g.board_grid) 20 g.board_grid 19
  obtain ⟨m, hm, hpm, e⟩ := shift_rows_covers (backup_grid g.board_grid g.board_grid_backup)
    (is_full g.board_grid) 20 g.board_grid 19 r
    (by rw [i1]; rw [full_count_eq] at hr; push_cast at hr ⊢; omega) hr1
  refine ⟨m, hm, hpm, ?_⟩
  rw [e, full_below_eq]
  push_cast
  omega


/-- Claim C1. For every 20x20 board with `k = full_count` full rows, `check_grid`
produces the board in which every non-full row `r` of the input is found at row
`r + full_below r` (`full_below r` is the number of full rows with index greater
than `r`), a row between `k` and 19; rows `0 .. k-1` are entirely `false`; the
non-full rows keep their relative order; and every row from `k` to 19 of the
result is such a moved row.  No assumption is made on which rows are full. -/
theorem check_grid_moves_rows (g : Game) :
    (∀ r : Int, 0 ≤ r → r ≤ 19 → is_full g.board_grid r = false →
        ∀ c : Int, 0 ≤ c → c ≤ 19 →
          (check_grid g).board_grid (r + full_below g.board_grid r) c = g.board_grid r c)
      ∧ (∀ r : Int, 0 ≤ r → r ≤ 19 → is_full g.board_grid r = false →
          full_count g.board_grid ≤ r + full_below g.board_grid r
            ∧ r + full_below g.board_grid r ≤ 19)
      ∧ (∀ r c : Int, 0 ≤ r → r < full_count g.board_grid → 0 ≤ c → c ≤ 19 →
          (check_grid g).board_grid r c = false)
      ∧ (∀ r1 r2 : Int, 0 ≤ r1 → r1 < r2 → r2 ≤ 19 →
          is_full g.board_grid r1 = false → is_full g.board_grid r2 = false →
          r1 + full_below g.board_grid r1 < r2 + full_below g.board_grid r2)
      ∧ (∀ r : Int, full_count g.board_grid ≤ r → r ≤ 19 →
          ∃ q : Int, 0 ≤ q ∧ q ≤ 19 ∧ is_full g.board_grid q = false
            ∧ r = q + full_below g.board_grid q) := by
  refine ⟨?_, ?_, ?_, ?_, ?_⟩
  · intro r h0 h1 hp c hc0 hc1
    lift r to Nat using h0
    exact (check_grid_nonfull_row g r (by omega) hp).2.2 c hc0 hc1
  · intro r h0 h1 hp
    lift r to Nat using h0
    exact ⟨(check_grid_nonfull_row g r (by omega) hp).1,
      (check_grid_nonfull_row g r (by omega) hp).2.1⟩
  · intro r c h0 h1 hc0 hc1
    exact check_grid_cleared_row g r c h0 h1 hc0 hc1
  · intro r1 r2 h0 h12 h2 _ hp2
    lift r1 to Nat using h0
    lift r2 to Nat using (by omega : 0 ≤ r2)
    have := count_between_order (is_full g.board_grid) r1 r2 20 (by omega) (by omega) hp2
    rw [full_below_eq, full_below_eq]
    exact_mod_cast this
  · intro r hk h1
    obtain ⟨m, hm, hpm, e⟩ := check_grid_row_source g r hk h1
    exact ⟨m, by omega, by omega, hpm, e⟩

theorem check_grid_moves_rows_witness :
    is_full sample_game.board_grid 7 = false
      ∧ (check_grid sample_game).board_grid (7 + full_below sample_game.board_grid 7) 7
          = sample_game.board_grid 7 7 :=
  ⟨by decide,
    (check_grid_moves_rows sample_game).1 7 (by decide) (by decide) (by decide) 7
      (by decide) (by decide)⟩

/-! ## The controller: ticks and key events -/

namespace TetrisShape

theorem canonical_move (t : TetrisShape) (hc : t.canonical = true) :
    t.move_left.canonical = true ∧ t.move_right.canonical = true
      ∧ t.move_down.canonical = true := by
  obtain ⟨st, ss, ⟨x0, y0⟩, ⟨x1, y1⟩, ⟨x2, y2⟩, ⟨x3, y3⟩⟩ := t
  cases st <;> cases ss <;>
    simp only [canonical, layout, Bool.false_eq_true] at hc <;>
    simp only [Bool.and_eq_true, decide_eq_true_eq, coordinate.mk.injEq] at hc <;>
    obtain ⟨⟨⟨h1, h2⟩, h3, h4⟩, h5, h6⟩ := hc <;>
    subst h1 h2 h3 h4 h5 h6 <;>
    simp [move_left, move_right, move_down, coordinate.move_left, coordinate.move_right,
      coordinate.move_down, canonical, layout] <;>
    omega

theorem inBounds_mk_shape (k : SHAPE_TYPE) (u : SHAPE_SUBTYPE)
    (hk : k ≠ .TETRIS_TOTALSHAPE) : (mk_shape k u).inBounds = true := by
  cases k <;> first | exact absurd rfl hk | rfl

theorem move_to_bottom_loop_valid (oob : Int → Int → Bool) (b : Board) (n : Nat) :
    ∀ t : TetrisShape, t.inBounds = true → t.canonical = true →
      (move_to_bottom_loop oob b n t).inBounds = true
        ∧ (move_to_bottom_loop oob b n t).canonical = true := by
  induction n with
  | zero => intro t hb hc; exact ⟨hb, hc⟩
  | succ n ih =>
    intro t hb hc
    simp only [move_to_bottom_loop]
    split
    · rename_i hd
      exact ih _ ((moves_stay_valid oob b t hb).2.2 hd).1 (canonical_move t hc).2.2
    · exact ⟨hb, hc⟩

end TetrisShape

theorem static_cast_ne (rnd : Nat) : SHAPE_TYPE.static_cast (rnd % 7) ≠ .TETRIS_TOTALSHAPE := by
  have h : rnd % 7 < 7 := Nat.mod_lt _ (by decide)
  generalize rnd % 7 = k at h
  interval_cases k <;> simp [SHAPE_TYPE.static_cast]

theorem check_grid_pTshape (g : Game) : (check_grid g).pTshape = g.pTshape := rfl

theorem check_game_ending_fold_pTshape (oob : Int → Int → Bool) (b : Board)
    (l : List coordinate) (s : Game) :
    (l.foldl (fun s c => if board_at oob b c.x c.y then { s with is_ending := true } else s) s).pTshape
      = s.pTshape := by
  induction l generalizing s with
  | nil => rfl
  | cons a l ih =>
    rw [List.foldl_cons, ih]
    split <;> rfl

theorem check_game_ending_pTshape (oob : Int → Int → Bool) (g : Game) :
    (check_game_ending oob g).pTshape = g.pTshape := by
  unfold check_game_ending
  split
  · exact check_game_ending_fold_pTshape oob _ _ _
  · rfl

theorem step_valid (g : Game) (e : Event)
    (h : ∀ t, g.pTshape = some t → t.inBounds = true ∧ t.canonical = true) :
    ∀ t, (step g e).pTshape = some t → t.inBounds = true ∧ t.canonical = true := by
  intro t ht
  cases e with
  | tick oob rnd uninit =>
    simp only [step, run_game, check_grid_pTshape, check_game_ending_pTshape] at ht
    cases hp : g.pTshape with
    | none =>
      simp only [hp, Option.some.injEq] at ht
      subst ht
      exact ⟨TetrisShape.inBounds_mk_shape _ _ (static_cast_ne rnd),
        TetrisShape.canonical_mk_shape _ _ (static_cast_ne rnd)⟩
    | some t0 =>
      obtain ⟨hb, hc⟩ := h t0 hp
      simp only [hp] at ht
      split at ht
      · rename_i hd
        simp only [Option.some.injEq] at ht
        subst ht
        exact ⟨((TetrisShape.moves_stay_valid oob _ t0 hb).2.2 hd).1,
          (TetrisShape.canonical_move t0 hc).2.2⟩
      · simp at ht
  | counter_reset =>
    simp only [step] at ht
    split at ht
    · exact h t ht
    · exact h t ht
  | key oob k press =>
    simp only [step, key_callback] at ht
    cases press with
    | false => exact h t (by simpa using ht)
    | true =>
      simp only [if_true] at ht
      cases hp : g.pTshape with
      | none =>
        rw [hp] at ht
        cases k <;> simp only [hp] at ht <;> simp at ht
      | some t0 =>
        obtain ⟨hb, hc⟩ := h t0 hp
        rw [hp] at ht
        cases k <;> simp only at ht
        · split at ht
          · rename_i hd
            simp only [Option.some.injEq] at ht
            subst ht
            exact ⟨((TetrisShape.moves_stay_valid oob _ t0 hb).1 hd).1,
              (TetrisShape.canonical_move t0 hc).1⟩
          · exact h t ht
        · split at ht
          · rename_i hd
            simp only [Option.some.injEq] at ht
            subst ht
            exact ⟨((TetrisShape.moves_stay_valid oob _ t0 hb).2.1 hd).1,
              (TetrisShape.canonical_move t0 hc).2.1⟩
          · exact h t ht
        · split at ht
          · rename_i hd
            simp only [Option.some.injEq] at ht
            subst ht
            exact ⟨((TetrisShape.moves_stay_valid oob _ t0 hb).2.2 hd).1,
              (TetrisShape.canonical_move t0 hc).2.2⟩
          · exact h t ht
        · split at ht
          · rename_i hd
            simp only [Option.some.injEq] at ht
            subst ht
            exact ⟨TetrisShape.inBounds_morph oob _ t0 hc hb hd, TetrisShape.canonical_morph t0 hc⟩
          · exact h t ht
        · simp only [Option.some.injEq] at ht
          subst ht
          exact TetrisShape.move_to_bottom_loop_valid oob _ _ t0 hb hc
        · exact h t ht

theorem run_valid (es : List Event) :
    ∀ g : Game, (∀ t, g.pTshape = some t → t.inBounds = true ∧ t.canonical = true) →
      ∀ t, (run g es).pTshape = some t → t.inBounds = true ∧ t.canonical = true := by
  induction es with
  | nil => intro g h; exact h
  | cons e es ih =>
    intro g h
    exact ih (step g e) (step_valid g e h)


/-- Claim C7. In every state reached from the start of a session by any sequence
of ticks (`run_game`) and key events (`key_callback`: left, right, down,
rotate, hard drop), the four cells of the active piece are within
`[0,19] x [0,19]`.  The cells `persist` writes are the cells of the active
piece of such a state, so every write of a `persist` is in range. -/
theorem active_piece_in_bounds (es : List Event) (t : TetrisShape)
    (h : (run session_start es).pTshape = some t) :
    ∀ c ∈ t.cells, 0 ≤ c.x ∧ c.x ≤ 19 ∧ 0 ≤ c.y ∧ c.y ≤ 19 := by
  have hv := (run_valid es session_start (fun t0 h0 => by simp [session_start] at h0) t h).1
  simpa [TetrisShape.cells] using (TetrisShape.inBounds_iff t).1 hv

set_option maxRecDepth 8000 in
theorem active_piece_in_bounds_witness :
    (run session_start
        [Event.tick (fun _ _ => false) 0 .LSHAPE_DOWN,
          Event.key (fun _ _ => false) .LEFT true,
          Event.key (fun _ _ => false) .UP true,
          Event.tick (fun _ _ => false) 3 .LSHAPE_DOWN]).pTshape
        = some ⟨.TETRIS_LSHAPE, .LSHAPE_LEFT, ⟨1, 11⟩, ⟨2, 11⟩, ⟨3, 11⟩, ⟨3, 10⟩⟩
      ∧ ∀ c ∈ (⟨.TETRIS_LSHAPE, .LSHAPE_LEFT, ⟨1, 11⟩, ⟨2, 11⟩, ⟨3, 11⟩, ⟨3, 10⟩⟩ :
          TetrisShape).cells, 0 ≤ c.x ∧ c.x ≤ 19 ∧ 0 ≤ c.y ∧ c.y ≤ 19 :=
  ⟨by decide,
    active_piece_in_bounds
      [Event.tick (fun _ _ => false) 0 .LSHAPE_DOWN,
        Event.key (fun _ _ => false) .LEFT true,
        Event.key (fun _ _ => false) .UP true,
        Event.tick (fun _ _ => false) 3 .LSHAPE_DOWN] _ (by decide)⟩

/-! ## The hard drop leaves its loop through the loop condition -/

namespace TetrisShape

theorem downmost_lt_of_can_move_down (oob : Int → Int → Bool) (b : Board) (t : TetrisShape)
    (h : t.can_move_down oob b = true) : t.downmost < 19 := by
  simp only [can_move_down] at h
  split at h
  · exact absurd h (by simp)
  · exact of_decide_eq_true h

theorem downmost_move_down (t : TetrisShape) : t.move_down.downmost = t.downmost + 1 := by
  simp only [downmost, move_down, coordinate.move_down]
  omega

theorem can_move_down_loop (oob : Int → Int → Bool) (b : Board) (n : Nat) :
    ∀ t : TetrisShape, (19 - t.downmost).toNat ≤ n →
      (move_to_bottom_loop oob b n t).can_move_down oob b = false := by
  induction n with
  | zero =>
    intro t h
    simp only [move_to_bottom_loop]
    cases hc : t.can_move_down oob b
    · rfl
    · have := downmost_lt_of_can_move_down oob b t hc
      omega
  | succ n ih =>
    intro t h
    simp only [move_to_bottom_loop]
    cases hc : t.can_move_down oob b
    · simpa using hc
    · simp only [if_true]
      apply ih
      rw [downmost_move_down]
      have := downmost_lt_of_can_move_down oob b t hc
      omega

theorem can_move_down_move_to_bottom (oob : Int → Int → Bool) (b : Board) (t : TetrisShape) :
    (t.move_to_bottom oob b).can_move_down oob b = false :=
  can_move_down_loop oob b _ t (le_refl _)

end TetrisShape

/-! ## Rotations whose predicate does read every new cell -/

namespace TetrisShape

/-- Apart from the three transitions L Down to Left, Gamma Down to Right and
LeftN Horizontal to Vertical, a `true` answer of `can_morph` on a piece that is
in canonical layout, in-bounds and on free cells means that the four cells
after `morph` are free on the board. -/
theorem unoccupied_morph (oob : Int → Int → Bool) (b : Board) (t : TetrisShape)
    (hc : t.canonical = true) (hb : t.inBounds = true) (hu : t.unoccupied b = true)
    (hm : t.can_morph oob b = true)
    (hx : ¬ (t.shsubtype = .LSHAPE_DOWN ∨ t.shsubtype = .GAMMASHAPE_DOWN
      ∨ t.shsubtype = .LEFTNSHAPE_HORIZONTAL)) :
    t.morph.unoccupied b = true := by
  rw [inBounds_iff] at hb
  rw [unoccupied_iff] at hu ⊢
  obtain ⟨st, ss, ⟨x0, y0⟩, ⟨x1, y1⟩, ⟨x2, y2⟩, ⟨x3, y3⟩⟩ := t
  cases st <;> cases ss <;>
    simp only [canonical, layout, Bool.false_eq_true] at hc <;>
    simp only [Bool.and_eq_true, decide_eq_true_eq, coordinate.mk.injEq] at hc <;>
    first
    | exact absurd (Or.inl rfl) hx
    | exact absurd (Or.inr (Or.inl rfl)) hx
    | exact absurd (Or.inr (Or.inr rfl)) hx
    | (obtain ⟨⟨⟨h1, h2⟩, h3, h4⟩, h5, h6⟩ := hc
       subst h1 h2 h3 h4 h5 h6
       simp only [can_morph, can_morph_stripe, can_morph_lshape, can_morph_gammashape,
        can_morph_tshape, can_morph_leftnshape, can_morph_rightnshape,
        can_lshape_down_to_left, can_lshape_left_to_up, can_lshape_up_to_right,
        can_lshape_right_to_down, can_gammashape_down_to_right, can_gammashape_right_to_up,
        can_gammashape_up_to_left, can_gammashape_left_to_down,
        downmost, upmost, leftmost, rightmost, List.any_cons, List.any_nil,
        Bool.or_false, Bool.or_eq_true, decide_eq_true_eq, Bool.if_false_left,
        Bool.and_eq_true, Bool.not_eq_true', Bool.or_eq_false_iff, decide_eq_false_iff_not,
        Bool.if_true_right, Bool.if_false_right, Bool.not_or, Bool.and_true,
        Bool.not_eq_eq_eq_not, Bool.not_true, Bool.decide_eq_false] at hm
       simp only [morph, morph_lshape, morph_gammashape, morph_tshape, morph_stripshape,
        morph_leftnshape, morph_rightnshape] at hb hu ⊢
       try simp (disch := omega) only [board_at_of_inRange] at hm
       try simp only [not_or, Bool.not_eq_true] at hm
       try ring_nf at hm hu ⊢
       tauto)

end TetrisShape

/-! ## The hard drop `move_to_bottom` -/

namespace TetrisShape

theorem shift_down_zero (t : TetrisShape) : t.shift_down 0 = t := by
  obtain ⟨st, ss, ⟨x0, y0⟩, ⟨x1, y1⟩, ⟨x2, y2⟩, ⟨x3, y3⟩⟩ := t
  simp [shift_down]

theorem move_down_shift_down (t : TetrisShape) (k : Int) :
    (t.shift_down k).move_down = t.shift_down (k + 1) := by
  simp only [shift_down, move_down, coordinate.move_down, add_assoc]

theorem shift_down_move_down (t : TetrisShape) (k : Int) :
    t.move_down.shift_down k = t.shift_down (k + 1) := by
  simp only [shift_down, move_down, coordinate.move_down, TetrisShape.mk.injEq,
    coordinate.mk.injEq, and_true, true_and]
  omega

theorem downmost_shift_down (t : TetrisShape) (k : Int) :
    (t.shift_down k).downmost = t.downmost + k := by
  simp only [downmost, shift_down]
  omega

/-- The loop of `move_to_bottom` with `n` iterations available, when
`n` is at least `19 - downmost()`. -/
theorem move_to_bottom_loop_spec (oob : Int → Int → Bool) (b : Board) (n : Nat) :
    ∀ t : TetrisShape, (19 - t.downmost).toNat ≤ n →
      ∃ k : Nat, k ≤ n ∧ (k : Int) ≤ max (19 - t.downmost) 0
        ∧ move_to_bottom_loop oob b n t = t.shift_down k
        ∧ (t.shift_down k).can_move_down oob b = false
        ∧ ∀ j : Nat, j < k → (t.shift_down j).can_move_down oob b = true := by
  induction n with
  | zero =>
    intro t h
    refine ⟨0, le_refl _, by simp, ?_, ?_, ?_⟩
    · simp [move_to_bottom_loop, shift_down_zero]
    · have := can_move_down_loop oob b 0 t h
      simpa [move_to_bottom_loop, shift_down_zero] using this
    · intro j hj; omega
  | succ n ih =>
    intro t h
    cases hc : t.can_move_down oob b
    · refine ⟨0, Nat.zero_le _, by simp, ?_, ?_, ?_⟩
      · simp [move_to_bottom_loop, hc, shift_down_zero]
      · simpa [shift_down_zero] using hc
      · intro j hj; omega
    · have hlt := downmost_lt_of_can_move_down oob b t hc
      have hd := downmost_move_down t
      obtain ⟨k, hk1, hk2, hk3, hk4, hk5⟩ := ih t.move_down (by rw [hd]; omega)
      refine ⟨k + 1, by omega, ?_, ?_, ?_, ?_⟩
      · rw [hd] at hk2; push_cast; omega
      · simp only [move_to_bottom_loop, hc, if_true, hk3]
        rw [shift_down_move_down]; push_cast; rfl
      · rw [shift_down_move_down] at hk4
        push_cast
        exact hk4
      · intro j hj
        cases j with
        | zero => simpa [shift_down_zero] using hc
        | succ j =>
          have := hk5 j (by omega)
          rw [shift_down_move_down] at this
          push_cast
          exact this

theorem move_to_bottom_loop_stable (oob : Int → Int → Bool) (b : Board) (n : Nat) :
    ∀ t : TetrisShape, (19 - t.downmost).toNat ≤ n →
      move_to_bottom_loop oob b n t = t.move_to_bottom oob b := by
  induction n with
  | zero =>
    intro t h
    have : (19 - t.downmost).toNat = 0 := by omega
    simp [move_to_bottom, this]
  | succ n ih =>
    intro t h
    cases hc : t.can_move_down oob b
    · simp only [move_to_bottom_loop, hc, Bool.false_eq_true, if_false, move_to_bottom]
      cases hf : (19 - t.downmost).toNat with
      | zero => simp [move_to_bottom_loop]
      | succ m => simp [move_to_bottom_loop, hc]
    · have hlt := downmost_lt_of_can_move_down oob b t hc
      have hd := downmost_move_down t
      simp only [move_to_bottom_loop, hc, if_true]
      rw [ih t.move_down (by rw [hd]; omega)]
      simp only [move_to_bottom]
      have hf : (19 - t.downmost).toNat = (19 - t.move_down.downmost).toNat + 1 := by
        rw [hd]; omega
      rw [hf]
      simp only [move_to_bottom_loop, hc, if_true]


/-- Claim C11. For every board and every in-bounds piece, `move_to_bottom`
returns: the loop leaves through its condition after `k` single-row moves with
`k ≤ 19 - downmost()`, any larger number of available iterations gives the same
result, and the result is the piece translated straight down by `k` rows
(columns, kind and rotation state kept), where `k` is the least `n ≥ 0` such
that `can_move_down` is false for the piece translated down by `n` rows.
`can_move_down` is false afterwards, and the hard-drop key leaves the board
unchanged. -/
theorem move_to_bottom_spec (oob : Int → Int → Bool) (b : Board) (t : TetrisShape)
    (h : t.inBounds = true) :
    ∃ k : Nat, (k : Int) ≤ 19 - t.downmost
      ∧ t.move_to_bottom oob b = t.shift_down k
      ∧ (t.shift_down k).can_move_down oob b = false
      ∧ (∀ j : Nat, j < k → (t.shift_down j).can_move_down oob b = true)
      ∧ (t.move_to_bottom oob b).can_move_down oob b = false
      ∧ (∀ fuel : Nat, (19 - t.downmost).toNat ≤ fuel →
          move_to_bottom_loop oob b fuel t = t.move_to_bottom oob b)
      ∧ (t.move_to_bottom oob b).stype = t.stype
      ∧ (t.move_to_bottom oob b).shsubtype = t.shsubtype
      ∧ (t.move_to_bottom oob b).cells.map (fun c => c.y) = t.cells.map (fun c => c.y)
      ∧ (t.move_to_bottom oob b).cells.map (fun c => c.x) = t.cells.map (fun c => c.x + (k : Int))
      ∧ ∀ g : Game, g.pTshape = some t → g.board_grid = b →
          (key_callback oob .SPACE true g).board_grid = b
            ∧ (key_callback oob .SPACE true g).pTshape = some (t.move_to_bottom oob b) := by
  obtain ⟨k, -, hk2, hk3, hk4, hk5⟩ :=
    move_to_bottom_loop_spec oob b (19 - t.downmost).toNat t (le_refl _)
  have hd : t.downmost ≤ 19 := by
    obtain ⟨⟨a0, a1, a2, a3⟩, ⟨b0, b1, b2, b3⟩, ⟨c0, c1, c2, c3⟩, ⟨d0, d1, d2, d3⟩⟩ :=
      (inBounds_iff t).1 h
    simp only [downmost]
    omega
  have hm : t.move_to_bottom oob b = t.shift_down k := hk3
  refine ⟨k, by omega, hm, hk4, hk5, can_move_down_move_to_bottom oob b t,
    fun fuel hf => move_to_bottom_loop_stable oob b fuel t hf, ?_, ?_, ?_, ?_, ?_⟩
  · rw [hm]; rfl
  · rw [hm]; rfl
  · rw [hm]; rfl
  · rw [hm]; rfl
  · intro g hg hb
    subst hb
    simp [key_callback, hg]

theorem move_to_bottom_spec_witness :
    (mk_shape .TETRIS_LSHAPE .LSHAPE_DOWN).inBounds = true
      ∧ ∃ k : Nat, (k : Int) ≤ 19 - (mk_shape .TETRIS_LSHAPE .LSHAPE_DOWN).downmost
          ∧ (mk_shape .TETRIS_LSHAPE .LSHAPE_DOWN).move_to_bottom (fun _ _ => true) initial_board
              = (mk_shape .TETRIS_LSHAPE .LSHAPE_DOWN).shift_down k :=
  ⟨by decide,
    (move_to_bottom_spec (fun _ _ => true) initial_board
      (mk_shape .TETRIS_LSHAPE .LSHAPE_DOWN) (by decide)).imp (fun _ hk => ⟨hk.1, hk.2.1⟩)⟩

end TetrisShape

namespace TetrisShape

theorem inBounds_shift_down (t : TetrisShape) (k : Nat) (h : t.inBounds = true)
    (hk : (k : Int) ≤ 19 - t.downmost) : (t.shift_down k).inBounds = true := by
  rw [inBounds_iff] at h ⊢
  simp only [downmost] at hk
  simp only [shift_down]
  omega

theorem move_to_bottom_on_empty (oob : Int → Int → Bool) (b : Board) (t : TetrisShape)
    (he : ∀ r c : Int, 0 ≤ r → r ≤ 19 → 0 ≤ c → c ≤ 19 → b r c = false)
    (h : t.inBounds = true) :
    t.move_to_bottom oob b = t.shift_down (19 - t.downmost) := by
  obtain ⟨k, -, hk0, hk2, hk3, -⟩ :=
    move_to_bottom_loop_spec oob b (19 - t.downmost).toNat t (le_refl _)
  have hd : t.downmost ≤ 19 := by
    have := (inBounds_iff t).1 h
    simp only [downmost]
    omega
  have hk1 : (k : Int) ≤ 19 - t.downmost := by omega
  have hk2 : t.move_to_bottom oob b = t.shift_down k := hk2
  have hin := inBounds_shift_down t k h hk1
  have hnot : ¬ (t.shift_down k).can_move_down oob b = true := by rw [hk3]; simp
  rw [can_move_down_eq_true_iff oob b _ hin] at hnot
  have hk : (k : Int) = 19 - t.downmost := by
    by_contra hne
    apply hnot
    have hb := (inBounds_iff _).1 hin
    simp only [shift_down] at hb
    simp only [downmost] at hk1 hne
    intro c hc
    simp only [cells, shift_down, List.mem_cons, List.mem_singleton, List.not_mem_nil,
      or_false] at hc
    rcases hc with rfl | rfl | rfl | rfl <;>
      exact ⟨by simp only; omega, he _ _ (by simp only; omega) (by simp only; omega)
        (by simp only; omega) (by simp only; omega)⟩
  rw [hk2, hk]


/-- Claim C12. On an entirely empty board, `move_to_bottom` applied to an
in-bounds piece gives the piece translated down by `19 - downmost()` rows: its
downmost cell is on row 19, every cell keeps its column, all rows grow by the
same amount (so the row offsets between cells are kept), kind and state are
kept.  For the L piece at its initial cells (0,10),(0,11),(0,12),(1,12) the
final cells are (18,10),(18,11),(18,12),(19,12). -/
theorem move_to_bottom_empty_board (oob : Int → Int → Bool) (b : Board) (t : TetrisShape)
    (he : ∀ r c : Int, 0 ≤ r → r ≤ 19 → 0 ≤ c → c ≤ 19 → b r c = false)
    (h : t.inBounds = true) :
    (t.move_to_bottom oob b).downmost = 19
      ∧ (t.move_to_bottom oob b).cells.map (fun c => c.y) = t.cells.map (fun c => c.y)
      ∧ (t.move_to_bottom oob b).cells.map (fun c => c.x)
          = t.cells.map (fun c => c.x + (19 - t.downmost))
      ∧ (t.move_to_bottom oob b).stype = t.stype
      ∧ (t.move_to_bottom oob b).shsubtype = t.shsubtype
      ∧ ∀ u : SHAPE_SUBTYPE,
          ((mk_shape .TETRIS_LSHAPE u).move_to_bottom oob b).cells
            = [⟨18, 10⟩, ⟨18, 11⟩, ⟨18, 12⟩, ⟨19, 12⟩] := by
  have hm := move_to_bottom_on_empty oob b t he h
  refine ⟨?_, ?_, ?_, ?_, ?_, ?_⟩
  · rw [hm, downmost_shift_down]; omega
  · rw [hm]; rfl
  · rw [hm]; rfl
  · rw [hm]; rfl
  · rw [hm]; rfl
  · intro u
    rw [move_to_bottom_on_empty oob b _ he (inBounds_mk_shape _ u (by decide))]
    rfl

theorem move_to_bottom_empty_board_witness :
    (mk_shape .TETRIS_TSHAPE .LSHAPE_DOWN).inBounds = true
      ∧ ((mk_shape .TETRIS_TSHAPE .LSHAPE_DOWN).move_to_bottom (fun _ _ => true)
          (fun _ _ => false)).downmost = 19 :=
  ⟨by decide,
    (move_to_bottom_empty_board (fun _ _ => true) (fun _ _ => false)
      (mk_shape .TETRIS_TSHAPE .LSHAPE_DOWN) (fun _ _ _ _ _ _ => rfl) (by decide)).1⟩

end TetrisShape

/-! ## Commit, game-over check and one tick -/

theorem TetrisShape.persist_apply (b : Board) (t : TetrisShape) (r c : Int) :
    t.persist b r c = (t.is_display r c || b r c) := by
  simp only [TetrisShape.persist, TetrisShape.cells, List.foldl, board_set,
    TetrisShape.is_display, List.any_cons, List.any_nil, Bool.or_false]
  by_cases h3 : r = t.c3.x ∧ c = t.c3.y <;> by_cases h2 : r = t.c2.x ∧ c = t.c2.y <;>
    by_cases h1 : r = t.c1.x ∧ c = t.c1.y <;> by_cases h0 : r = t.c0.x ∧ c = t.c0.y <;>
    simp [h0, h1, h2, h3]

/-- Claim C17. For every board and every piece whose four cells are in range,
after `persist` each of the piece's four cells is occupied on the board and
every other board cell has the value it had before.  (`persist` does not
write to the piece.) -/
theorem persist_spec (b : Board) (t : TetrisShape) (h : t.inBounds = true) :
    (∀ c ∈ t.cells, inRange c.x c.y = true ∧ t.persist b c.x c.y = true)
      ∧ ∀ r c : Int, (¬ ∃ cell ∈ t.cells, cell.x = r ∧ cell.y = c) →
          t.persist b r c = b r c := by
  constructor
  · intro c hc
    refine ⟨?_, ?_⟩
    · simp only [TetrisShape.inBounds, List.all_eq_true] at h
      exact h c hc
    · rw [TetrisShape.persist_apply]
      have : t.is_display c.x c.y = true := by
        simp only [TetrisShape.is_display, List.any_eq_true]
        exact ⟨c, hc, by simp⟩
      simp [this]
  · intro r c hn
    rw [TetrisShape.persist_apply]
    have : t.is_display r c = false := by
      rw [← Bool.not_eq_true]
      intro hd
      simp only [TetrisShape.is_display, List.any_eq_true, Bool.and_eq_true,
        decide_eq_true_eq] at hd
      obtain ⟨cell, hcell, e1, e2⟩ := hd
      exact hn ⟨cell, hcell, e1.symm, e2.symm⟩
    simp [this]

theorem persist_spec_witness :
    (TetrisShape.mk_shape .TETRIS_LSHAPE .LSHAPE_DOWN).inBounds = true
      ∧ ∀ c ∈ (TetrisShape.mk_shape .TETRIS_LSHAPE .LSHAPE_DOWN).cells,
          inRange c.x c.y = true
            ∧ (TetrisShape.mk_shape .TETRIS_LSHAPE .LSHAPE_DOWN).persist initial_board c.x c.y
              = true :=
  ⟨by decide, (persist_spec initial_board (TetrisShape.mk_shape .TETRIS_LSHAPE .LSHAPE_DOWN)
    (by decide)).1⟩

theorem check_game_ending_fold (oob : Int → Int → Bool) (b : Board)
    (l : List coordinate) (s : Game) :
    l.foldl (fun s c => if board_at oob b c.x c.y then { s with is_ending := true } else s) s
      = { s with is_ending := s.is_ending || l.any (fun c => board_at oob b c.x c.y) } := by
  induction l generalizing s with
  | nil => simp
  | cons a l ih =>
    rw [List.foldl_cons, ih]
    cases h : board_at oob b a.x a.y <;> simp [h]

theorem check_game_ending_eq (oob : Int → Int → Bool) (g : Game) (t : TetrisShape)
    (h : g.pTshape = some t) :
    check_game_ending oob g
      = { g with is_ending :=
            g.is_ending || t.cells.any (fun c => board_at oob g.board_grid c.x c.y) } := by
  simp only [check_game_ending, h, check_game_ending_fold]

theorem check_game_ending_none (oob : Int → Int → Bool) (g : Game) (h : g.pTshape = none) :
    check_game_ending oob g = g := by
  simp only [check_game_ending, h]

theorem any_board_at_inBounds (oob : Int → Int → Bool) (b : Board) (t : TetrisShape)
    (h : t.inBounds = true) :
    t.cells.any (fun c => board_at oob b c.x c.y) = t.cells.any (fun c => b c.x c.y) := by
  obtain ⟨⟨a0, a1, a2, a3⟩, ⟨b0, b1, b2, b3⟩, ⟨c0, c1, c2, c3⟩, ⟨d0, d1, d2, d3⟩⟩ :=
    (TetrisShape.inBounds_iff t).1 h
  simp only [TetrisShape.cells, List.any_cons, List.any_nil, Bool.or_false]
  rw [board_at_of_inRange _ _ _ _ a0 a1 a2 a3, board_at_of_inRange _ _ _ _ b0 b1 b2 b3,
    board_at_of_inRange _ _ _ _ c0 c1 c2 c3, board_at_of_inRange _ _ _ _ d0 d1 d2 d3]

/-- Claim C18. With an in-bounds active piece and the game-over flag false
beforehand, after `check_game_ending` the flag is true if and only if at least
one of the piece's four cells is occupied on the board; with no active piece
nothing changes; the board and the piece are never modified. -/
theorem check_game_ending_spec (oob : Int → Int → Bool) (g : Game) :
    (∀ t : TetrisShape, g.pTshape = some t → t.inBounds = true → g.is_ending = false →
        ((check_game_ending oob g).is_ending = true ↔
          ∃ c ∈ t.cells, g.board_grid c.x c.y = true))
      ∧ (g.pTshape = none → check_game_ending oob g = g)
      ∧ (check_game_ending oob g).board_grid = g.board_grid
      ∧ (check_game_ending oob g).pTshape = g.pTshape := by
  refine ⟨?_, check_game_ending_none oob g, ?_, check_game_ending_pTshape oob g⟩
  · intro t ht hb he
    rw [check_game_ending_eq oob g t ht]
    simp only [he, Bool.false_or, any_board_at_inBounds oob _ t hb, List.any_eq_true]
  · cases hp : g.pTshape with
    | none => rw [check_game_ending_none oob g hp]
    | some t => rw [check_game_ending_eq oob g t hp]


theorem check_game_ending_spec_witness :
    ((check_game_ending (fun _ _ => false)
        { session_start with
          pTshape := some ⟨.TETRIS_LSHAPE, .LSHAPE_LEFT, ⟨16, 10⟩, ⟨17, 10⟩, ⟨18, 10⟩, ⟨18, 9⟩⟩ }).is_ending
        = true ↔
      ∃ c ∈ (⟨.TETRIS_LSHAPE, .LSHAPE_LEFT, ⟨16, 10⟩, ⟨17, 10⟩, ⟨18, 10⟩, ⟨18, 9⟩⟩ :
          TetrisShape).cells, initial_board c.x c.y = true) :=
  (check_game_ending_spec (fun _ _ => false)
    { session_start with
      pTshape := some ⟨.TETRIS_LSHAPE, .LSHAPE_LEFT, ⟨16, 10⟩, ⟨17, 10⟩, ⟨18, 10⟩, ⟨18, 9⟩⟩ }).1
    _ rfl (by decide) rfl

/-- Claim C16. One call of `check_grid` increases the counter `total_smashed`
by exactly the number of rows of the input board in which all 20 columns are
occupied, and by 0 when no row is full.  (The counter is a `long long`, here
an unbounded integer.) -/
theorem check_grid_counts_full_rows (g : Game) :
    (check_grid g).total_smashed
        = g.total_smashed + ((indices.filter (fun r => is_full g.board_grid r)).length : Int)
      ∧ ((∀ r : Int, 0 ≤ r → r ≤ 19 → is_full g.board_grid r = false) →
          (check_grid g).total_smashed = g.total_smashed) := by
  refine ⟨check_grid_total_smashed g, ?_⟩
  intro h
  rw [check_grid_total_smashed]
  have : indices.filter (fun r => is_full g.board_grid r) = [] := by
    rw [List.filter_eq_nil_iff]
    intro r hr
    have := (mem_indices r).1 hr
    simp [h r this.1 this.2]
  simp [full_count, this]

theorem check_grid_counts_full_rows_witness :
    (check_grid sample_game).total_smashed = sample_game.total_smashed + 3 :=
  (check_grid_counts_full_rows sample_game).1.trans (by decide)

/-- Claim C19. A `run_game` call made with no active piece creates the piece
of the drawn kind in its fixed initial layout (first cell (0,10)); within that
same call the game-over flag becomes true whenever one of those initial cells
is occupied on the board (in particular whenever (0,10) is occupied), and it
keeps its value when none is occupied.  Every one of the seven kinds can be
drawn. -/
theorem run_game_spawn (oob : Int → Int → Bool) (rnd : Nat) (uninit : SHAPE_SUBTYPE)
    (g : Game) (h : g.pTshape = none) :
    (run_game oob rnd uninit g).pTshape
        = some (TetrisShape.mk_shape (SHAPE_TYPE.static_cast (rnd % 7)) uninit)
      ∧ SHAPE_TYPE.static_cast (rnd % 7) ≠ .TETRIS_TOTALSHAPE
      ∧ (TetrisShape.mk_shape (SHAPE_TYPE.static_cast (rnd % 7)) uninit).c0 = ⟨0, 10⟩
      ∧ ((∃ c ∈ (TetrisShape.mk_shape (SHAPE_TYPE.static_cast (rnd % 7)) uninit).cells,
            g.board_grid c.x c.y = true) →
          (run_game oob rnd uninit g).is_ending = true)
      ∧ (g.board_grid 0 10 = true → (run_game oob rnd uninit g).is_ending = true)
      ∧ ((∀ c ∈ (TetrisShape.mk_shape (SHAPE_TYPE.static_cast (rnd % 7)) uninit).cells,
            g.board_grid c.x c.y = false) →
          (run_game oob rnd uninit g).is_ending = g.is_ending)
      ∧ ∀ k : SHAPE_TYPE, k ≠ .TETRIS_TOTALSHAPE → ∃ n : Nat, SHAPE_TYPE.static_cast (n % 7) = k := by
  have hne := static_cast_ne rnd
  have hb := TetrisShape.inBounds_mk_shape (SHAPE_TYPE.static_cast (rnd % 7)) uninit hne
  have hc0 : (TetrisShape.mk_shape (SHAPE_TYPE.static_cast (rnd % 7)) uninit).c0 = ⟨0, 10⟩ := by
    cases SHAPE_TYPE.static_cast (rnd % 7) <;> rfl
  have he : (run_game oob rnd uninit g).is_ending
      = (g.is_ending || (TetrisShape.mk_shape (SHAPE_TYPE.static_cast (rnd % 7)) uninit).cells.any
          (fun c => g.board_grid c.x c.y)) := by
    simp only [run_game, h]
    rw [check_game_ending_eq oob _ _ rfl]
    simp only [check_grid, any_board_at_inBounds oob _ _ hb]
  have hany : (∃ c ∈ (TetrisShape.mk_shape (SHAPE_TYPE.static_cast (rnd % 7))
      uninit).cells, g.board_grid c.x c.y = true) →
      (run_game oob rnd uninit g).is_ending = true := by
    intro hex
    rw [he]
    have : (TetrisShape.mk_shape (SHAPE_TYPE.static_cast (rnd % 7)) uninit).cells.any
        (fun c => g.board_grid c.x c.y) = true := List.any_eq_true.2 hex
    simp [this]
  refine ⟨?_, hne, hc0, hany, ?_, ?_, ?_⟩
  · simp only [run_game, h, check_grid_pTshape, check_game_ending_pTshape]
  · intro h0
    exact hany ⟨(TetrisShape.mk_shape (SHAPE_TYPE.static_cast (rnd % 7)) uninit).c0,
      List.mem_cons_self _ _, by rw [hc0]; exact h0⟩
  · intro hall
    rw [he]
    have : (TetrisShape.mk_shape (SHAPE_TYPE.static_cast (rnd % 7)) uninit).cells.any
        (fun c => g.board_grid c.x c.y) = false := by
      rw [← Bool.not_eq_true, List.any_eq_true]
      rintro ⟨c, hc, e⟩
      rw [hall c hc] at e
      exact absurd e (by simp)
    simp [this]
  · intro k hk
    cases k
    · exact ⟨0, rfl⟩
    · exact ⟨1, rfl⟩
    · exact ⟨2, rfl⟩
    · exact ⟨3, rfl⟩
    · exact ⟨4, rfl⟩
    · exact ⟨5, rfl⟩
    · exact ⟨6, rfl⟩
    · exact absurd rfl hk

theorem run_game_spawn_witness :
    session_start.pTshape = none
      ∧ (run_game (fun _ _ => false) 3 .LSHAPE_DOWN session_start).pTshape
          = some (TetrisShape.mk_shape (SHAPE_TYPE.static_cast (3 % 7)) .LSHAPE_DOWN) :=
  ⟨rfl, (run_game_spawn (fun _ _ => false) 3 .LSHAPE_DOWN session_start rfl).1⟩

/-- Claim C20. With an active piece, one `run_game` tick moves the piece down by
exactly one row, columns unchanged, when `can_move_down` holds.  Otherwise it
leaves no active piece and its board is the board `b'` that has the piece's
four cells added to the occupied cells, with the full rows of `b'` removed:
every non-full row `r` of `b'` is found `full_below b' r` rows lower, the top
`full_count b'` rows are empty, every row below them is such a moved row, and
`total_smashed` has grown by the number of removed rows.  In neither case does
the tick create a new piece. -/
theorem run_game_tick (oob : Int → Int → Bool) (rnd : Nat) (uninit : SHAPE_SUBTYPE)
    (g : Game) (t : TetrisShape) (h : g.pTshape = some t) :
    (t.can_move_down oob g.board_grid = true →
        (run_game oob rnd uninit g).pTshape = some t.move_down
          ∧ t.move_down.cells = t.cells.map (fun c => ⟨c.x + 1, c.y⟩)
          ∧ t.move_down.stype = t.stype ∧ t.move_down.shsubtype = t.shsubtype)
      ∧ (t.can_move_down oob g.board_grid = false →
        ∀ b' : Board,
          (∀ r c : Int, b' r c
            = (g.board_grid r c || t.cells.any (fun k => decide (r = k.x) && decide (c = k.y)))) →
          (run_game oob rnd uninit g).pTshape = none
            ∧ (∀ r : Int, 0 ≤ r → r ≤ 19 → is_full b' r = false →
                ∀ c : Int, 0 ≤ c → c ≤ 19 →
                  (run_game oob rnd uninit g).board_grid (r + full_below b' r) c = b' r c)
            ∧ (∀ r c : Int, 0 ≤ r → r < full_count b' → 0 ≤ c → c ≤ 19 →
                (run_game oob rnd uninit g).board_grid r c = false)
            ∧ (∀ r : Int, full_count b' ≤ r → r ≤ 19 →
                ∃ q : Int, 0 ≤ q ∧ q ≤ 19 ∧ is_full b' q = false ∧ r = q + full_below b' q)
            ∧ (run_game oob rnd uninit g).total_smashed = g.total_smashed + full_count b') := by
  constructor
  · intro hc
    refine ⟨?_, rfl, rfl, rfl⟩
    simp only [run_game, h, hc, if_true, check_grid_pTshape, check_game_ending_pTshape]
  · intro hc b' hb'
    have hp : t.persist g.board_grid = b' := by
      funext r c
      rw [TetrisShape.persist_apply, hb', Bool.or_comm]
      rfl
    have e : run_game oob rnd uninit g
        = check_grid { g with board_grid := b', pTshape := none } := by
      simp only [run_game, h, hc]
      rw [check_game_ending_none oob _ rfl, ← hp]
      rfl
    rw [e]
    refine ⟨?_, ?_, ?_, ?_, ?_⟩
    · rw [check_grid_pTshape]
    · intro r h0 h1 hf c hc0 hc1
      lift r to Nat using h0
      exact (check_grid_nonfull_row { g with board_grid := b', pTshape := none } r (by omega)
        hf).2.2 c hc0 hc1
    · intro r c h0 h1 hc0 hc1
      exact check_grid_cleared_row { g with board_grid := b', pTshape := none } r c h0 h1 hc0 hc1
    · intro r hk h1
      obtain ⟨m, hm, hpm, e⟩ :=
        check_grid_row_source { g with board_grid := b', pTshape := none } r hk h1
      exact ⟨m, by omega, by omega, hpm, e⟩
    · rw [check_grid_total_smashed]

/-- A Strip lying in the gap of the bottom row cannot move down; the tick
commits it, which completes row 19, and removes that row: no piece is left,
the cell (19,10) where the Strip lay is empty again, and one row is counted.
A newly spawned L piece on the initial board moves down one row. -/
theorem run_game_tick_witness :
    (run_game (fun _ _ => false) 0 .LSHAPE_DOWN
        { session_start with
          board_grid := gap_row_board
          pTshape := some ⟨.TETRIS_STRIPSHAPE, .STRIPSHAPE_LANDSCAPE,
            ⟨19, 10⟩, ⟨19, 11⟩, ⟨19, 12⟩, ⟨19, 13⟩⟩ }).pTshape = none
      ∧ (run_game (fun _ _ => false) 0 .LSHAPE_DOWN
        { session_start with
          board_grid := gap_row_board
          pTshape := some ⟨.TETRIS_STRIPSHAPE, .STRIPSHAPE_LANDSCAPE,
            ⟨19, 10⟩, ⟨19, 11⟩, ⟨19, 12⟩, ⟨19, 13⟩⟩ }).board_grid 19 10 = false
      ∧ (run_game (fun _ _ => false) 0 .LSHAPE_DOWN
        { session_start with
          board_grid := gap_row_board
          pTshape := some ⟨.TETRIS_STRIPSHAPE, .STRIPSHAPE_LANDSCAPE,
            ⟨19, 10⟩, ⟨19, 11⟩, ⟨19, 12⟩, ⟨19, 13⟩⟩ }).total_smashed = 2
      ∧ (run_game (fun _ _ => false) 0 .LSHAPE_DOWN
        { session_start with
          pTshape := some (TetrisShape.mk_shape .TETRIS_LSHAPE .LSHAPE_DOWN) }).pTshape
        = some (TetrisShape.mk_shape .TETRIS_LSHAPE .LSHAPE_DOWN).move_down := by
  have key := (run_game_tick (fun _ _ => false) 0 .LSHAPE_DOWN
      { session_start with
        board_grid := gap_row_board
        pTshape := some ⟨.TETRIS_STRIPSHAPE, .STRIPSHAPE_LANDSCAPE,
          ⟨19, 10⟩, ⟨19, 11⟩, ⟨19, 12⟩, ⟨19, 13⟩⟩ }
      ⟨.TETRIS_STRIPSHAPE, .STRIPSHAPE_LANDSCAPE, ⟨19, 10⟩, ⟨19, 11⟩, ⟨19, 12⟩, ⟨19, 13⟩⟩
      rfl).2 (by decide)
    (fun r c => gap_row_board r c
      || [(⟨19, 10⟩ : coordinate), ⟨19, 11⟩, ⟨19, 12⟩, ⟨19, 13⟩].any
          (fun k => decide (r = k.x) && decide (c = k.y)))
    (fun _ _ => rfl)
  obtain ⟨k1, k2, -, -, k5⟩ := key
  refine ⟨k1, ?_, ?_,
    ((run_game_tick (fun _ _ => false) 0 .LSHAPE_DOWN
      { session_start with pTshape := some (TetrisShape.mk_shape .TETRIS_LSHAPE .LSHAPE_DOWN) }
      (TetrisShape.mk_shape .TETRIS_LSHAPE .LSHAPE_DOWN) rfl).1 (by decide)).1⟩
  · have := k2 18 (by decide) (by decide) (by decide) 10 (by decide) (by decide)
    rw [show (18 : Int) + full_below (fun r c => gap_row_board r c
      || [(⟨19, 10⟩ : coordinate), ⟨19, 11⟩, ⟨19, 12⟩, ⟨19, 13⟩].any
          (fun k => decide (r = k.x) && decide (c = k.y))) 18 = 19 from by decide] at this
    rw [this]
    decide
  · rw [k5]
    decide


/-! ## Counting occupied cells across `check_grid` -/

theorem mem_indices_below (n : Nat) (q : Int) : q ∈ indices_below n ↔ 0 ≤ q ∧ q < n := by
  simp only [indices_below, List.mem_map, List.mem_range]
  constructor
  · rintro ⟨m, hm, rfl⟩
    simp only [Int.ofNat_eq_coe]
    omega
  · rintro ⟨h0, h1⟩
    refine ⟨q.toNat, by omega, ?_⟩
    simp only [Int.ofNat_eq_coe]
    omega

theorem indices_below_succ (n : Nat) : indices_below (n + 1) = indices_below n ++ [(n : Int)] := by
  simp only [indices_below, List.range_succ, List.map_append, List.map_cons, List.map_nil,
    Int.ofNat_eq_coe]

theorem count_below_succ (b : Board) (n : Nat) :
    count_below b (n + 1) = count_below b n + row_count b n := by
  simp only [count_below, indices_below_succ, List.map_append, List.sum_append, List.map_cons,
    List.map_nil, List.sum_cons, List.sum_nil, add_zero]

theorem row_count_congr (b1 b2 : Board) (r1 r2 : Int)
    (h : ∀ c : Int, 0 ≤ c → c ≤ 19 → b1 r1 c = b2 r2 c) : row_count b1 r1 = row_count b2 r2 := by
  simp only [row_count]
  apply List.countP_congr
  intro c hc
  have := (mem_indices c).1 hc
  rw [h c this.1 this.2]

theorem is_full_congr (b1 b2 : Board) (r1 r2 : Int)
    (h : ∀ c : Int, 0 ≤ c → c ≤ 19 → b1 r1 c = b2 r2 c) : is_full b1 r1 = is_full b2 r2 := by
  rw [Bool.eq_iff_iff]
  simp only [is_full, List.all_eq_true]
  constructor
  · intro h1 c hc
    have := (mem_indices c).1 hc
    rw [← h c this.1 this.2]
    exact h1 c hc
  · intro h1 c hc
    have := (mem_indices c).1 hc
    rw [h c this.1 this.2]
    exact h1 c hc

theorem row_count_of_full (b : Board) (r : Int) (h : is_full b r = true) : row_count b r = 20 := by
  have hlen : indices.length = 20 := by simp [indices]
  simp only [is_full, List.all_eq_true] at h
  rw [row_count, List.countP_eq_length.2 h, hlen]

theorem row_count_of_empty (b : Board) (r : Int)
    (h : ∀ c : Int, 0 ≤ c → c ≤ 19 → b r c = false) : row_count b r = 0 := by
  simp only [row_count, List.countP_eq_zero]
  intro c hc
  have := (mem_indices c).1 hc
  simp [h c this.1 this.2]

/-- The occupied cells of rows `0 .. n-1`, split by a predicate on rows that
holds only on full rows. -/
theorem count_below_split (b : Board) (p : Int → Bool)
    (hp : ∀ r : Int, p r = true → row_count b r = 20) (n : Nat) :
    count_below b n
      = (((indices_below n).filter (fun m => !p m)).map (row_count b)).sum
        + 20 * ((indices_below n).filter p).length := by
  induction n with
  | zero => simp [count_below, indices_below]
  | succ n ih =>
    rw [count_below_succ, ih, rows_filter_succ, rows_filter_succ]
    simp only [Int.ofNat_eq_coe]
    cases h : p (n : Int)
    · simp [h]; omega
    · simp [h, hp _ h]; omega

theorem count_below_agree (x y : Board) (k n : Nat) (hkn : k ≤ n)
    (h : ∀ r : Int, (k : Int) ≤ r → r < n → ∀ c : Int, 0 ≤ c → c ≤ 19 → x r c = y r c) :
    count_below x n + count_below y k = count_below y n + count_below x k := by
  induction n with
  | zero =>
    have : k = 0 := by omega
    subst this
    omega
  | succ n ih =>
    rcases Nat.lt_succ_iff_lt_or_eq.1 (Nat.lt_succ_of_le hkn) with h1 | h1
    · have e := ih (by omega) (fun r hr1 hr2 => h r hr1 (by push_cast; omega))
      have er : row_count x n = row_count y n :=
        row_count_congr x y n n (h n (by exact_mod_cast (by omega : k ≤ n)) (by push_cast; omega))
      rw [count_below_succ, count_below_succ, er]
      omega
    · subst h1
      omega

theorem shift_rows_sum (bk : Board) (p : Int → Bool) (n : Nat) :
    ∀ (bg : Board) (rr : Int), -1 ≤ rr - n + ((indices_below n).filter p).length →
      count_below (shift_rows bk n (bg, (indices_below n).filter p, rr)).1 (rr + 1).toNat
        = count_below (shift_rows bk n (bg, (indices_below n).filter p, rr)).1
            ((shift_rows bk n (bg, (indices_below n).filter p, rr)).2.2 + 1).toNat
          + (((indices_below n).filter (fun m => !p m)).map (row_count bk)).sum := by
  induction n with
  | zero =>
    intro bg rr _
    simp [shift_rows, indices_below]
  | succ n ih =>
    intro bg rr hrr
    by_cases hp : p n = true
    · have hf : (indices_below (n + 1)).filter p = (indices_below n).filter p ++ [Int.ofNat n] := by
        rw [rows_filter_succ]
        simp [hp]
      have hg : (indices_below (n + 1)).filter (fun m => !p m)
          = (indices_below n).filter (fun m => !p m) := by
        rw [rows_filter_succ]
        simp [hp]
      rw [hf] at hrr ⊢
      rw [shift_rows_full, hg]
      apply ih
      simp only [List.length_append, List.length_singleton] at hrr
      push_cast at hrr
      omega
    · have hp2 : p n = false := by simpa using hp
      have hf : (indices_below (n + 1)).filter p = (indices_below n).filter p := by
        rw [rows_filter_succ]
        simp [hp2]
      have hg : (indices_below (n + 1)).filter (fun m => !p m)
          = (indices_below n).filter (fun m => !p m) ++ [(n : Int)] := by
        rw [rows_filter_succ]
        simp [hp2]
      rw [hf] at hrr ⊢
      rw [shift_rows_nonfull bk bg n _ rr (fun q hq => rows_filter_lt p n q hq), hg]
      obtain ⟨i1, i2, i3, -⟩ := shift_rows_spec bk p n (copy_row bg bk rr (Int.ofNat n)) (rr - 1)
      have hih := ih (copy_row bg bk rr (Int.ofNat n)) (rr - 1) (by push_cast at hrr; omega)
      have hrr0 : 0 ≤ rr := by push_cast at hrr; omega
      have e1 : (rr + 1).toNat = rr.toNat + 1 := by omega
      have e2 : (rr - 1 + 1).toNat = rr.toNat := by omega
      have e3 : ((rr.toNat : Nat) : Int) = rr := by omega
      rw [e2] at hih
      rw [e1, count_below_succ, hih, e3]
      have er : row_count (shift_rows bk n
          (copy_row bg bk rr (Int.ofNat n), (indices_below n).filter p, rr - 1)).1 rr
          = row_count bk n := by
        apply row_count_congr
        intro c hc0 hc1
        rw [i3 rr c (Or.inl (by omega)), copy_row_apply, if_pos ⟨rfl, hc0, hc1⟩]
        rfl
      rw [er]
      simp only [List.map_append, List.sum_append, List.map_cons, List.map_nil, List.sum_cons,
        List.sum_nil, add_zero]
      omega

theorem check_grid_count (g : Game) :
    occupied_count (check_grid g).board_grid
        + 20 * ((indices_below 20).filter (is_full g.board_grid)).length
      = occupied_count g.board_grid := by
  have hsum := shift_rows_sum (backup_grid g.board_grid g.board_grid_backup)
    (is_full g.board_grid) 20 g.board_grid 19
    (by have := List.length_filter_le (is_full g.board_grid) (indices_below 20); omega)
  obtain ⟨i1, -, -, -⟩ := shift_rows_spec (backup_grid g.board_grid g.board_grid_backup)
    (is_full g.board_grid) 20 g.board_grid 19
  have hlen : ((indices_below 20).filter (is_full g.board_grid)).length ≤ 20 := by
    have := List.length_filter_le (is_full g.board_grid) (indices_below 20)
    simpa [indices_below] using this
  rw [i1] at hsum
  have e1 : ((19 : Int) + 1).toNat = 20 := by decide
  have e2 : ((19 : Int) - ((20 : Nat) : Int)
      + (((indices_below 20).filter (is_full g.board_grid)).length : Nat) + 1).toNat
      = ((indices_below 20).filter (is_full g.board_grid)).length := by
    push_cast; omega
  rw [e1, e2] at hsum
  -- rows of the backup agree with the rows of the board
  have hbk : ∀ m : Int, m ∈ (indices_below 20).filter (fun m => !is_full g.board_grid m) →
      row_count (backup_grid g.board_grid g.board_grid_backup) m = row_count g.board_grid m := by
    intro m hm
    have hm2 := (mem_indices_below 20 m).1 (List.mem_filter.1 hm).1
    apply row_count_congr
    intro c hc0 hc1
    rw [backup_grid_apply, if_pos ((inRange_iff _ _).2 ⟨hm2.1, by omega, hc0, hc1⟩)]
  rw [List.map_congr_left hbk] at hsum
  have hsplit := count_below_split g.board_grid (is_full g.board_grid)
    (fun r hr => row_count_of_full _ r hr) 20
  -- the cleared rows hold no cell, the other rows are those of the shifted board
  have hagree := count_below_agree (check_grid g).board_grid
    (shift_rows (backup_grid g.board_grid g.board_grid_backup) 20
      (g.board_grid, (indices_below 20).filter (is_full g.board_grid), 19)).1
    ((indices_below 20).filter (is_full g.board_grid)).length 20 hlen
    (by
      intro r hr1 hr2 c hc0 hc1
      rw [check_grid_board, clear_rows_apply, if_neg]
      rintro ⟨⟨-, e⟩, -⟩
      omega)
  have hzero : ∀ k : Nat, k ≤ ((indices_below 20).filter (is_full g.board_grid)).length →
      count_below (check_grid g).board_grid k = 0 := by
    intro k
    induction k with
    | zero => intro _; rfl
    | succ k ih =>
      intro hk
      rw [count_below_succ, ih (by omega), row_count_of_empty]
      intro c hc0 hc1
      rw [check_grid_board, clear_rows_apply, if_pos ⟨⟨by omega, by exact_mod_cast hk⟩, hc0, hc1⟩]
  have hz := hzero _ (le_refl _)
  have ho1 : occupied_count (check_grid g).board_grid = count_below (check_grid g).board_grid 20 :=
    rfl
  have ho2 : occupied_count g.board_grid = count_below g.board_grid 20 := rfl
  rw [ho1, ho2]
  omega


/-! ## A second `check_grid` -/

theorem check_grid_frame (g : Game) (r c : Int) (h : inRange r c = false) :
    (check_grid g).board_grid r c = g.board_grid r c := by
  have hlen : ((indices_below 20).filter (is_full g.board_grid)).length ≤ 20 := by
    have := List.length_filter_le (is_full g.board_grid) (indices_below 20)
    simpa [indices_below] using this
  have hr : ¬ (0 ≤ r ∧ r ≤ 19 ∧ 0 ≤ c ∧ c ≤ 19) := by
    intro e
    rw [(inRange_iff r c).2 e] at h
    exact absurd h (by simp)
  obtain ⟨i1, -, i3, -⟩ := shift_rows_spec (backup_grid g.board_grid g.board_grid_backup)
    (is_full g.board_grid) 20 g.board_grid 19
  rw [check_grid_board, clear_rows_apply, if_neg, i3]
  · rw [i1]
    push_cast
    by_cases hc : 0 ≤ c ∧ c ≤ 19
    · by_cases h19 : 19 < r
      · exact Or.inl h19
      · exact Or.inr (Or.inl (by omega))
    · exact Or.inr (Or.inr hc)
  · rintro ⟨⟨e1, e2⟩, e3, e4⟩
    exact hr ⟨e1, by omega, e3, e4⟩

theorem check_grid_no_full (g : Game) (r : Int) (h0 : 0 ≤ r) (h1 : r ≤ 19) :
    is_full (check_grid g).board_grid r = false := by
  by_cases hk : r < full_count g.board_grid
  · rw [← Bool.not_eq_true]
    intro hf
    simp only [is_full, List.all_eq_true] at hf
    have := hf 0 ((mem_indices 0).2 ⟨le_refl _, by omega⟩)
    rw [check_grid_cleared_row g r 0 h0 hk (le_refl _) (by omega)] at this
    exact absurd this (by simp)
  · obtain ⟨m, hm, hpm, e⟩ := check_grid_row_source g r (by omega) h1
    rw [← hpm]
    apply is_full_congr
    intro c hc0 hc1
    rw [e]
    exact (check_grid_nonfull_row g m hm hpm).2.2 c hc0 hc1

theorem full_rows_nil (b : Board)
    (h : ∀ r : Int, 0 ≤ r → r ≤ 19 → is_full b r = false) (p : Int → Bool) :
    indices.filter (fun q => p q && is_full b q) = [] := by
  rw [List.filter_eq_nil_iff]
  intro q hq
  have := (mem_indices q).1 hq
  simp [h q this.1 this.2]

theorem check_grid_of_no_full (g : Game)
    (h : ∀ r : Int, 0 ≤ r → r ≤ 19 → is_full g.board_grid r = false) :
    (check_grid g).board_grid = g.board_grid
      ∧ (check_grid g).total_smashed = g.total_smashed := by
  constructor
  · funext r c
    by_cases hin : inRange r c = true
    · obtain ⟨h0, h1, hc0, hc1⟩ := (inRange_iff r c).1 hin
      lift r to Nat using h0
      have hb : full_below g.board_grid r = 0 := by
        simp only [full_below, full_rows_nil g.board_grid h, List.length_nil, Nat.cast_zero]
      have := (check_grid_nonfull_row g r (by omega) (h r (by omega) h1)).2.2 c hc0 hc1
      rw [hb, add_zero] at this
      exact this
    · exact check_grid_frame g r c (by simpa using hin)
  · have hz : full_count g.board_grid = 0 := by
      have := full_rows_nil g.board_grid h (fun _ => true)
      simp only [Bool.true_and] at this
      simp only [full_count, this, List.length_nil, Nat.cast_zero]
    rw [check_grid_total_smashed, hz, add_zero]

/-- Claim C13. After `check_grid` no row of the board is full, and a second
`check_grid` called immediately afterwards clears no row: it leaves the board
and the counter `total_smashed` exactly as the first call left them. -/
theorem check_grid_twice (g : Game) :
    (∀ r : Int, 0 ≤ r → r ≤ 19 → is_full (check_grid g).board_grid r = false)
      ∧ full_count (check_grid g).board_grid = 0
      ∧ (check_grid (check_grid g)).board_grid = (check_grid g).board_grid
      ∧ (check_grid (check_grid g)).total_smashed = (check_grid g).total_smashed := by
  have h := check_grid_no_full g
  have h2 := check_grid_of_no_full (check_grid g) h
  refine ⟨h, ?_, h2.1, h2.2⟩
  have := full_rows_nil (check_grid g).board_grid h (fun _ => true)
  simp only [Bool.true_and] at this
  simp only [full_count, this, List.length_nil, Nat.cast_zero]

theorem check_grid_twice_witness :
    is_full (check_grid sample_game).board_grid 17 = false
      ∧ (check_grid (check_grid sample_game)).total_smashed
          = (check_grid sample_game).total_smashed :=
  ⟨(check_grid_twice sample_game).1 17 (by decide) (by decide),
    (check_grid_twice sample_game).2.2.2⟩


/-! ## Boards whose full rows are rows 5, 10 and 15 -/

theorem full_rows_5_10_15 (b : Board)
    (h : ∀ r : Int, 0 ≤ r → r ≤ 19 → (is_full b r = true ↔ (r = 5 ∨ r = 10 ∨ r = 15)))
    (p : Int → Bool) :
    indices.filter (fun q => p q && is_full b q)
      = indices.filter (fun q => p q && decide (q = 5 ∨ q = 10 ∨ q = 15)) := by
  apply List.filter_congr
  intro q hq
  have hq2 := (mem_indices q).1 hq
  have := h q hq2.1 hq2.2
  rw [Bool.eq_iff_iff]
  simp only [Bool.and_eq_true, decide_eq_true_eq, this]

theorem full_count_5_10_15 (b : Board)
    (h : ∀ r : Int, 0 ≤ r → r ≤ 19 → (is_full b r = true ↔ (r = 5 ∨ r = 10 ∨ r = 15))) :
    full_count b = 3 := by
  have := full_rows_5_10_15 b h (fun _ => true)
  simp only [Bool.true_and] at this
  simp only [full_count, this]
  decide

theorem full_below_5_10_15 (b : Board)
    (h : ∀ r : Int, 0 ≤ r → r ≤ 19 → (is_full b r = true ↔ (r = 5 ∨ r = 10 ∨ r = 15)))
    (r : Int) (h0 : 0 ≤ r) (h1 : r ≤ 19) :
    full_below b r = if r < 5 then 3 else if r < 10 then 2 else if r < 15 then 1 else 0 := by
  simp only [full_below, full_rows_5_10_15 b h (fun q => decide (r < q))]
  interval_cases r <;> decide

/-- Claim C14. For every board with `k` full rows, `check_grid` leaves rows
`0 .. k-1` entirely false and reduces the number of occupied cells by exactly
`20 * k`; in particular, when the full rows are exactly rows 5, 10 and 15,
rows 0 to 2 are entirely false afterwards and the number of occupied cells
has decreased by exactly 60. -/
theorem check_grid_occupied_count (g : Game) :
    (∀ r c : Int, 0 ≤ r → r < full_count g.board_grid → 0 ≤ c → c ≤ 19 →
        (check_grid g).board_grid r c = false)
      ∧ (occupied_count (check_grid g).board_grid : Int)
          = occupied_count g.board_grid - 20 * full_count g.board_grid
      ∧ ((∀ r : Int, 0 ≤ r → r ≤ 19 →
            (is_full g.board_grid r = true ↔ (r = 5 ∨ r = 10 ∨ r = 15))) →
          (∀ r c : Int, 0 ≤ r → r ≤ 2 → 0 ≤ c → c ≤ 19 →
              (check_grid g).board_grid r c = false)
            ∧ (occupied_count (check_grid g).board_grid : Int)
                = occupied_count g.board_grid - 60) := by
  have hcount : (occupied_count (check_grid g).board_grid : Int)
      = occupied_count g.board_grid - 20 * full_count g.board_grid := by
    have := check_grid_count g
    rw [full_count_eq]
    omega
  refine ⟨fun r c h0 h1 hc0 hc1 => check_grid_cleared_row g r c h0 h1 hc0 hc1, hcount, ?_⟩
  intro h
  have hk := full_count_5_10_15 g.board_grid h
  refine ⟨fun r c h0 h1 hc0 hc1 => check_grid_cleared_row g r c h0 (by omega) hc0 hc1, ?_⟩
  rw [hcount, hk]
  norm_num

theorem check_grid_occupied_count_witness :
    (occupied_count (check_grid sample_game).board_grid : Int)
      = occupied_count sample_game.board_grid - 60 :=
  ((check_grid_occupied_count sample_game).2.2 (by decide)).2

/-- Claim C15, as stated, fails.  On `sample_board` rows 5, 10 and 15 are full
and every other row is partially occupied, yet row 14 + 3 of the result is not
row 14 of the input: row 14 has only row 15 beneath it among the full rows and
moves by one row. -/
theorem check_grid_not_shift_by_three :
    (∀ r ∈ indices, (is_full sample_game.board_grid r = true ↔ (r = 5 ∨ r = 10 ∨ r = 15))
        ∧ 0 < row_count sample_game.board_grid r)
      ∧ ¬ (∀ r c : Int, 0 ≤ r → r < 15 → r ≠ 5 → r ≠ 10 → 0 ≤ c → c ≤ 19 →
          (check_grid sample_game).board_grid (r + 3) c = sample_game.board_grid r c) := by
  refine ⟨by decide, ?_⟩
  intro h
  have h14 := h 14 14 (by decide) (by decide) (by decide) (by decide) (by decide) (by decide)
  have h17 := (check_grid_nonfull_row sample_game 17 (by decide) (by decide)).2.2 14
    (by decide) (by decide)
  have hb : full_below sample_game.board_grid ((17 : Nat) : Int) = 0 := by decide
  rw [hb] at h17
  have e : ((17 : Nat) : Int) + 0 = 14 + 3 := by decide
  rw [e] at h17
  rw [h17] at h14
  revert h14
  decide

/-- Claim C15, amended. For every board whose rows 5, 10 and 15 are full and
whose other rows are not full, `check_grid` moves each other row down by the
number of full rows beneath it: rows 0 to 4 by 3, rows 6 to 9 by 2, rows 11 to
14 by 1, and rows 16 to 19 stay where they are. -/
theorem check_grid_rows_5_10_15 (g : Game)
    (h : ∀ r : Int, 0 ≤ r → r ≤ 19 →
      (is_full g.board_grid r = true ↔ (r = 5 ∨ r = 10 ∨ r = 15)))
    (r c : Int) (h0 : 0 ≤ r) (h1 : r ≤ 19) (h5 : r ≠ 5) (h10 : r ≠ 10) (h15 : r ≠ 15)
    (hc0 : 0 ≤ c) (hc1 : c ≤ 19) :
    (check_grid g).board_grid
        (r + (if r < 5 then 3 else if r < 10 then 2 else if r < 15 then 1 else 0)) c
      = g.board_grid r c := by
  have hnf : is_full g.board_grid r = false := by
    rw [← Bool.not_eq_true, h r h0 h1]
    omega
  rw [← full_below_5_10_15 g.board_grid h r h0 h1]
  lift r to Nat using h0
  exact (check_grid_nonfull_row g r (by omega) hnf).2.2 c hc0 hc1

theorem check_grid_rows_5_10_15_witness :
    (check_grid sample_game).board_grid (14 + 1) 14 = sample_game.board_grid 14 14 :=
  check_grid_rows_5_10_15 sample_game (by decide) 14 14 (by decide) (by decide) (by decide)
    (by decide) (by decide) (by decide) (by decide)


/-! ## Key events that are rejected, and the unconditional piece operations -/

theorem TetrisShape.move_to_bottom_of_blocked (oob : Int → Int → Bool) (b : Board)
    (t : TetrisShape) (h : t.can_move_down oob b = false) : t.move_to_bottom oob b = t := by
  simp only [TetrisShape.move_to_bottom]
  cases (19 - t.downmost).toNat with
  | zero => rfl
  | succ n => simp [TetrisShape.move_to_bottom_loop, h]

/-- Claim C21. For every state and every command handled by `key_callback`
(left, right, down, rotate): if the command's predicate is false, or there is
no active piece, the globals (piece, board, game-over flag and the rest) are
unchanged; a hard drop issued when `can_move_down` is false, or with no active
piece, likewise changes nothing, and so does any event that is not a press. -/
theorem key_callback_rejected (oob : Int → Int → Bool) (g : Game) :
    (∀ k : Key, g.pTshape = none → key_callback oob k true g = g)
      ∧ (∀ t : TetrisShape, g.pTshape = some t →
          (t.can_move_left oob g.board_grid = false → key_callback oob .LEFT true g = g)
            ∧ (t.can_move_right oob g.board_grid = false → key_callback oob .RIGHT true g = g)
            ∧ (t.can_move_down oob g.board_grid = false → key_callback oob .DOWN true g = g)
            ∧ (t.can_morph oob g.board_grid = false → key_callback oob .UP true g = g)
            ∧ (t.can_move_down oob g.board_grid = false → key_callback oob .SPACE true g = g))
      ∧ (∀ k : Key, key_callback oob k false g = g) := by
  refine ⟨?_, ?_, ?_⟩
  · intro k h
    cases k <;> simp [key_callback, h]
  · intro t h
    refine ⟨?_, ?_, ?_, ?_, ?_⟩
    · intro hc; simp [key_callback, h, hc]
    · intro hc; simp [key_callback, h, hc]
    · intro hc; simp [key_callback, h, hc]
    · intro hc; simp [key_callback, h, hc]
    · intro hc
      simp only [key_callback, h, if_true, TetrisShape.move_to_bottom_of_blocked oob _ t hc]
      rw [← h]
  · intro k
    simp [key_callback]

theorem key_callback_rejected_witness :
    key_callback (fun _ _ => false) .DOWN true
        { session_start with
          pTshape := some ⟨.TETRIS_LSHAPE, .LSHAPE_DOWN, ⟨16, 7⟩, ⟨16, 8⟩, ⟨16, 9⟩, ⟨17, 9⟩⟩ }
      = { session_start with
          pTshape := some ⟨.TETRIS_LSHAPE, .LSHAPE_DOWN, ⟨16, 7⟩, ⟨16, 8⟩, ⟨16, 9⟩, ⟨17, 9⟩⟩ } :=
  ((key_callback_rejected (fun _ _ => false)
      { session_start with
        pTshape := some ⟨.TETRIS_LSHAPE, .LSHAPE_DOWN, ⟨16, 7⟩, ⟨16, 8⟩, ⟨16, 9⟩, ⟨17, 9⟩⟩ }).2.1
    _ rfl).2.2.1 (by decide)

/-- Claim C26. For every piece, whether or not the matching predicate holds,
`move_left` subtracts 1 from the column of each of the four cells,
`move_right` adds 1 to each column and `move_down` adds 1 to each row; the
other coordinate of every cell, the kind and the rotation state are unchanged.
(The three methods do not touch the board.) -/
theorem move_translates (t : TetrisShape) :
    t.move_left.cells = t.cells.map (fun c => ⟨c.x, c.y - 1⟩)
      ∧ t.move_right.cells = t.cells.map (fun c => ⟨c.x, c.y + 1⟩)
      ∧ t.move_down.cells = t.cells.map (fun c => ⟨c.x + 1, c.y⟩)
      ∧ t.move_left.stype = t.stype ∧ t.move_left.shsubtype = t.shsubtype
      ∧ t.move_right.stype = t.stype ∧ t.move_right.shsubtype = t.shsubtype
      ∧ t.move_down.stype = t.stype ∧ t.move_down.shsubtype = t.shsubtype :=
  ⟨rfl, rfl, rfl, rfl, rfl, rfl, rfl, rfl, rfl⟩

/-- Claim C27. For every piece and every pair of integers `(r, c)`,
`is_display r c` is true if and only if one of the piece's four cells has row
`r` and column `c`. -/
theorem is_display_iff (t : TetrisShape) (r c : Int) :
    t.is_display r c = true ↔ ∃ cell ∈ t.cells, cell.x = r ∧ cell.y = c := by
  simp only [TetrisShape.is_display, List.any_eq_true, Bool.and_eq_true, decide_eq_true_eq]
  constructor
  · rintro ⟨cell, h, e1, e2⟩
    exact ⟨cell, h, e1.symm, e2.symm⟩
  · rintro ⟨cell, h, e1, e2⟩
    exact ⟨cell, h, e1.symm, e2.symm⟩

/-- Claim C28. For every board and every Square piece, at any position and
with any content of `shsubtype`, `can_morph` returns `true` and `morph` leaves
the piece, hence its four cells, unchanged. -/
theorem square_morph (oob : Int → Int → Bool) (b : Board) (t : TetrisShape)
    (h : t.stype = .TETRIS_SQUARESHAPE) :
    t.can_morph oob b = true ∧ t.morph = t ∧ t.morph.cells = t.cells := by
  simp [TetrisShape.can_morph, TetrisShape.morph, h]

theorem square_morph_witness :
    (TetrisShape.mk_shape .TETRIS_SQUARESHAPE .TSHAPE_UP).stype = .TETRIS_SQUARESHAPE
      ∧ (TetrisShape.mk_shape .TETRIS_SQUARESHAPE .TSHAPE_UP).can_morph
          (fun _ _ => true) (fun _ _ => true) = true :=
  ⟨rfl, (square_morph (fun _ _ => true) (fun _ _ => true)
    (TetrisShape.mk_shape .TETRIS_SQUARESHAPE .TSHAPE_UP) rfl).1⟩

/-- Claim C25. For each of the seven kinds the constructor yields four pairwise
distinct, edge-connected cells, all within the grid and within rows 0 to 2,
with first cell (0,10), in the canonical layout of the kind's initial rotation
state (Down for L, Gamma and T, Landscape for Strip, Vertical for LeftN and
RightN; the square has no state); for L the cells are
(0,10),(0,11),(0,12),(1,12). -/
theorem constructor_layout (k : SHAPE_TYPE) (u : SHAPE_SUBTYPE)
    (hk : k ≠ .TETRIS_TOTALSHAPE) :
    (TetrisShape.mk_shape k u).stype = k
      ∧ (TetrisShape.mk_shape k u).cells.Nodup
      ∧ edge_connected (TetrisShape.mk_shape k u).cells = true
      ∧ (TetrisShape.mk_shape k u).inBounds = true
      ∧ (∀ c ∈ (TetrisShape.mk_shape k u).cells, 0 ≤ c.x ∧ c.x ≤ 2)
      ∧ (TetrisShape.mk_shape k u).c0 = ⟨0, 10⟩
      ∧ (TetrisShape.mk_shape k u).canonical = true
      ∧ (∀ s : SHAPE_SUBTYPE, initial_state k = some s → (TetrisShape.mk_shape k u).shsubtype = s)
      ∧ (k ≠ .TETRIS_SQUARESHAPE → initial_state k ≠ none)
      ∧ (TetrisShape.mk_shape .TETRIS_LSHAPE u).cells = [⟨0, 10⟩, ⟨0, 11⟩, ⟨0, 12⟩, ⟨1, 12⟩] := by
  cases k <;> first | exact absurd rfl hk | (cases u <;> decide)

theorem constructor_layout_witness :
    SHAPE_TYPE.TETRIS_RIGHTNSHAPE ≠ .TETRIS_TOTALSHAPE
      ∧ edge_connected (TetrisShape.mk_shape .TETRIS_RIGHTNSHAPE .LSHAPE_DOWN).cells = true :=
  ⟨by decide, (constructor_layout .TETRIS_RIGHTNSHAPE .LSHAPE_DOWN (by decide)).2.2.1⟩


/-! ## Speed progression -/

theorem check_game_ending_total_smashed (oob : Int → Int → Bool) (g : Game) :
    (check_game_ending oob g).total_smashed = g.total_smashed := by
  cases hp : g.pTshape with
  | none => rw [check_game_ending_none oob g hp]
  | some t => rw [check_game_ending_eq oob g t hp]

theorem check_game_ending_board_grid (oob : Int → Int → Bool) (g : Game) :
    (check_game_ending oob g).board_grid = g.board_grid := by
  cases hp : g.pTshape with
  | none => rw [check_game_ending_none oob g hp]
  | some t => rw [check_game_ending_eq oob g t hp]

theorem run_game_total_smashed (oob : Int → Int → Bool) (rnd : Nat) (uninit : SHAPE_SUBTYPE)
    (g : Game) :
    (run_game oob rnd uninit g).total_smashed = g.total_smashed + rows_cleared oob g := by
  simp only [run_game, check_grid_total_smashed, check_game_ending_total_smashed,
    check_game_ending_board_grid, rows_cleared]
  cases hp : g.pTshape with
  | none => rfl
  | some t =>
    simp only
    cases hc : t.can_move_down oob g.board_grid <;> simp

/-- The counters after one tick of the loop are those of `tick_counters` for
the number of rows cleared in the tick. -/
theorem game_tick_counters (oob : Int → Int → Bool) (rnd : Nat) (uninit : SHAPE_SUBTYPE)
    (s : Session) :
    ((game_tick oob rnd uninit s).game.total_smashed, (game_tick oob rnd uninit s).drop_speed)
      = tick_counters (s.game.total_smashed, s.drop_speed) (rows_cleared oob s.game) := by
  simp only [game_tick, tick_counters, run_game_total_smashed]

theorem speed_step_drop_speed (ts : Int) (ds : Nat) :
    ((speed_step ts ds).2 = ds
      ∨ (ds < double_lit 10 1 ∧ (speed_step ts ds).2 = double_add ds (double_lit 1 10))) := by
  simp only [speed_step]
  split
  · rename_i h
    exact Or.inr ⟨h.2, rfl⟩
  · exact Or.inl rfl

theorem session_step_drop_speed (s : Session) (i : Input) :
    (session_step s i).drop_speed = s.drop_speed
      ∨ (s.drop_speed < double_lit 10 1
          ∧ (session_step s i).drop_speed = double_add s.drop_speed (double_lit 1 10)) := by
  cases i with
  | tick oob rnd uninit => exact speed_step_drop_speed _ _
  | key oob k press => exact Or.inl rfl

/-- The 86 values of `drop_speeds` lie between 1.6 and 10.09999999999998, and
an addition of 0.1 to one of them that is below 10.0 gives a larger one of
them. -/
theorem drop_speeds_closed :
    ∀ v ∈ drop_speeds, double_lit 16 10 ≤ v ∧ v ≤ 11644507196529131520
      ∧ (v < double_lit 10 1 →
          v < double_add v (double_lit 1 10) ∧ double_add v (double_lit 1 10) ∈ drop_speeds) := by
  decide

theorem session_run_drop_speed (is : List Input) :
    ∀ s : Session, s.drop_speed ∈ drop_speeds →
      s.drop_speed ≤ (session_run s is).drop_speed
        ∧ (session_run s is).drop_speed ∈ drop_speeds := by
  induction is with
  | nil => intro s h; exact ⟨le_refl _, h⟩
  | cons i is ih =>
    intro s h
    have hc := (drop_speeds_closed s.drop_speed h).2.2
    rcases session_step_drop_speed s i with e | ⟨hlt, e⟩
    · have := ih (session_step s i) (by rw [e]; exact h)
      rw [e] at this
      exact this
    · obtain ⟨h1, h2⟩ := hc hlt
      have := ih (session_step s i) (by rw [e]; exact h2)
      rw [e] at this
      exact ⟨le_trans (le_of_lt h1) this.1, this.2⟩

theorem session_run_append (s : Session) (is1 is2 : List Input) :
    session_run s (is1 ++ is2) = session_run (session_run s is1) is2 := by
  simp only [session_run, List.foldl_append]

/-- After any sequence of ticks and key events `drop_speed` has never
decreased and lies between 1.6 and 10.09999999999998 (the `double`
`11644507196529131520 / 2^60`). -/
theorem drop_speed_range (is1 is2 : List Input) :
    double_lit 16 10 ≤ (session_run new_session is1).drop_speed
      ∧ (session_run new_session is1).drop_speed
          ≤ (session_run new_session (is1 ++ is2)).drop_speed
      ∧ (session_run new_session (is1 ++ is2)).drop_speed ≤ 11644507196529131520 := by
  have h0 : new_session.drop_speed ∈ drop_speeds := by decide
  have h1 := session_run_drop_speed is1 new_session h0
  have h2 := session_run_drop_speed is2 (session_run new_session is1) h1.2
  rw [session_run_append]
  exact ⟨(drop_speeds_closed _ h1.2).1, h2.1, (drop_speeds_closed _ h2.2).2.1⟩

set_option maxRecDepth 100000 in
/-- The values of the model against the bit patterns of the `double`s: 1.6 is
`0x3FF999999999999A`, 0.1 is `0x3FB999999999999A`, `1.6 + 0.1` is
`0x3FFB333333333334`, 10.0 is `0x4024000000000000`, the 84th and 85th sums are
`0x4023FFFFFFFFFFF5` and `0x4024333333333328`, and the quotient of 1.0 by the
latter is `0x3FB958B67EBB9088` (significand with its leading bit, times the
power of two of the exponent, in units of `2^-60`). -/
theorem double_bit_patterns :
    double_lit 16 10 = 0x1999999999999A * 2 ^ 8
      ∧ double_lit 1 10 = 0x1999999999999A * 2 ^ 4
      ∧ double_add (double_lit 16 10) (double_lit 1 10) = 0x1B333333333334 * 2 ^ 8
      ∧ double_lit 10 1 = 0x14000000000000 * 2 ^ 11
      ∧ drop_speeds.get? 84 = some (0x13FFFFFFFFFFF5 * 2 ^ 11)
      ∧ drop_speeds.get? 85 = some (0x14333333333328 * 2 ^ 11)
      ∧ drop_interval (0x14333333333328 * 2 ^ 11) = 0x1958B67EBB9088 * 2 ^ 4 := by
  decide

theorem run_counters_append (c : Int × Nat) (ks1 ks2 : List Int) :
    run_counters c (ks1 ++ ks2) = run_counters (run_counters c ks1) ks2 := by
  simp only [run_counters, List.foldl_append]

/-- Eleven ticks that clear one row each take the counter from 1 back to 1 and
apply one speed step when `drop_speed < 10.0`. -/
theorem run_counters_eleven (v : Nat) (h : v < double_lit 10 1) :
    run_counters (1, v) (List.replicate 11 1) = (1, double_add v (double_lit 1 10)) := by
  simp [run_counters, List.replicate, tick_counters, speed_step, h]

/-- While the speed stays below 10.0, `k` periods of eleven one-row ticks apply
`k` speed steps. -/
theorem run_counters_periods (k : Nat) :
    ∀ v : Nat, (∀ j < k, (fun w => double_add w (double_lit 1 10))^[j] v < double_lit 10 1) →
      run_counters (1, v) (List.replicate (11 * k) 1)
        = (1, (fun w => double_add w (double_lit 1 10))^[k] v) := by
  induction k with
  | zero => intro v _; rfl
  | succ k ih =>
    intro v h
    have e : List.replicate (11 * (k + 1)) (1 : Int)
        = List.replicate 11 1 ++ List.replicate (11 * k) 1 := by
      rw [← List.replicate_add]
      congr 1
      omega
    rw [e, run_counters_append, run_counters_eleven v (h 0 (Nat.succ_pos k)), ih,
      Function.iterate_succ_apply]
    intro j hj
    have := h (j + 1) (Nat.succ_lt_succ hj)
    rwa [Function.iterate_succ_apply] at this

set_option maxRecDepth 100000 in
/-- Claim C24 (where the code departs from it). The local `drop_speed` is a
`double`.  From a new session, 84 periods of eleven ticks that clear one row
each apply 84 speed steps and leave `drop_speed` at 9.99999999999998
(`11529215046068447232 / 2^60`), which is below 10.0, so the test
`drop_speed < 10.0` admits one more step: after 85 periods `drop_speed` is
10.09999999999998 (`11644507196529131520 / 2^60`), above 10.0, and the drop
interval `1.0 / drop_speed` is below 0.1.  The value 10.0 is never taken. -/
theorem drop_speed_exceeds_ten :
    run_counters (new_session.game.total_smashed, new_session.drop_speed)
        (List.replicate (11 * 84) 1) = (1, 11529215046068447232)
      ∧ 11529215046068447232 < double_lit 10 1
      ∧ run_counters (new_session.game.total_smashed, new_session.drop_speed)
          (List.replicate (11 * 85) 1) = (1, 11644507196529131520)
      ∧ double_lit 10 1 = 10 * 2 ^ 60
      ∧ double_lit 10 1 < 11644507196529131520
      ∧ double_lit 1 10 = 115292150460684704
      ∧ drop_interval 11644507196529131520 = 114150644020480128
      ∧ drop_interval 11644507196529131520 < double_lit 1 10
      ∧ double_lit 10 1 ∉ drop_speeds := by
  have e84 := run_counters_periods 84 (double_lit 16 10) (by decide)
  have e85 := run_counters_periods 85 (double_lit 16 10) (by decide)
  have v84 : (fun w => double_add w (double_lit 1 10))^[84] (double_lit 16 10)
      = 11529215046068447232 := by decide
  have v85 : (fun w => double_add w (double_lit 1 10))^[85] (double_lit 16 10)
      = 11644507196529131520 := by decide
  rw [v84] at e84
  rw [v85] at e85
  exact ⟨e84, by decide, e85, by decide, by decide, by decide, by decide, by decide, by decide⟩

/-- Claim C22 (where the code departs from it). The counter starts at 1, so
with one row cleared per tick it is 12 after the 11th row: the drop speed is
still 1.6 after 10 rows and already `1.6 + 0.1`, a larger value, after the
11th, one row before the 12th.  A single tick shows the same on the globals:
with the counter at 11 (10 rows cleared so far) and one full row on the board,
the tick raises the speed. -/
theorem speed_up_on_eleventh_row :
    run_counters (new_session.game.total_smashed, new_session.drop_speed) (List.replicate 10 1)
        = (11, double_lit 16 10)
      ∧ run_counters (new_session.game.total_smashed, new_session.drop_speed)
          (List.replicate 11 1) = (1, double_add (double_lit 16 10) (double_lit 1 10))
      ∧ run_counters (new_session.game.total_smashed, new_session.drop_speed)
          (List.replicate 12 1) = (2, double_add (double_lit 16 10) (double_lit 1 10))
      ∧ double_lit 16 10 < double_add (double_lit 16 10) (double_lit 1 10)
      ∧ rows_cleared (fun _ _ => false)
          { session_start with board_grid := bottom_row_board, total_smashed := 11 } = 1
      ∧ (game_tick (fun _ _ => false) 0 .LSHAPE_DOWN
          { game := { session_start with board_grid := bottom_row_board, total_smashed := 11 },
            drop_speed := double_lit 16 10 }).drop_speed
          = double_add (double_lit 16 10) (double_lit 1 10) := by
  decide

/-- Claim C23 (where the code departs from it). The number of speed-ups applied
is the position of `drop_speed` in `drop_speeds`.  After 11 ticks of one row
each one speed-up has been applied although `11 / 12 = 0`; after 6 ticks of two
rows each, 12 rows in total, none has been applied although `12 / 12 = 1`:
the counter runs 1, 3, 5, ..., 13 and is never a multiple of 12. -/
theorem speed_ups_not_rows_div_twelve :
    drop_speeds.indexOf (run_counters (new_session.game.total_smashed, new_session.drop_speed)
        (List.replicate 11 1)).2 = 1
      ∧ (List.replicate 11 (1 : Int)).sum / 12 = 0
      ∧ drop_speeds.indexOf (run_counters
          (new_session.game.total_smashed, new_session.drop_speed) (List.replicate 6 2)).2 = 0
      ∧ (List.replicate 6 (2 : Int)).sum / 12 = 1
      ∧ (run_counters (new_session.game.total_smashed, new_session.drop_speed)
          (List.replicate 6 2)).1 = 13 := by
  decide


/-! ## A reachable state in which the active piece overlaps a landed block -/

theorem TetrisShape.any_of_unoccupied (b : Board) (t : TetrisShape)
    (h : t.unoccupied b = true) : t.cells.any (fun c => b c.x c.y) = false := by
  simp only [TetrisShape.unoccupied, List.all_eq_true, Bool.not_eq_true'] at h
  rw [← Bool.not_eq_true, List.any_eq_true]
  rintro ⟨c, hc, e⟩
  rw [h c hc] at e
  exact absurd e (by simp)

/-- A tick that spawns a piece on free cells of a board without full rows
leaves the board and a false game-over flag as they are. -/
theorem run_game_spawn_free (oob : Int → Int → Bool) (rnd : Nat) (uninit : SHAPE_SUBTYPE)
    (g : Game) (hp : g.pTshape = none) (he : g.is_ending = false)
    (hb : ∀ r : Int, 0 ≤ r → r ≤ 19 → is_full g.board_grid r = false)
    (hu : (TetrisShape.mk_shape (SHAPE_TYPE.static_cast (rnd % 7)) uninit).unoccupied
      g.board_grid = true) :
    (run_game oob rnd uninit g).pTshape
        = some (TetrisShape.mk_shape (SHAPE_TYPE.static_cast (rnd % 7)) uninit)
      ∧ (run_game oob rnd uninit g).board_grid = g.board_grid
      ∧ (run_game oob rnd uninit g).is_ending = false := by
  have hin := TetrisShape.inBounds_mk_shape (SHAPE_TYPE.static_cast (rnd % 7)) uninit
    (static_cast_ne rnd)
  simp only [run_game, hp]
  rw [check_game_ending_eq oob _ _ rfl]
  simp only [any_board_at_inBounds oob _ _ hin, TetrisShape.any_of_unoccupied _ _ hu, he,
    Bool.or_false]
  exact ⟨rfl, (check_grid_of_no_full _ hb).1, rfl⟩

/-- A tick on a board without full rows, with a piece that can move down,
moves the piece and leaves the board and a false game-over flag as they are. -/
theorem run_game_fall (oob : Int → Int → Bool) (rnd : Nat) (uninit : SHAPE_SUBTYPE)
    (g : Game) (t : TetrisShape) (hp : g.pTshape = some t) (he : g.is_ending = false)
    (hb : ∀ r : Int, 0 ≤ r → r ≤ 19 → is_full g.board_grid r = false)
    (hin : t.inBounds = true) (hd : t.can_move_down oob g.board_grid = true) :
    (run_game oob rnd uninit g).pTshape = some t.move_down
      ∧ (run_game oob rnd uninit g).board_grid = g.board_grid
      ∧ (run_game oob rnd uninit g).is_ending = false := by
  obtain ⟨hin2, hu2⟩ := (TetrisShape.moves_stay_valid oob g.board_grid t hin).2.2 hd
  simp only [run_game, hp, hd, if_true]
  rw [check_game_ending_eq oob _ _ rfl]
  simp only [any_board_at_inBounds oob _ _ hin2, TetrisShape.any_of_unoccupied _ _ hu2, he,
    Bool.or_false]
  exact ⟨rfl, (check_grid_of_no_full _ hb).1, rfl⟩

theorem run_fall (oob : Int → Int → Bool) (rnd : Nat) (uninit : SHAPE_SUBTYPE) (n : Nat) :
    ∀ (g : Game) (t : TetrisShape), g.pTshape = some t → g.is_ending = false →
      (∀ r : Int, 0 ≤ r → r ≤ 19 → is_full g.board_grid r = false) →
      t.inBounds = true →
      (∀ j : Nat, j < n → (t.shift_down j).can_move_down oob g.board_grid = true) →
      (run g (List.replicate n (Event.tick oob rnd uninit))).pTshape = some (t.shift_down n)
        ∧ (run g (List.replicate n (Event.tick oob rnd uninit))).board_grid = g.board_grid
        ∧ (run g (List.replicate n (Event.tick oob rnd uninit))).is_ending = false := by
  induction n with
  | zero =>
    intro g t hp he _ _ _
    refine ⟨?_, rfl, he⟩
    show g.pTshape = some (t.shift_down ((0 : Nat) : Int))
    rw [Nat.cast_zero, TetrisShape.shift_down_zero]
    exact hp
  | succ n ih =>
    intro g t hp he hb hin hall
    have h0 : t.can_move_down oob g.board_grid = true := by
      have := hall 0 (Nat.succ_pos n)
      simpa [TetrisShape.shift_down_zero] using this
    obtain ⟨p1, b1, e1⟩ := run_game_fall oob rnd uninit g t hp he hb hin h0
    have hin1 := ((TetrisShape.moves_stay_valid oob g.board_grid t hin).2.2 h0).1
    have := ih (run_game oob rnd uninit g) t.move_down p1 e1 (by rw [b1]; exact hb) hin1
      (by
        intro j hj
        rw [b1, TetrisShape.shift_down_move_down]
        have := hall (j + 1) (by omega)
        push_cast at this
        exact this)
    rw [b1, TetrisShape.shift_down_move_down] at this
    simp only [List.replicate, run, List.foldl_cons, step]
    push_cast
    exact this

theorem initial_board_no_full (r : Int) (h0 : 0 ≤ r) (h1 : r ≤ 19) :
    is_full initial_board r = false := by
  interval_cases r <;> decide


theorem run_cons (g : Game) (e : Event) (es : List Event) :
    run g (e :: es) = run (step g e) es := rfl

theorem run_nil (g : Game) : run g [] = g := rfl

theorem run_append (g : Game) (es1 es2 : List Event) :
    run g (es1 ++ es2) = run (run g es1) es2 := by
  simp only [run, List.foldl_append]

theorem step_tick (g : Game) (oob : Int → Int → Bool) (rnd : Nat) (uninit : SHAPE_SUBTYPE) :
    step g (Event.tick oob rnd uninit) = run_game oob rnd uninit g := rfl

theorem step_key (g : Game) (oob : Int → Int → Bool) (k : Key) (press : Bool) :
    step g (Event.key oob k press) = key_callback oob k press g := rfl

theorem key_left_moves (oob : Int → Int → Bool) (g : Game) (t : TetrisShape)
    (hp : g.pTshape = some t) (hc : t.can_move_left oob g.board_grid = true) :
    (key_callback oob .LEFT true g).pTshape = some t.move_left
      ∧ (key_callback oob .LEFT true g).board_grid = g.board_grid
      ∧ (key_callback oob .LEFT true g).is_ending = g.is_ending := by
  simp [key_callback, hp, hc]

theorem key_up_morphs (oob : Int → Int → Bool) (g : Game) (t : TetrisShape)
    (hp : g.pTshape = some t) (hc : t.can_morph oob g.board_grid = true) :
    (key_callback oob .UP true g).pTshape = some t.morph
      ∧ (key_callback oob .UP true g).board_grid = g.board_grid
      ∧ (key_callback oob .UP true g).is_ending = g.is_ending := by
  simp [key_callback, hp, hc]

/-- Claim C29 (where the code departs from it). From the start of a session:
a tick spawns an L piece, two LEFT keys move it to columns 8 to 10, sixteen
ticks bring it to rows 16 and 17, and the UP key rotates it.  In the state
reached the game-over flag is false, the board is still the initial board, and
cell 3 of the active piece is (18,9), an occupied cell of the board. -/
theorem reachable_overlap :
    (run session_start
        (Event.tick (fun _ _ => false) 0 .LSHAPE_DOWN
          :: Event.key (fun _ _ => false) .LEFT true
          :: Event.key (fun _ _ => false) .LEFT true
          :: (List.replicate 16 (Event.tick (fun _ _ => false) 0 .LSHAPE_DOWN)
              ++ [Event.key (fun _ _ => false) .UP true]))).is_ending = false
      ∧ (run session_start
        (Event.tick (fun _ _ => false) 0 .LSHAPE_DOWN
          :: Event.key (fun _ _ => false) .LEFT true
          :: Event.key (fun _ _ => false) .LEFT true
          :: (List.replicate 16 (Event.tick (fun _ _ => false) 0 .LSHAPE_DOWN)
              ++ [Event.key (fun _ _ => false) .UP true]))).pTshape
          = some ⟨.TETRIS_LSHAPE, .LSHAPE_LEFT, ⟨16, 10⟩, ⟨17, 10⟩, ⟨18, 10⟩, ⟨18, 9⟩⟩
      ∧ (run session_start
        (Event.tick (fun _ _ => false) 0 .LSHAPE_DOWN
          :: Event.key (fun _ _ => false) .LEFT true
          :: Event.key (fun _ _ => false) .LEFT true
          :: (List.replicate 16 (Event.tick (fun _ _ => false) 0 .LSHAPE_DOWN)
              ++ [Event.key (fun _ _ => false) .UP true]))).board_grid = initial_board
      ∧ initial_board 18 9 = true
      ∧ (⟨.TETRIS_LSHAPE, .LSHAPE_LEFT, ⟨16, 10⟩, ⟨17, 10⟩, ⟨18, 10⟩, ⟨18, 9⟩⟩ :
          TetrisShape).unoccupied initial_board = false := by
  obtain ⟨p1, b1, e1⟩ := run_game_spawn_free (fun _ _ => false) 0 .LSHAPE_DOWN session_start
    rfl rfl initial_board_no_full (by decide)
  have b1' : (run_game (fun _ _ => false) 0 .LSHAPE_DOWN session_start).board_grid
      = initial_board := b1
  obtain ⟨p2, b2, e2⟩ := key_left_moves (fun _ _ => false) _ _ p1 (by rw [b1']; decide)
  rw [b1'] at b2
  rw [e1] at e2
  obtain ⟨p3, b3, e3⟩ := key_left_moves (fun _ _ => false) _ _ p2 (by rw [b2]; decide)
  rw [b2] at b3
  rw [e2] at e3
  obtain ⟨p4, b4, e4⟩ := run_fall (fun _ _ => false) 0 .LSHAPE_DOWN 16 _ _ p3 e3
    (by rw [b3]; exact initial_board_no_full) (by decide) (by rw [b3]; decide)
  rw [b3] at b4
  obtain ⟨p5, b5, e5⟩ := key_up_morphs (fun _ _ => false) _ _ p4 (by rw [b4]; decide)
  rw [b4] at b5
  rw [e4] at e5
  rw [run_cons, run_cons, run_cons, run_append, run_cons, run_nil, step_tick, step_key,
    step_key, step_key]
  refine ⟨e5, ?_, b5, by decide, by decide⟩
  rw [p5]
  decide



/-! ## Which board reads stay inside the array -/

theorem run_checks_fst (oob : Int → Int → Bool) (b : Board) (l : List (Bool × Int × Int)) :
    (run_checks oob b l).1 = l.any (fun k => k.1 || board_at oob b k.2.1 k.2.2) := by
  induction l with
  | nil => rfl
  | cons k l ih =>
    obtain ⟨guard, r, c⟩ := k
    simp only [run_checks, List.any_cons]
    cases guard
    · cases h : board_at oob b r c <;> simp [h, ih]
    · simp

theorem mem_run_checks (oob : Int → Int → Bool) (b : Board) (l : List (Bool × Int × Int))
    (p : Int × Int) (h : p ∈ (run_checks oob b l).2) :
    ∃ k ∈ l, k.1 = false ∧ p = (k.2.1, k.2.2) := by
  induction l with
  | nil => simp [run_checks] at h
  | cons k l ih =>
    obtain ⟨guard, r, c⟩ := k
    simp only [run_checks] at h
    cases guard
    · simp only [Bool.false_eq_true, if_false] at h
      cases hb : board_at oob b r c
      · simp only [hb, Bool.false_eq_true, if_false, List.mem_cons] at h
        rcases h with h | h
        · exact ⟨(false, r, c), List.mem_cons_self _ _, rfl, h⟩
        · obtain ⟨k, hk, e⟩ := ih h
          exact ⟨k, List.mem_cons_of_mem _ hk, e⟩
      · simp only [hb, if_true, List.mem_singleton] at h
        exact ⟨(false, r, c), List.mem_cons_self _ _, rfl, h⟩
    · simp at h

theorem head_of_mem_run_checks (oob : Int → Int → Bool) (b : Board)
    (l : List (Bool × Int × Int)) (p : Int × Int) (h : p ∈ (run_checks oob b l).2) :
    ∀ k0 ∈ l.head?, k0.1 = false := by
  cases l with
  | nil => simp [run_checks] at h
  | cons k l =>
    obtain ⟨guard, r, c⟩ := k
    intro k0 hk0
    simp only [List.head?_cons, Option.mem_def, Option.some.injEq] at hk0
    subst hk0
    cases guard
    · rfl
    · simp [run_checks] at h

namespace TetrisShape

/-- The traced predicates return what the predicates return. -/
theorem can_move_eq_run_checks (oob : Int → Int → Bool) (b : Board) (t : TetrisShape) :
    t.can_move_left oob b
        = (if (run_checks oob b t.can_move_left_checks).1 then false
            else decide (t.leftmost > 0))
      ∧ t.can_move_right oob b
        = (if (run_checks oob b t.can_move_right_checks).1 then false
            else decide (t.rightmost < 19))
      ∧ t.can_move_down oob b
        = (if (run_checks oob b t.can_move_down_checks).1 then false
            else decide (t.downmost < 19)) := by
  simp only [run_checks_fst, can_move_left, can_move_right, can_move_down,
    can_move_left_checks, can_move_right_checks, can_move_down_checks, cells, List.map_cons,
    List.map_nil, List.any_cons, List.any_nil, Bool.false_or, Bool.or_false, and_self]

theorem can_morph_eq_run_checks (oob : Int → Int → Bool) (b : Board) (t : TetrisShape) :
    t.can_morph oob b
      = (if (run_checks oob b t.can_morph_checks).1 then false else t.can_morph_last) := by
  obtain ⟨st, ss, c0, c1, c2, c3⟩ := t
  cases st <;> cases ss <;>
    simp [run_checks_fst, can_morph, can_morph_checks, can_morph_last,
      can_morph_stripe, can_morph_lshape, can_morph_gammashape,
      can_morph_tshape, can_morph_leftnshape, can_morph_rightnshape,
      can_lshape_down_to_left, can_lshape_left_to_up, can_lshape_up_to_right,
      can_lshape_right_to_down, can_gammashape_down_to_right, can_gammashape_right_to_up,
      can_gammashape_up_to_left, can_gammashape_left_to_down,
      can_morph_stripe_checks, can_morph_lshape_checks, can_morph_gammashape_checks,
      can_morph_tshape_checks, can_morph_leftnshape_checks, can_morph_rightnshape_checks,
      can_lshape_down_to_left_checks, can_lshape_left_to_up_checks,
      can_lshape_up_to_right_checks, can_lshape_right_to_down_checks,
      can_gammashape_down_to_right_checks, can_gammashape_right_to_up_checks,
      can_gammashape_up_to_left_checks, can_gammashape_left_to_down_checks, Bool.or_assoc,
      Bool.and_assoc]


theorem can_morph_checks_in_range (t : TetrisShape) (hc : t.canonical = true)
    (hb : t.inBounds = true) (hs : t.stype ≠ .TETRIS_STRIPSHAPE) :
    ∀ k ∈ t.can_morph_checks, (∀ k0 ∈ t.can_morph_checks.head?, k0.1 = false) →
      k.1 = false → inRange k.2.1 k.2.2 = true := by
  rw [inBounds_iff] at hb
  obtain ⟨st, ss, ⟨x0, y0⟩, ⟨x1, y1⟩, ⟨x2, y2⟩, ⟨x3, y3⟩⟩ := t
  cases st <;> cases ss <;>
    simp only [canonical, layout, Bool.false_eq_true] at hc <;>
    simp only [Bool.and_eq_true, decide_eq_true_eq, coordinate.mk.injEq] at hc <;>
    first
    | exact absurd rfl hs
    | (obtain ⟨⟨⟨h1, h2⟩, h3, h4⟩, h5, h6⟩ := hc
       subst h1 h2 h3 h4 h5 h6
       simp only [can_morph_checks, can_morph_lshape_checks, can_morph_gammashape_checks,
        can_morph_tshape_checks, can_morph_leftnshape_checks, can_morph_rightnshape_checks,
        can_lshape_down_to_left_checks, can_lshape_left_to_up_checks,
        can_lshape_up_to_right_checks, can_lshape_right_to_down_checks,
        can_gammashape_down_to_right_checks, can_gammashape_right_to_up_checks,
        can_gammashape_up_to_left_checks, can_gammashape_left_to_down_checks,
        List.map_cons, List.map_nil, List.cons_append, List.nil_append, List.mem_cons,
        List.mem_singleton, List.not_mem_nil, or_false, forall_eq_or_imp, forall_eq,
        inRange_iff, decide_eq_false_iff_not, Bool.or_eq_false_iff, IsEmpty.forall_iff,
        implies_true, forall_const, List.head?_cons, List.head?_nil, Option.mem_def,
        Option.some.injEq, forall_eq', reduceCtorEq] at hb ⊢
       try omega)

/-- For every kind other than Strip, every board read of `can_morph` on a piece
in canonical layout with its four cells in the grid has both indices in
`[0,19]`. -/
theorem can_morph_lookups_in_range (oob : Int → Int → Bool) (b : Board) (t : TetrisShape)
    (hc : t.canonical = true) (hb : t.inBounds = true) (hs : t.stype ≠ .TETRIS_STRIPSHAPE) :
    ∀ p ∈ t.can_morph_lookups oob b, inRange p.1 p.2 = true := by
  have key : ∀ p ∈ (run_checks oob b t.can_morph_checks).2, inRange p.1 p.2 = true := by
    intro p hp
    obtain ⟨k, hk, e1, e2⟩ := mem_run_checks oob b _ p hp
    rw [e2]
    exact can_morph_checks_in_range t hc hb hs k hk (head_of_mem_run_checks oob b _ p hp) e1
  intro p hp
  simp only [can_morph_lookups] at hp
  split at hp
  · rcases List.mem_append.1 hp with h | h
    · exact key p h
    · exact key p h
  · exact key p hp

/-- Claim C30 (where the code departs from it). On an empty board the L piece
that a hard drop from the initial position leaves at
(18,10),(18,11),(18,12),(19,12) is in canonical layout and in the grid, and
`can_move_down` reads `board_grid[20][12]`.  In the same way `can_move_left`
reads column -1 for a piece on column 0, `can_move_right` reads column 20 for a
piece on column 19, and `can_morph` of a Strip reads row 20 or column 20 before
its bound is tested. -/
theorem can_move_down_reads_row_20 :
    ((mk_shape .TETRIS_LSHAPE .LSHAPE_DOWN).move_to_bottom (fun _ _ => false) (fun _ _ => false)
        = ⟨.TETRIS_LSHAPE, .LSHAPE_DOWN, ⟨18, 10⟩, ⟨18, 11⟩, ⟨18, 12⟩, ⟨19, 12⟩⟩)
      ∧ (⟨.TETRIS_LSHAPE, .LSHAPE_DOWN, ⟨18, 10⟩, ⟨18, 11⟩, ⟨18, 12⟩, ⟨19, 12⟩⟩ :
          TetrisShape).canonical = true
      ∧ (⟨.TETRIS_LSHAPE, .LSHAPE_DOWN, ⟨18, 10⟩, ⟨18, 11⟩, ⟨18, 12⟩, ⟨19, 12⟩⟩ :
          TetrisShape).inBounds = true
      ∧ (⟨.TETRIS_LSHAPE, .LSHAPE_DOWN, ⟨18, 10⟩, ⟨18, 11⟩, ⟨18, 12⟩, ⟨19, 12⟩⟩ :
          TetrisShape).can_move_down_lookups (fun _ _ => false) (fun _ _ => false)
          = [(19, 10), (19, 11), (19, 12), (20, 12)]
      ∧ inRange 20 12 = false
      ∧ (⟨.TETRIS_STRIPSHAPE, .STRIPSHAPE_PORTRAIT, ⟨5, 0⟩, ⟨6, 0⟩, ⟨7, 0⟩, ⟨8, 0⟩⟩ :
          TetrisShape).can_move_left_lookups (fun _ _ => false) (fun _ _ => false)
          = [(5, -1), (6, -1), (7, -1), (8, -1)]
      ∧ (⟨.TETRIS_STRIPSHAPE, .STRIPSHAPE_PORTRAIT, ⟨5, 19⟩, ⟨6, 19⟩, ⟨7, 19⟩, ⟨8, 19⟩⟩ :
          TetrisShape).can_move_right_lookups (fun _ _ => false) (fun _ _ => false)
          = [(5, 20), (6, 20), (7, 20), (8, 20)]
      ∧ (⟨.TETRIS_STRIPSHAPE, .STRIPSHAPE_LANDSCAPE, ⟨17, 10⟩, ⟨17, 11⟩, ⟨17, 12⟩, ⟨17, 13⟩⟩ :
          TetrisShape).can_morph_lookups (fun _ _ => false) (fun _ _ => false)
          = [(17, 10), (18, 10), (19, 10), (20, 10)] := by
  decide

end TetrisShape


/-! ## Rotations that `can_morph` rejects although every target cell is valid -/

namespace TetrisShape

/-- If the four cells after `morph` are in the grid and free, `can_morph`
returns `true`, provided that an L or Gamma piece in state Left has no cell in
columns 0 and 1 and an L or Gamma piece in state Up has no cell in rows 0 and 1
(the final tests `leftmost() > 1` and `upmost() > 1` of these four
transitions). -/
theorem can_morph_of_valid_target (oob : Int → Int → Bool) (b : Board) (t : TetrisShape)
    (hc : t.canonical = true) (hb : t.inBounds = true) (hu : t.unoccupied b = true)
    (hmb : t.morph.inBounds = true) (hmu : t.morph.unoccupied b = true)
    (hl : t.shsubtype = .LSHAPE_LEFT ∨ t.shsubtype = .GAMMASHAPE_LEFT → 1 < t.leftmost)
    (hup : t.shsubtype = .LSHAPE_UP ∨ t.shsubtype = .GAMMASHAPE_UP → 1 < t.upmost) :
    t.can_morph oob b = true := by
  rw [inBounds_iff] at hb hmb
  rw [unoccupied_iff] at hu hmu
  obtain ⟨st, ss, ⟨x0, y0⟩, ⟨x1, y1⟩, ⟨x2, y2⟩, ⟨x3, y3⟩⟩ := t
  cases st <;> cases ss <;>
    simp only [canonical, layout, Bool.false_eq_true] at hc <;>
    simp only [Bool.and_eq_true, decide_eq_true_eq, coordinate.mk.injEq] at hc <;>
    obtain ⟨⟨⟨h1, h2⟩, h3, h4⟩, h5, h6⟩ := hc <;>
    subst h1 h2 h3 h4 h5 h6 <;>
    simp only [morph, morph_lshape, morph_gammashape, morph_tshape, morph_stripshape,
      morph_leftnshape, morph_rightnshape] at hb hu hmb hmu <;>
    simp only [reduceCtorEq, or_self, or_false, false_or, true_or, or_true, forall_const,
      IsEmpty.forall_iff, leftmost, upmost] at hl hup <;>
    simp only [can_morph, can_morph_stripe, can_morph_lshape, can_morph_gammashape,
      can_morph_tshape, can_morph_leftnshape, can_morph_rightnshape,
      can_lshape_down_to_left, can_lshape_left_to_up, can_lshape_up_to_right,
      can_lshape_right_to_down, can_gammashape_down_to_right, can_gammashape_right_to_up,
      can_gammashape_up_to_left, can_gammashape_left_to_down,
      downmost, upmost, leftmost, rightmost, List.any_cons, List.any_nil,
      Bool.or_false, Bool.or_eq_true, decide_eq_true_eq, Bool.if_false_left,
      Bool.and_eq_true, Bool.not_eq_true', Bool.or_eq_false_iff, decide_eq_false_iff_not,
      Bool.if_true_right, Bool.if_false_right, Bool.not_or, Bool.and_true,
      Bool.not_eq_eq_eq_not, Bool.not_true, Bool.decide_eq_false] <;>
    (try simp (disch := omega) only [board_at_of_inRange]) <;>
    (try ring_nf at hu hmu ⊢) <;>
    (try (obtain ⟨u0, u1, u2, u3⟩ := hu
          obtain ⟨m0, m1, m2, m3⟩ := hmu
          simp only [u0, u1, u2, u3, m0, m1, m2, m3, Bool.false_eq_true, or_false, false_or,
            not_false_eq_true, true_and, and_true, not_true_eq_false, false_and, and_false]
          omega))

/-- On every board, `can_morph` returns `false` for an L or Gamma piece in state
Left with a cell in column 0 or 1, and for an L or Gamma piece in state Up with
a cell in row 0 or 1. -/
theorem can_morph_false_of_margin (oob : Int → Int → Bool) (b : Board) (t : TetrisShape)
    (h : ((t.stype = .TETRIS_LSHAPE ∧ t.shsubtype = .LSHAPE_LEFT
            ∨ t.stype = .TETRIS_GAMMASHAPE ∧ t.shsubtype = .GAMMASHAPE_LEFT) ∧ t.leftmost ≤ 1)
        ∨ ((t.stype = .TETRIS_LSHAPE ∧ t.shsubtype = .LSHAPE_UP
            ∨ t.stype = .TETRIS_GAMMASHAPE ∧ t.shsubtype = .GAMMASHAPE_UP) ∧ t.upmost ≤ 1)) :
    t.can_morph oob b = false := by
  obtain ⟨st, ss, c0, c1, c2, c3⟩ := t
  simp only at h
  rcases h with ⟨⟨rfl, rfl⟩ | ⟨rfl, rfl⟩, hm⟩ | ⟨⟨rfl, rfl⟩ | ⟨rfl, rfl⟩, hm⟩ <;>
    simp only [can_morph, can_morph_lshape, can_morph_gammashape, can_lshape_left_to_up,
      can_lshape_up_to_right, can_gammashape_up_to_left, can_gammashape_left_to_down] <;>
    split <;> first | rfl | (split <;> first | rfl | (simp only [decide_eq_false_iff_not]; omega))

end TetrisShape

theorem key_up_rejected (oob : Int → Int → Bool) (g : Game) (t : TetrisShape)
    (hp : g.pTshape = some t) (hc : t.can_morph oob g.board_grid = false) :
    (key_callback oob .UP true g).pTshape = some t := by
  simp [key_callback, hp, hc]

/-- Claim C31 (where the code departs from it). From the start of a session a
tick spawns an L piece and two UP keys rotate it into state Up at
(2,12),(2,11),(2,10),(1,10).  The four cells the next `morph` would produce,
(2,10),(1,10),(0,10),(0,11), are in the grid and free on the board, and the
piece is in canonical layout, in the grid and on free cells; yet `can_morph`
returns `false`, and a third UP key leaves the piece where it is.  The same
holds for an L piece in state Left, and a Gamma piece in state Left or Up, one
cell away from the edge. -/
theorem can_morph_rejects_valid_rotation :
    (run session_start
        [Event.tick (fun _ _ => false) 0 .LSHAPE_DOWN,
          Event.key (fun _ _ => false) .UP true,
          Event.key (fun _ _ => false) .UP true]).pTshape
        = some ⟨.TETRIS_LSHAPE, .LSHAPE_UP, ⟨2, 12⟩, ⟨2, 11⟩, ⟨2, 10⟩, ⟨1, 10⟩⟩
      ∧ (run session_start
        [Event.tick (fun _ _ => false) 0 .LSHAPE_DOWN,
          Event.key (fun _ _ => false) .UP true,
          Event.key (fun _ _ => false) .UP true]).board_grid = initial_board
      ∧ (⟨.TETRIS_LSHAPE, .LSHAPE_UP, ⟨2, 12⟩, ⟨2, 11⟩, ⟨2, 10⟩, ⟨1, 10⟩⟩ :
          TetrisShape).canonical = true
      ∧ (⟨.TETRIS_LSHAPE, .LSHAPE_UP, ⟨2, 12⟩, ⟨2, 11⟩, ⟨2, 10⟩, ⟨1, 10⟩⟩ :
          TetrisShape).inBounds = true
      ∧ (⟨.TETRIS_LSHAPE, .LSHAPE_UP, ⟨2, 12⟩, ⟨2, 11⟩, ⟨2, 10⟩, ⟨1, 10⟩⟩ :
          TetrisShape).unoccupied initial_board = true
      ∧ (⟨.TETRIS_LSHAPE, .LSHAPE_UP, ⟨2, 12⟩, ⟨2, 11⟩, ⟨2, 10⟩, ⟨1, 10⟩⟩ :
          TetrisShape).morph.cells = [⟨2, 10⟩, ⟨1, 10⟩, ⟨0, 10⟩, ⟨0, 11⟩]
      ∧ (⟨.TETRIS_LSHAPE, .LSHAPE_UP, ⟨2, 12⟩, ⟨2, 11⟩, ⟨2, 10⟩, ⟨1, 10⟩⟩ :
          TetrisShape).morph.inBounds = true
      ∧ (⟨.TETRIS_LSHAPE, .LSHAPE_UP, ⟨2, 12⟩, ⟨2, 11⟩, ⟨2, 10⟩, ⟨1, 10⟩⟩ :
          TetrisShape).morph.unoccupied initial_board = true
      ∧ (⟨.TETRIS_LSHAPE, .LSHAPE_UP, ⟨2, 12⟩, ⟨2, 11⟩, ⟨2, 10⟩, ⟨1, 10⟩⟩ :
          TetrisShape).can_morph (fun _ _ => false) initial_board = false
      ∧ (run session_start
        [Event.tick (fun _ _ => false) 0 .LSHAPE_DOWN,
          Event.key (fun _ _ => false) .UP true,
          Event.key (fun _ _ => false) .UP true,
          Event.key (fun _ _ => false) .UP true]).pTshape
        = some ⟨.TETRIS_LSHAPE, .LSHAPE_UP, ⟨2, 12⟩, ⟨2, 11⟩, ⟨2, 10⟩, ⟨1, 10⟩⟩
      ∧ ((⟨.TETRIS_LSHAPE, .LSHAPE_LEFT, ⟨0, 2⟩, ⟨1, 2⟩, ⟨2, 2⟩, ⟨2, 1⟩⟩ :
            TetrisShape).canonical = true
          ∧ (⟨.TETRIS_LSHAPE, .LSHAPE_LEFT, ⟨0, 2⟩, ⟨1, 2⟩, ⟨2, 2⟩, ⟨2, 1⟩⟩ :
            TetrisShape).inBounds = true
          ∧ (⟨.TETRIS_LSHAPE, .LSHAPE_LEFT, ⟨0, 2⟩, ⟨1, 2⟩, ⟨2, 2⟩, ⟨2, 1⟩⟩ :
            TetrisShape).unoccupied initial_board = true
          ∧ (⟨.TETRIS_LSHAPE, .LSHAPE_LEFT, ⟨0, 2⟩, ⟨1, 2⟩, ⟨2, 2⟩, ⟨2, 1⟩⟩ :
            TetrisShape).morph.inBounds = true
          ∧ (⟨.TETRIS_LSHAPE, .LSHAPE_LEFT, ⟨0, 2⟩, ⟨1, 2⟩, ⟨2, 2⟩, ⟨2, 1⟩⟩ :
            TetrisShape).morph.unoccupied initial_board = true
          ∧ (⟨.TETRIS_LSHAPE, .LSHAPE_LEFT, ⟨0, 2⟩, ⟨1, 2⟩, ⟨2, 2⟩, ⟨2, 1⟩⟩ :
            TetrisShape).can_morph (fun _ _ => false) initial_board = false)
      ∧ ((⟨.TETRIS_GAMMASHAPE, .GAMMASHAPE_UP, ⟨2, 8⟩, ⟨2, 9⟩, ⟨2, 10⟩, ⟨1, 10⟩⟩ :
            TetrisShape).canonical = true
          ∧ (⟨.TETRIS_GAMMASHAPE, .GAMMASHAPE_UP, ⟨2, 8⟩, ⟨2, 9⟩, ⟨2, 10⟩, ⟨1, 10⟩⟩ :
            TetrisShape).inBounds = true
          ∧ (⟨.TETRIS_GAMMASHAPE, .GAMMASHAPE_UP, ⟨2, 8⟩, ⟨2, 9⟩, ⟨2, 10⟩, ⟨1, 10⟩⟩ :
            TetrisShape).unoccupied initial_board = true
          ∧ (⟨.TETRIS_GAMMASHAPE, .GAMMASHAPE_UP, ⟨2, 8⟩, ⟨2, 9⟩, ⟨2, 10⟩, ⟨1, 10⟩⟩ :
            TetrisShape).morph.inBounds = true
          ∧ (⟨.TETRIS_GAMMASHAPE, .GAMMASHAPE_UP, ⟨2, 8⟩, ⟨2, 9⟩, ⟨2, 10⟩, ⟨1, 10⟩⟩ :
            TetrisShape).morph.unoccupied initial_board = true
          ∧ (⟨.TETRIS_GAMMASHAPE, .GAMMASHAPE_UP, ⟨2, 8⟩, ⟨2, 9⟩, ⟨2, 10⟩, ⟨1, 10⟩⟩ :
            TetrisShape).can_morph (fun _ _ => false) initial_board = false)
      ∧ ((⟨.TETRIS_GAMMASHAPE, .GAMMASHAPE_LEFT, ⟨2, 2⟩, ⟨1, 2⟩, ⟨0, 2⟩, ⟨0, 1⟩⟩ :
            TetrisShape).canonical = true
          ∧ (⟨.TETRIS_GAMMASHAPE, .GAMMASHAPE_LEFT, ⟨2, 2⟩, ⟨1, 2⟩, ⟨0, 2⟩, ⟨0, 1⟩⟩ :
            TetrisShape).inBounds = true
          ∧ (⟨.TETRIS_GAMMASHAPE, .GAMMASHAPE_LEFT, ⟨2, 2⟩, ⟨1, 2⟩, ⟨0, 2⟩, ⟨0, 1⟩⟩ :
            TetrisShape).unoccupied initial_board = true
          ∧ (⟨.TETRIS_GAMMASHAPE, .GAMMASHAPE_LEFT, ⟨2, 2⟩, ⟨1, 2⟩, ⟨0, 2⟩, ⟨0, 1⟩⟩ :
            TetrisShape).morph.inBounds = true
          ∧ (⟨.TETRIS_GAMMASHAPE, .GAMMASHAPE_LEFT, ⟨2, 2⟩, ⟨1, 2⟩, ⟨0, 2⟩, ⟨0, 1⟩⟩ :
            TetrisShape).morph.unoccupied initial_board = true
          ∧ (⟨.TETRIS_GAMMASHAPE, .GAMMASHAPE_LEFT, ⟨2, 2⟩, ⟨1, 2⟩, ⟨0, 2⟩, ⟨0, 1⟩⟩ :
            TetrisShape).can_morph (fun _ _ => false) initial_board = false) := by
  obtain ⟨p1, b1, e1⟩ := run_game_spawn_free (fun _ _ => false) 0 .LSHAPE_DOWN session_start
    rfl rfl initial_board_no_full (by decide)
  have b1' : (run_game (fun _ _ => false) 0 .LSHAPE_DOWN session_start).board_grid
      = initial_board := b1
  obtain ⟨p2, b2, e2⟩ := key_up_morphs (fun _ _ => false) _ _ p1 (by rw [b1']; decide)
  rw [b1'] at b2
  obtain ⟨p3, b3, e3⟩ := key_up_morphs (fun _ _ => false) _ _ p2 (by rw [b2]; decide)
  rw [b2] at b3
  have p4 := key_up_rejected (fun _ _ => false) _ _ p3 (by rw [b3]; decide)
  have r3 : run session_start
      [Event.tick (fun _ _ => false) 0 .LSHAPE_DOWN, Event.key (fun _ _ => false) .UP true,
        Event.key (fun _ _ => false) .UP true]
      = key_callback (fun _ _ => false) .UP true (key_callback (fun _ _ => false) .UP true
          (run_game (fun _ _ => false) 0 .LSHAPE_DOWN session_start)) := by
    rw [run_cons, run_cons, run_cons, run_nil, step_tick, step_key, step_key]
  have r4 : run session_start
      [Event.tick (fun _ _ => false) 0 .LSHAPE_DOWN, Event.key (fun _ _ => false) .UP true,
        Event.key (fun _ _ => false) .UP true, Event.key (fun _ _ => false) .UP true]
      = key_callback (fun _ _ => false) .UP true (key_callback (fun _ _ => false) .UP true
          (key_callback (fun _ _ => false) .UP true
            (run_game (fun _ _ => false) 0 .LSHAPE_DOWN session_start))) := by
    rw [run_cons, run_cons, run_cons, run_cons, run_nil, step_tick, step_key, step_key,
      step_key]
  rw [r3, r4]
  refine ⟨?_, b3, by decide, by decide, by decide, by decide, by decide, by decide, by decide,
    ?_, by decide, by decide, by decide⟩
  · rw [p3]; decide
  · rw [p4]; decide

end Tetris
